import Mathlib

/-!
# Federated API proxy: routing and aggregation

A shallow embedding of `pkg/kubefed2/proxy/proxy_server.go` and
`pkg/kubefed2/proxy/aggregate_server.go`.

* Go strings are Lean `String`s; string predicates of the Go standard library
  (`strings.HasPrefix`, `strings.HasSuffix`) work on the character lists.
* The regular expression of `getNamespaceTypeNameFromPath` is given as data and
  run by a backtracking matcher with Go's leftmost-first preference.
* HTTP handlers are functions from the request to what they leave on a fresh
  response writer, together with the request as they leave it (handlers may
  rewrite `req.URL.Path` in place) and the list of collaborator calls made.
* The central registry, the route cache, the authenticator and the backend API
  servers are fields of an environment `Env`.
-/

set_option autoImplicit false

namespace Proxy

/-! ## Strings -/

/-- Go `strings.HasPrefix(s, pre)`. -/
def HasPrefix (s pre : String) : Bool :=
  pre.data.isPrefixOf s.data

/-- Go `strings.HasSuffix(s, suf)`. -/
def HasSuffix (s suf : String) : Bool :=
  suf.data.reverse.isPrefixOf s.data.reverse

/-! ## Regular expressions (the fragment used by the path classifier) -/

/-- One piece of a pattern. Every repetition in the classifier's pattern is a
greedy star over a one-character class. -/
inductive Piece where
  /-- literal text -/
  | lit (s : List Char)
  /-- greedy `x*`, not captured -/
  | star (p : Char → Bool)
  /-- capturing group around a greedy star, `(x*)` -/
  | group (p : Char → Bool)
  /-- greedy `c?` -/
  | opt (c : Char)

/-- Greedy star with backtracking: consume as many characters of class `p` as
possible, and give characters back one at a time while the continuation `k`
(called with the consumed text and the rest of the input) fails. -/
def greedyStar {α : Type} (p : Char → Bool) (k : List Char → List Char → Option α) :
    List Char → List Char → Option α
  | taken, [] => k taken []
  | taken, c :: cs =>
    if p c then
      match greedyStar p k (taken ++ [c]) cs with
      | some r => some r
      | none => k taken (c :: cs)
    else k taken (c :: cs)

/-- Match a sequence of pieces at the start of the input, in the preference
order of a backtracking engine. Returns the captured groups (in order) and the
input left after the match. -/
def matchPieces : List Piece → List (List Char) → List Char →
    Option (List (List Char) × List Char)
  | [], caps, inp => some (caps, inp)
  | Piece.lit s :: ps, caps, inp =>
    if s.isPrefixOf inp then matchPieces ps caps (inp.drop s.length) else none
  | Piece.star p :: ps, caps, inp =>
    greedyStar p (fun _ rest => matchPieces ps caps rest) [] inp
  | Piece.group p :: ps, caps, inp =>
    greedyStar p (fun m rest => matchPieces ps (caps ++ [m]) rest) [] inp
  | Piece.opt c :: ps, caps, inp =>
    match inp with
    | d :: ds =>
      if d = c then
        match matchPieces ps caps ds with
        | some r => some r
        | none => matchPieces ps caps (d :: ds)
      else matchPieces ps caps (d :: ds)
    | [] => matchPieces ps caps []

/-- Match at the start of the input: the whole match followed by the groups. -/
def matchHere (ps : List Piece) (inp : List Char) : Option (List (List Char)) :=
  match matchPieces ps [] inp with
  | some (caps, rest) => some (inp.take (inp.length - rest.length) :: caps)
  | none => none

/-- Unanchored leftmost search: the first start position with a match wins. -/
def findFrom (ps : List Piece) : List Char → Option (List (List Char))
  | [] => matchHere ps []
  | c :: cs =>
    match matchHere ps (c :: cs) with
    | some r => some r
    | none => findFrom ps cs

/-- Go `(*Regexp).FindStringSubmatch`: `nil` (the empty slice) when there is no
match, otherwise the whole match followed by one string per group. -/
def FindStringSubmatch (ps : List Piece) (s : String) : List String :=
  match findFrom ps s.data with
  | some r => r.map String.mk
  | none => []

/-- The class `.`: any character but a newline. -/
def anyChar (c : Char) : Bool := c != '\n'

/-- The class `[^/]`. -/
def notSlash (c : Char) : Bool := c != '/'

/-- The pattern `.*/namespaces/([^/]*)/([^/]*)/?(.*)`. -/
def namespacePattern : List Piece :=
  [Piece.star anyChar, Piece.lit "/namespaces/".data, Piece.group notSlash,
   Piece.lit "/".data, Piece.group notSlash, Piece.opt '/', Piece.group anyChar]

/-- The path classifier `getNamespaceTypeNameFromPath`. -/
def getNamespaceTypeNameFromPath (path : String) : String × String × String :=
  match FindStringSubmatch namespacePattern path with
  | [_, ns, ty, nm] => (ns, ty, nm)
  | _ => ("", "", "")

/-- The test `needToGetFromMaster`. -/
def needToGetFromMaster (resourceType : String) : Bool :=
  HasPrefix resourceType "Federated"

/-! ## JSON bodies

The JSON library is not part of the proxy. A body is represented by what the
decoders of the aggregator read from it. -/

/-- A cell of a table row (Go `interface{}`): a string, a number written as an
integer, or any other JSON value (`true`, `false`, `null`, a number with a
fraction or an exponent, an array, an object), which is held as the text that
`json.Marshal` writes for the Go value it decodes to. -/
inductive Cell where
  | str (s : String)
  | int (n : Int)
  | other (json : String)
deriving DecidableEq, Repr

/-- The type `metav1beta1.TableColumnDefinition`. In a body the priority is any
integer; the field of the decoded table is an `int32`. -/
structure TableColumnDefinition where
  name : String
  type : String
  format : String
  description : String
  priority : Int
deriving DecidableEq, Repr

/-- The type `metav1beta1.TableRow`. The conditions are held as the text that
`json.Marshal` writes for the decoded `[]TableRowCondition`; the embedded object
is a `runtime.RawExtension`, raw JSON text, empty when the row has none or
`null`. -/
structure TableRow where
  cells : List Cell
  conditions : String
  object : String
deriving DecidableEq, Repr

/-- The type `metav1.ListMeta`. -/
structure ListMeta where
  selfLink : String
  resourceVersion : String
  continueToken : String
deriving DecidableEq, Repr

/-- The type `metav1beta1.Table`. -/
structure Table where
  kind : String
  apiVersion : String
  metadata : ListMeta
  columnDefinitions : List TableColumnDefinition
  rows : List TableRow
deriving DecidableEq, Repr

/-- The type `metav1.List`; an item is a `runtime.RawExtension`, raw JSON text. -/
structure ItemList where
  kind : String
  apiVersion : String
  metadata : ListMeta
  items : List String
deriving DecidableEq, Repr

/-- A JSON object as the aggregator sees it: the fields that `Interpret` and
the decoders for `Table` and `List` read. Other fields are dropped by those
decoders and are not represented. -/
structure JsonObject where
  apiVersion : String
  kind : String
  metadata : ListMeta
  columnDefinitions : List TableColumnDefinition
  rows : List TableRow
  items : List String
deriving DecidableEq, Repr

/-- Bytes of a response body. -/
inductive Payload where
  /-- bytes from which `apiVersion` and `kind` cannot be decoded: plain text,
  the empty body, malformed JSON, a JSON array or scalar -/
  | text (s : String)
  /-- the JSON value `null` -/
  | null
  /-- a JSON object -/
  | object (o : JsonObject)
deriving DecidableEq, Repr

/-- The type `schema.GroupVersionKind`. -/
structure GroupVersionKind where
  group : String
  version : String
  kind : String
deriving DecidableEq, Repr

/-- The library function `schema.ParseGroupVersion`: empty and `/` give the
empty group-version, no slash gives a version, one slash splits group and
version, more slashes are an error. -/
def ParseGroupVersion (gv : String) : Option (String × String) :=
  if gv.data.length = 0 ∨ gv = "/" then some ("", "")
  else
    match gv.data.count '/' with
    | 0 => some ("", gv)
    | 1 => some (String.mk (gv.data.takeWhile (fun c => c != '/')),
                 String.mk ((gv.data.dropWhile (fun c => c != '/')).drop 1))
    | _ => none

/-- The library function `SimpleMetaFactory.Interpret`: decode `apiVersion` and
`kind` from the body. On a decoding error or an unparsable `apiVersion` the
returned pointer is nil (`none`). -/
def Interpret (body : Payload) : Option GroupVersionKind :=
  match body with
  | Payload.text _ => none
  | Payload.null => some { group := "", version := "", kind := "" }
  | Payload.object o =>
    match ParseGroupVersion o.apiVersion with
    | some (g, v) => some { group := g, version := v, kind := o.kind }
    | none => none

/-- Zero value of `ListMeta`. -/
def ListMeta.zero : ListMeta := { selfLink := "", resourceVersion := "", continueToken := "" }

/-- The number of bits a natural number has beyond 53: the least `k` for which
`a / 2 ^ k` is below `2 ^ 53`. The first argument bounds the search and is
given as `a` itself. -/
def excessBits : Nat → Nat → Nat
  | 0, _ => 0
  | fuel + 1, a => if a < 2 ^ 53 then 0 else excessBits fuel (a / 2) + 1

/-- The `float64` nearest to a natural number: the number itself when it has at
most 53 significant bits, otherwise rounded to 53 significant bits, a tie going
to the even mantissa. -/
def roundFloat64 (a : Nat) : Nat :=
  let shift := excessBits a a
  if shift = 0 then a
  else
    let q := a / 2 ^ shift
    let r := a % 2 ^ shift
    let half := 2 ^ (shift - 1)
    let q := if r > half ∨ (r = half ∧ q % 2 = 1) then q + 1 else q
    q * 2 ^ shift

/-- What `json.Unmarshal` stores in an `interface{}` for a cell: a number
becomes a `float64` (`strconv.ParseFloat`); a number that rounds to `2 ^ 1024`
or more is out of range, a decoding error that leaves nil. -/
def decodeCell : Cell → Cell
  | Cell.int n =>
    let v := roundFloat64 n.natAbs
    if excessBits v v > 971 then Cell.other "null"
    else if n < 0 then Cell.int (-(v : Int))
    else Cell.int v
  | c => c

/-- What `json.Unmarshal` stores in the `int32` field `Priority`: a number
outside the range of `int32` is a decoding error, which leaves the field zero. -/
def decodeInt32 (n : Int) : Int :=
  if -2 ^ 31 ≤ n ∧ n < 2 ^ 31 then n else 0

/-- Go `json.Unmarshal(body, table)` into a fresh `Table`; decoding errors of
single fields are only logged by the caller. -/
def unmarshalTable (body : Payload) : Table :=
  match body with
  | Payload.object o =>
    { kind := o.kind, apiVersion := o.apiVersion, metadata := o.metadata,
      columnDefinitions :=
        o.columnDefinitions.map (fun column =>
          { column with priority := decodeInt32 column.priority }),
      rows := o.rows.map (fun row => { row with cells := row.cells.map decodeCell }) }
  | _ => { kind := "", apiVersion := "", metadata := ListMeta.zero, columnDefinitions := [], rows := [] }

/-- Go `json.Unmarshal(body, list)` into a fresh `metav1.List`. -/
def unmarshalList (body : Payload) : ItemList :=
  match body with
  | Payload.object o =>
    { kind := o.kind, apiVersion := o.apiVersion, metadata := o.metadata, items := o.items }
  | _ => { kind := "", apiVersion := "", metadata := ListMeta.zero, items := [] }

/-- The escapes that `json.Marshal` writes for the characters `<`, `>`, `&`,
U+2028 and U+2029. -/
def escapeHTML (c : Char) : List Char :=
  if c = '<' then "\\u003c".data
  else if c = '>' then "\\u003e".data
  else if c = '&' then "\\u0026".data
  else if c = '\u2028' then "\\u2028".data
  else if c = '\u2029' then "\\u2029".data
  else [c]

/-- The library function `compact` of `encoding/json` with escaping, on JSON
text: white space outside strings is dropped and the characters of `escapeHTML`
are escaped. The flags say whether the text so far ends inside a string, and
whether right after a backslash. -/
def compactFrom : Bool → Bool → List Char → List Char
  | _, _, [] => []
  | true, true, c :: cs => escapeHTML c ++ compactFrom true false cs
  | true, false, c :: cs =>
    if c = '\\' then c :: compactFrom true true cs
    else if c = '"' then c :: compactFrom false false cs
    else escapeHTML c ++ compactFrom true false cs
  | false, _, c :: cs =>
    if c = ' ' ∨ c = '\t' ∨ c = '\r' ∨ c = '\n' then compactFrom false false cs
    else if c = '"' then c :: compactFrom true false cs
    else escapeHTML c ++ compactFrom false false cs

/-- Go `json.Marshal` of a `runtime.RawExtension`: its raw text, compacted. One
that holds no bytes is written as `null` and decodes to no bytes again: it is
the empty text on both sides. -/
def marshalRaw (raw : String) : String :=
  String.mk (compactFrom false false raw.data)

/-- Go `json.Marshal(table)` for a `*Table`; a nil pointer encodes as `null`. -/
def marshalTable (table : Option Table) : Payload :=
  match table with
  | none => Payload.null
  | some t =>
    Payload.object { apiVersion := t.apiVersion, kind := t.kind, metadata := t.metadata,
                     columnDefinitions := t.columnDefinitions,
                     rows := t.rows.map (fun row => { row with object := marshalRaw row.object }),
                     items := [] }

/-- Go `json.Marshal(list)` for a non-nil `*metav1.List`. -/
def marshalList (list : ItemList) : Payload :=
  Payload.object { apiVersion := list.apiVersion, kind := list.kind, metadata := list.metadata,
                   columnDefinitions := [], rows := [], items := list.items.map marshalRaw }

/-! ## Requests, responses, collaborators -/

/-- The type `transport.ImpersonationConfig`. -/
structure ImpersonationConfig where
  userName : String
  groups : List String
  extra : List (String × List String)
deriving DecidableEq, Repr

/-- What the handlers read of an `*http.Request`. -/
structure Request where
  method : String
  /-- the field `URL.Path` -/
  path : String
  /-- the field `Host` -/
  host : String
  /-- whether the request asks for a connection upgrade (watch, exec, attach,
  portforward streams) -/
  upgrade : Bool
deriving DecidableEq, Repr

/-- What a handler leaves on a fresh `http.ResponseWriter`. -/
structure Response where
  /-- the code given to `WriteHeader`, if it was called -/
  status : Option Nat
  /-- the headers set, in order -/
  header : List (String × String)
  /-- the bytes given to `Write`, if it was called -/
  body : Option Payload
deriving DecidableEq, Repr

/-- A response writer nobody wrote to. -/
def Response.empty : Response := { status := none, header := [], body := none }

/-- Only a status code was written: `w.WriteHeader(code)`. -/
def Response.writeHeader (code : Nat) : Response := { status := some code, header := [], body := none }

/-- Go `http.Error(w, msg, code)`. -/
def httpError (msg : String) (code : Nat) : Response :=
  { status := some code,
    header := [("Content-Type", "text/plain; charset=utf-8"), ("X-Content-Type-Options", "nosniff")],
    body := some (Payload.text (msg ++ "\n")) }

/-- The type `rest.Config`: the backend address, and the rest of the
configuration (TLS material, credentials) as one value. -/
structure RestConfig where
  host : String
  credentials : String
deriving DecidableEq, Repr

/-- The transport a request leaves through. -/
inductive Transport where
  /-- the impersonating round tripper over `rest.TransportFor(cfg)` -/
  | rest (impersonate : ImpersonationConfig)
  /-- the upgrade round tripper of `makeUpgradeTransport`: the identity is the
  one its connection transport, an impersonating round tripper over a dialer
  with the given keep-alive, is built with; the request itself is wrapped by
  `HTTPWrappersForConfig`, which knows no identity of the caller -/
  | upgrade (impersonate : ImpersonationConfig) (keepalive : Int)
deriving DecidableEq, Repr

/-- A request as the backend proxy is given it for a backend API server (the
reverse proxy sends an empty path as `/`). -/
structure Outbound where
  cfg : RestConfig
  /-- the target URL: `cfg.Host` with a trailing slash -/
  target : String
  transport : Transport
  request : Request
deriving DecidableEq, Repr

/-- Calls to collaborators, in the order they are made. -/
inductive Event where
  | getClusterFromNamespace (ns : String)
  | getWorkerClustersFromNamespace (ns : String)
  | getRestConfigForCluster (clusterName : String)
  | getRestConfigsForClusters (clusterNames : List String)
  | getClusterFromCache (ns resourceType resourceName : String)
  | newDynamicProxyHandler (cfg : RestConfig) (keepalive : Int) (impersonate : ImpersonationConfig)
  | newAggregateProxyHandler (clusterNames : List String) (cfgs : List RestConfig)
  /-- a request sent to a backend API server -/
  | roundTrip (o : Outbound)
deriving DecidableEq, Repr

/-- How a handler ends. -/
inductive Outcome where
  /-- the handler returned; the response writer holds `resp` -/
  | returned (resp : Response)
  /-- the handler panicked (nil dereference, index out of range) -/
  | panicked (reason : String)
deriving DecidableEq, Repr

/-- The effect of `ServeHTTP(w, req)` on a fresh writer. -/
structure Served where
  trace : List Event
  /-- the request after the call -/
  req : Request
  result : Outcome
deriving DecidableEq, Repr

/-- An `http.Handler`. -/
abbrev Handler := Request → Served

/-- The type `user.Info` of an authenticated caller. -/
structure UserInfo where
  name : String
  groups : List String
  extra : List (String × List String)
deriving DecidableEq, Repr

/-- Result of `authenticator.AuthenticateRequest`. -/
inductive AuthResult where
  | error
  | unauthenticated
  | ok (user : UserInfo)
deriving DecidableEq, Repr

/-- The type `NamespacePlacementSpec`. -/
structure NamespacePlacement where
  masterCluster : String
  workerClusters : List String
deriving DecidableEq, Repr

/-- The world around the proxy. -/
structure Env where
  /-- the authenticator built by `newAuthenticatorFromClientCAFile`, `none`
  when building it fails -/
  authenticator : Option (Request → AuthResult)
  /-- central registry: `Get` of the `NamespacePlacement` of a namespace in
  `federation-system`, `none` on error -/
  placements : String → Option NamespacePlacement
  /-- central registry: `Get` of the `FederatedCluster` followed by
  `BuildClusterConfig`, `none` when either fails -/
  clusterConfig : String → Option RestConfig
  /-- whether `url.Parse`, `rest.TransportFor` and `makeUpgradeTransport` all
  succeed for a configuration -/
  configValid : RestConfig → Bool
  /-- the answer of a backend API server, as the upgrade-aware handler writes
  it to the response writer -/
  roundTrip : Outbound → Response

/-- The route cache `clusterCache`, a Go `map[string]string`. -/
abbrev ClusterCache := List (String × String)

/-! ## Filter -/

/-- A compiled `*regexp.Regexp`, by its method `MatchString`. -/
structure Regexp where
  MatchString : String → Bool

/-- The type `FilterServer`; `delegate` is nil until `HandlerFor` sets it. -/
structure FilterServer where
  AcceptPaths : List Regexp
  RejectPaths : List Regexp
  AcceptHosts : List Regexp
  RejectMethods : List Regexp
  delegate : Option Handler

/-- The function `matchesRegexp`. -/
def matchesRegexp (str : String) : List Regexp → Bool
  | [] => false
  | re :: regexps => if re.MatchString str then true else matchesRegexp str regexps

/-- The method `FilterServer.accept`. -/
def FilterServer.accept (f : FilterServer) (method path host : String) : Bool :=
  if matchesRegexp path f.RejectPaths then false
  else if matchesRegexp method f.RejectMethods then false
  else if matchesRegexp path f.AcceptPaths && matchesRegexp host f.AcceptHosts then true
  else false

/-- The method `FilterServer.HandlerFor`. -/
def FilterServer.HandlerFor (f : FilterServer) (delegate : Handler) : FilterServer :=
  { f with delegate := some delegate }

/-- Index of the first occurrence of `c`. -/
def indexByte (c : Char) : List Char → Option Nat
  | [] => none
  | d :: ds => if d = c then some 0 else (indexByte c ds).map (fun n => n + 1)

/-- Index of the last occurrence of `c`. -/
def lastIndexByte (c : Char) : List Char → Option Nat
  | [] => none
  | d :: ds =>
    match lastIndexByte c ds with
    | some n => some (n + 1)
    | none => if d = c then some 0 else none

/-- Go `net.SplitHostPort`; `none` stands for an error. -/
def SplitHostPort (hostport : String) : Option (String × String) :=
  let s := hostport.data
  match lastIndexByte ':' s with
  | none => none
  | some i =>
    if s.head? = some '[' then
      match indexByte ']' s with
      | none => none
      | some e =>
        if e + 1 = s.length then none
        else if e + 1 = i then
          if (indexByte '[' (s.drop 1)).isSome then none
          else if (indexByte ']' (s.drop (e + 1))).isSome then none
          else some (String.mk ((s.take e).drop 1), String.mk (s.drop (i + 1)))
        else none
    else
      if (indexByte ':' (s.take i)).isSome then none
      else if (indexByte '[' s).isSome then none
      else if (indexByte ']' s).isSome then none
      else some (String.mk (s.take i), String.mk (s.drop (i + 1)))

/-- The function `extractHost`. -/
def extractHost (header : String) : String :=
  match SplitHostPort header with
  | some (host, _) => host
  | none => header

/-- The method `FilterServer.ServeHTTP`. -/
def FilterServer.ServeHTTP (f : FilterServer) : Handler := fun req =>
  let host := extractHost req.host
  if f.accept req.method req.path host then
    match f.delegate with
    | some delegate => delegate req
    | none => { trace := [], req := req, result := Outcome.panicked "nil handler" }
  else
    { trace := [], req := req, result := Outcome.returned (httpError "Forbidden" 403) }

/-! ## Dynamic backend proxy -/

/-- Go `strings.TrimPrefix(s, pre)`. -/
def TrimPrefix (s pre : String) : String :=
  if HasPrefix s pre then String.mk (s.data.drop pre.data.length) else s

/-- The function `stripLeaveSlash`. -/
def stripLeaveSlash (pre : String) (h : Handler) : Handler := fun req =>
  let p := TrimPrefix req.path pre
  if p.data.length ≥ req.path.data.length then
    { trace := [], req := req, result := Outcome.returned (httpError "404 page not found" 404) }
  else
    let p := if p.data.length > 0 ∧ p.data.take 1 ≠ "/".data then "/" ++ p else p
    h { req with path := p }

/-- The upgrade-aware handler set up by `newDynamicProxyHandler`: an upgrade
request leaves through `UpgradeTransport`, any other request through the
impersonating transport; the answer of the backend is copied to the writer. -/
def upgradeAwareHandler (env : Env) (cfg : RestConfig) (target : String)
    (impersonateTransport upgradeTransport : Transport) : Handler := fun req =>
  let o : Outbound :=
    { cfg := cfg, target := target,
      transport := if req.upgrade then upgradeTransport else impersonateTransport,
      request := req }
  { trace := [Event.roundTrip o], req := req, result := Outcome.returned (env.roundTrip o) }

/-- The function `makeUpgradeTransport` (its error case is part of
`Env.configValid`): it is given no identity, and builds its impersonating
connection transport with the constant user name `minikube-user`. -/
def makeUpgradeTransport (keepalive : Int) : Transport :=
  Transport.upgrade { userName := "minikube-user", groups := [], extra := [] } keepalive

/-- The function `newDynamicProxyHandler`; `none` stands for an error. -/
def newDynamicProxyHandler (env : Env) (_filebase : String) (apiProxyPrefix : String)
    (_staticPrefix : String) (filter : Option FilterServer) (cfg : RestConfig)
    (keepalive : Int) (impersonateConfig : ImpersonationConfig) : Option Handler :=
  let host := if !HasSuffix cfg.host "/" then cfg.host ++ "/" else cfg.host
  if !env.configValid cfg then none
  else
    let impersonateTransport := Transport.rest impersonateConfig
    let upgradeTransport := makeUpgradeTransport keepalive
    let proxy := upgradeAwareHandler env cfg host impersonateTransport upgradeTransport
    let proxyServer : Handler :=
      match filter with
      | some f => (f.HandlerFor proxy).ServeHTTP
      | none => proxy
    let proxyServer : Handler :=
      if !HasPrefix apiProxyPrefix "/api" then stripLeaveSlash apiProxyPrefix proxyServer
      else proxyServer
    some proxyServer

/-! ## Central registry and route cache -/

/-- The function `getClusterFromNamespace`; `none` stands for an error. -/
def getClusterFromNamespace (env : Env) (ns : String) : Option String :=
  match env.placements ns with
  | none => none
  | some placement => some placement.masterCluster

/-- The function `getWorkerClustersFromNamespace`; `none` stands for an error. -/
def getWorkerClustersFromNamespace (env : Env) (ns : String) : Option (List String) :=
  match env.placements ns with
  | none => none
  | some placement => some placement.workerClusters

/-- The function `getRestConfigForCluster`; `none` stands for a nil config
returned with an error. -/
def getRestConfigForCluster (env : Env) (clusterName : String) : Option RestConfig :=
  env.clusterConfig clusterName

/-- The function `getRestConfigsForClusters`: a cluster whose lookup fails is
skipped. -/
def getRestConfigsForClusters (env : Env) : List String → List RestConfig
  | [] => []
  | clusterName :: clusterNames =>
    match env.clusterConfig clusterName with
    | none => getRestConfigsForClusters env clusterNames
    | some config => config :: getRestConfigsForClusters env clusterNames

/-- The function `getClusterFromCache`: a missing key reads as the empty
string. -/
def getClusterFromCache (clusterCache : ClusterCache) (ns resourceType resourceName : String) :
    String :=
  let key := ns ++ "/" ++ resourceType ++ "/" ++ resourceName
  (clusterCache.lookup key).getD ""

/-- The function `saveTableRowsRoutes`: its body is empty. -/
def saveTableRowsRoutes (_rows : List TableRow) (_clusterName : String)
    (clusterCache : ClusterCache) : ClusterCache :=
  clusterCache

/-- The function `saveListItemsRoutes`: its body is empty. -/
def saveListItemsRoutes (_items : List String) (_clusterName : String)
    (clusterCache : ClusterCache) : ClusterCache :=
  clusterCache

/-! ## Aggregator -/

/-- The type `aggregateServer`. -/
structure aggregateServer where
  filebase : String
  apiProxyPrefix : String
  staticPrefix : String
  filter : Option FilterServer
  clusterNames : List String
  cfgs : List RestConfig
  impersonationConfig : ImpersonationConfig
  namespaceName : String
  resourceType : String
  resourceName : String
  keepalive : Int

/-- The function `newAggregateProxyHandler`: the struct literal does not set
`keepalive`, which keeps its zero value. -/
def newAggregateProxyHandler (filebase apiProxyPrefix staticPrefix : String)
    (filter : Option FilterServer) (clusterNames : List String) (cfgs : List RestConfig)
    (_keepalive : Int) (impersonationConfig : ImpersonationConfig)
    (namespaceName resourceType resourceName : String) : aggregateServer :=
  { filebase := filebase, apiProxyPrefix := apiProxyPrefix, staticPrefix := staticPrefix,
    filter := filter, clusterNames := clusterNames, cfgs := cfgs,
    impersonationConfig := impersonationConfig, namespaceName := namespaceName,
    resourceType := resourceType, resourceName := resourceName, keepalive := 0 }

/-- Result of the first loop of `aggregateServer.ServeHTTP`. -/
inductive Collected where
  /-- the handler is left early: 501 after a failed construction, or a panic
  inside a backend handler -/
  | aborted (s : Served)
  /-- every backend was served into its recorder -/
  | done (trace : List Event) (req : Request) (responseWriters : List Response)

/-- First loop of `aggregateServer.ServeHTTP` (lines 53-62): one dynamic proxy
and one recorder per configuration, all served with the same request value. -/
def aggregateServer.record (env : Env) (S : aggregateServer) :
    List RestConfig → Request → Collected
  | [], r => Collected.done [] r []
  | cfg :: cfgs, r =>
    let built := Event.newDynamicProxyHandler cfg S.keepalive S.impersonationConfig
    match newDynamicProxyHandler env S.filebase S.apiProxyPrefix S.staticPrefix S.filter cfg
        S.keepalive S.impersonationConfig with
    | none =>
      Collected.aborted { trace := [built], req := r, result := Outcome.returned (Response.writeHeader 501) }
    | some proxyToTarget =>
      let served := proxyToTarget r
      match served.result with
      | Outcome.panicked reason =>
        Collected.aborted
          { trace := built :: served.trace, req := served.req, result := Outcome.panicked reason }
      | Outcome.returned wp =>
        match aggregateServer.record env S cfgs served.req with
        | Collected.aborted a =>
          Collected.aborted { a with trace := built :: served.trace ++ a.trace }
        | Collected.done trace req responseWriters =>
          Collected.done (built :: served.trace ++ trace) req (wp :: responseWriters)

/-- The function `addClusterToTable`. -/
def addClusterToTable (table : Table) : Table :=
  let column : TableColumnDefinition :=
    { name := "Cluster", type := "string", format := "",
      description := "Cluster name which this resource belongs to", priority := 0 }
  { table with columnDefinitions := table.columnDefinitions ++ [column] }

/-- The loop `for j := range rows { rows[j].Cells = append(rows[j].Cells, clusterName) }`. -/
def appendClusterCell (rows : List TableRow) (clusterName : String) : List TableRow :=
  rows.map (fun row => { row with cells := row.cells ++ [Cell.str clusterName] })

/-- The variables `table` and `list` of `ServeHTTP`, and the route cache. -/
structure MergeState where
  table : Option Table
  list : Option ItemList
  clusterCache : ClusterCache

/-- How the second loop of `ServeHTTP`, or one round of it, ends. -/
inductive MergeResult where
  /-- the round (the loop) ran to its end -/
  | finished (s : MergeState)
  /-- the statement `return` of the last `else` branch -/
  | returned (clusterCache : ClusterCache)
  | panicked (reason : String) (clusterCache : ClusterCache)

/-- The bytes read from a recorder: `ioutil.ReadAll(wp.Result().Body)`. -/
def recordedBody (wp : Response) : Payload :=
  wp.body.getD (Payload.text "")

/-- One round of the second loop of `ServeHTTP` (lines 78-124), for the
response of index `i`. -/
def mergeStep (i : Nat) (clusterName : String) (body : Payload) (s : MergeState) : MergeResult :=
  match Interpret body with
  | none => MergeResult.panicked "nil pointer dereference: gvk.Kind" s.clusterCache
  | some gvk =>
    if gvk.kind = "Table" then
      if i = 0 then
        let table := addClusterToTable (unmarshalTable body)
        let table := { table with rows := appendClusterCell table.rows clusterName }
        MergeResult.finished
          { s with table := some table,
                   clusterCache := saveTableRowsRoutes table.rows clusterName s.clusterCache }
      else
        let ti := unmarshalTable body
        let ti := { ti with rows := appendClusterCell ti.rows clusterName }
        match s.table with
        | none => MergeResult.panicked "nil pointer dereference: table.Rows" s.clusterCache
        | some table =>
          MergeResult.finished
            { s with table := some { table with rows := table.rows ++ ti.rows },
                     clusterCache := saveTableRowsRoutes ti.rows clusterName s.clusterCache }
    else if HasSuffix gvk.kind "List" then
      if i = 0 then
        let list := unmarshalList body
        MergeResult.finished
          { s with list := some list,
                   clusterCache := saveListItemsRoutes list.items clusterName s.clusterCache }
      else
        let ti := unmarshalList body
        match s.list with
        | none => MergeResult.panicked "nil pointer dereference: list.Items" s.clusterCache
        | some list =>
          MergeResult.finished
            { s with list := some { list with items := list.items ++ ti.items },
                     clusterCache := saveListItemsRoutes ti.items clusterName s.clusterCache }
    else MergeResult.returned s.clusterCache

/-- Second loop of `ServeHTTP` (lines 70-125), from index `i` on. -/
def mergeLoop (clusterNames : List String) : Nat → List Response → MergeState → MergeResult
  | _, [], s => MergeResult.finished s
  | i, wp :: responseWriters, s =>
    match clusterNames[i]? with
    | none => MergeResult.panicked "index out of range: S.clusterNames[i]" s.clusterCache
    | some clusterName =>
      match mergeStep i clusterName (recordedBody wp) s with
      | MergeResult.finished s2 => mergeLoop clusterNames (i + 1) responseWriters s2
      | MergeResult.returned c => MergeResult.returned c
      | MergeResult.panicked reason c => MergeResult.panicked reason c

/-- The statements `w.Header().Add("Content-Type", "application/json")` and
`w.Write(dataAll)`. -/
def writeJSON (dataAll : Payload) : Response :=
  { status := none, header := [("Content-Type", "application/json")], body := some dataAll }

/-- The method `aggregateServer.ServeHTTP`, with the route cache before and
after. -/
def aggregateServer.ServeHTTP (env : Env) (S : aggregateServer) (clusterCache : ClusterCache)
    (r : Request) : Served × ClusterCache :=
  match S.record env S.cfgs r with
  | Collected.aborted a => (a, clusterCache)
  | Collected.done trace req responseWriters =>
    match mergeLoop S.clusterNames 0 responseWriters
        { table := none, list := none, clusterCache := clusterCache } with
    | MergeResult.panicked reason c =>
      ({ trace := trace, req := req, result := Outcome.panicked reason }, c)
    | MergeResult.returned c =>
      ({ trace := trace, req := req, result := Outcome.returned Response.empty }, c)
    | MergeResult.finished s =>
      match s.list with
      | some list =>
        ({ trace := trace, req := req, result := Outcome.returned (writeJSON (marshalList list)) },
         s.clusterCache)
      | none =>
        ({ trace := trace, req := req, result := Outcome.returned (writeJSON (marshalTable s.table)) },
         s.clusterCache)

/-! ## Top dispatcher -/

/-- Put collaborator calls made earlier in front of a handler's trace. -/
def Served.after (events : List Event) (s : Served) : Served :=
  { s with trace := events ++ s.trace }

/-- End of the top handler (lines 359-367): when `proxyCfg` is not nil, build
one dynamic proxy for it and serve the request through it. -/
def serveProxyCfg (env : Env) (filebase apiProxyPrefix staticPrefix : String)
    (filter : Option FilterServer) (keepalive : Int) (impersonateConfig : ImpersonationConfig)
    (proxyCfg : Option RestConfig) (r : Request) : Served :=
  match proxyCfg with
  | none => { trace := [], req := r, result := Outcome.returned Response.empty }
  | some cfg =>
    let built := Event.newDynamicProxyHandler cfg keepalive impersonateConfig
    match newDynamicProxyHandler env filebase apiProxyPrefix staticPrefix filter cfg keepalive
        impersonateConfig with
    | none => { trace := [built], req := r, result := Outcome.returned (Response.writeHeader 501) }
    | some proxyToTarget => (proxyToTarget r).after [built]

/-- The handler returned by `newTopProxyHandler`, with the route cache before
and after the request. -/
def newTopProxyHandler (env : Env) (filebase apiProxyPrefix staticPrefix : String)
    (filter : Option FilterServer) (cfg : RestConfig) (keepalive : Int)
    (clusterCache : ClusterCache) (r : Request) : Served × ClusterCache :=
  match env.authenticator with
  | none => ({ trace := [], req := r, result := Outcome.returned (Response.writeHeader 501) }, clusterCache)
  | some authenticator =>
    match authenticator r with
    | AuthResult.error =>
      ({ trace := [], req := r, result := Outcome.returned (Response.writeHeader 501) }, clusterCache)
    | AuthResult.unauthenticated =>
      ({ trace := [], req := r, result := Outcome.returned (Response.writeHeader 401) }, clusterCache)
    | AuthResult.ok user =>
      let impersonateConfig : ImpersonationConfig :=
        { userName := user.name, groups := user.groups, extra := user.extra }
      match getNamespaceTypeNameFromPath r.path with
      | (ns, resourceType, resourceName) =>
        if ns = "" then
          (serveProxyCfg env filebase apiProxyPrefix staticPrefix filter keepalive impersonateConfig
            (some cfg) r, clusterCache)
        else if needToGetFromMaster resourceType then
          let clusterName := (getClusterFromNamespace env ns).getD ""
          let proxyCfg := getRestConfigForCluster env clusterName
          ((serveProxyCfg env filebase apiProxyPrefix staticPrefix filter keepalive
              impersonateConfig proxyCfg r).after
            [Event.getClusterFromNamespace ns, Event.getRestConfigForCluster clusterName],
           clusterCache)
        else if resourceName ≠ "" ∧
            getClusterFromCache clusterCache ns resourceType resourceName ≠ "" then
          let clusterName := getClusterFromCache clusterCache ns resourceType resourceName
          let proxyCfg := getRestConfigForCluster env clusterName
          ((serveProxyCfg env filebase apiProxyPrefix staticPrefix filter keepalive
              impersonateConfig proxyCfg r).after
            [Event.getClusterFromCache ns resourceType resourceName,
             Event.getClusterFromCache ns resourceType resourceName,
             Event.getRestConfigForCluster clusterName],
           clusterCache)
        else
          let lookups : List Event :=
            if resourceName ≠ "" then [Event.getClusterFromCache ns resourceType resourceName]
            else []
          let clusterNames := (getWorkerClustersFromNamespace env ns).getD []
          match clusterNames with
          | [clusterName] =>
            let proxyCfg := getRestConfigForCluster env clusterName
            ((serveProxyCfg env filebase apiProxyPrefix staticPrefix filter keepalive
                impersonateConfig proxyCfg r).after
              (lookups ++ [Event.getWorkerClustersFromNamespace ns,
                           Event.getRestConfigForCluster clusterName]),
             clusterCache)
          | _ =>
            let restConfigs := getRestConfigsForClusters env clusterNames
            let proxyAggregate := newAggregateProxyHandler filebase apiProxyPrefix staticPrefix
              filter clusterNames restConfigs keepalive impersonateConfig ns resourceType
              resourceName
            let served := proxyAggregate.ServeHTTP env clusterCache r
            (served.1.after
              (lookups ++ [Event.getWorkerClustersFromNamespace ns,
                           Event.getRestConfigsForClusters clusterNames,
                           Event.newAggregateProxyHandler clusterNames restConfigs]),
             served.2)

end Proxy

namespace Proxy

/-! ## Default filter -/

/-- The constant `DefaultHostAcceptRE`. -/
def DefaultHostAcceptRE : String := "^localhost$,^127\\.0\\.0\\.1$,^\\[::1\\]$"

/-- The constant `DefaultPathAcceptRE`. -/
def DefaultPathAcceptRE : String := "^.*"

/-- The constant `DefaultPathRejectRE`. -/
def DefaultPathRejectRE : String := "^/api/.*/pods/.*/attach"

/-- The constant `DefaultMethodRejectRE`. -/
def DefaultMethodRejectRE : String := "^$"

/-- A compiled pattern that starts with `^` and goes on with the given pieces:
it matches a string when the pieces match at its start. -/
def Regexp.anchored (ps : List Piece) : Regexp :=
  { MatchString := fun s => (matchPieces ps [] s.data).isSome }

/-- A compiled pattern `^literal$`, the literal written with its
metacharacters escaped: it matches that one string. -/
def Regexp.exact (literal : String) : Regexp :=
  { MatchString := fun s => decide (s = literal) }

/-- The value of `MakeRegexpArrayOrDie(DefaultPathAcceptRE)`: `^.*`. -/
def defaultAcceptPaths : List Regexp :=
  [Regexp.anchored [Piece.star anyChar]]

/-- The value of `MakeRegexpArrayOrDie(DefaultPathRejectRE)`:
`^/api/.*/pods/.*/attach`. -/
def defaultRejectPaths : List Regexp :=
  [Regexp.anchored [Piece.lit "/api/".data, Piece.star anyChar, Piece.lit "/pods/".data,
    Piece.star anyChar, Piece.lit "/attach".data]]

/-- The value of `MakeRegexpArrayOrDie(DefaultHostAcceptRE)`: `^localhost$`,
`^127\.0\.0\.1$` and `^\[::1\]$`. -/
def defaultAcceptHosts : List Regexp :=
  [Regexp.exact "localhost", Regexp.exact "127.0.0.1", Regexp.exact "[::1]"]

/-- The value of `MakeRegexpArrayOrDie(DefaultMethodRejectRE)`: `^$`. -/
def defaultRejectMethods : List Regexp :=
  [Regexp.exact ""]

/-- The filter `RunProxy` builds from the default flag values. -/
def defaultFilter : FilterServer :=
  { AcceptPaths := defaultAcceptPaths, RejectPaths := defaultRejectPaths,
    AcceptHosts := defaultAcceptHosts, RejectMethods := defaultRejectMethods, delegate := none }

end Proxy

namespace Proxy

/-! ## Route cache over time -/

/-- The key that `getClusterFromCache` builds: `fmt.Sprintf("%s/%s/%s", ...)`. -/
def cacheKey (ns resourceType resourceName : String) : String :=
  ns ++ "/" ++ resourceType ++ "/" ++ resourceName

/-- The route cache after the top handler has served a sequence of requests,
each in its own state of the world, starting from the initial empty map. The
list holds the latest request first. -/
def cacheAfter (filebase apiProxyPrefix staticPrefix : String) (filter : Option FilterServer)
    (cfg : RestConfig) (keepalive : Int) : List (Env × Request) → ClusterCache
  | [] => []
  | step :: steps =>
    cacheAfter filebase apiProxyPrefix staticPrefix filter cfg keepalive steps |>
      fun clusterCache =>
        (newTopProxyHandler step.1 filebase apiProxyPrefix staticPrefix filter cfg keepalive
          clusterCache step.2).2

/-! ## Command line -/

/-- Go `strings.Split(s, ",")` on the characters of `s`: one part more than
there are commas. -/
def splitComma : List Char → List (List Char)
  | [] => [[]]
  | c :: cs =>
    if c = ',' then [] :: splitComma cs
    else
      match splitComma cs with
      | part :: parts => (c :: part) :: parts
      | [] => [[c]]

/-- The loop of `MakeRegexpArray` over the parts: the first part that does not
compile ends it with the error. -/
def compileParts (compile : String → Except String Regexp) :
    List String → Except String (List Regexp)
  | [] => Except.ok []
  | part :: parts =>
    match compile part with
    | Except.error err => Except.error err
    | Except.ok re =>
      match compileParts compile parts with
      | Except.error err => Except.error err
      | Except.ok result => Except.ok (re :: result)

/-- The function `MakeRegexpArray`, over `regexp.Compile`: the array (nil is the
empty list) and the error (nil is `none`) it returns. -/
def MakeRegexpArray (compile : String → Except String Regexp) (str : String) :
    List Regexp × Option String :=
  match compileParts compile ((splitComma str.data).map String.mk) with
  | Except.error err => ([], some err)
  | Except.ok result => (result, none)

/-- The variable `defaultPort`. -/
def defaultPort : Int := 8001

/-- The flags that `RunProxy` reads. -/
structure ProxyFlags where
  unixSocket : String
  port : Int
  address : String
  www : String
  wwwPrefix : String
  apiPrefix : String
  acceptPaths : String
  rejectPaths : String
  acceptHosts : String
  rejectMethods : String
  disableFilter : Bool
  keepalive : Int

/-- What `RunProxy` needs from outside. -/
structure RunWorld where
  /-- the result of `getDefaultRESTConfig` -/
  defaultRESTConfig : Except String RestConfig
  /-- the library function `regexp.Compile` -/
  compile : String → Except String Regexp

/-- Calls made by `RunProxy`, in order. -/
inductive RunEvent where
  | getDefaultRESTConfig
  | NewServer (filebase apiProxyPrefix staticPrefix : String) (filtered : Bool)
      (cfg : RestConfig) (keepalive : Int)
  | Listen (address : String) (port : Int)
  | ListenUnix (path : String)
deriving DecidableEq, Repr

/-- How `RunProxy` ends. -/
inductive RunResult where
  /-- it returns the error made by `errors.New` at its first check -/
  | bothSocketAndPort (msg : String)
  /-- it returns the error of `getDefaultRESTConfig` -/
  | noRESTConfig (err : String)
  /-- the process is ended by `glog.Fatal`: a regexp that does not compile, a
  listener that cannot be opened, or the end of `ServeOnListener` -/
  | fatal
deriving DecidableEq, Repr

/-- The function `RunProxy`, up to the listener: the calls it makes and how it
ends. -/
def RunProxy (world : RunWorld) (flags : ProxyFlags) : List RunEvent × RunResult :=
  let path := flags.unixSocket
  let port := flags.port
  let address := flags.address
  if port ≠ defaultPort ∧ path ≠ "" then
    ([], RunResult.bothSocketAndPort "Don't specify both --unix-socket and --port")
  else
    match world.defaultRESTConfig with
    | Except.error err => ([RunEvent.getDefaultRESTConfig], RunResult.noRESTConfig err)
    | Except.ok clientConfig =>
      let staticPrefix :=
        if !HasSuffix flags.wwwPrefix "/" then flags.wwwPrefix ++ "/" else flags.wwwPrefix
      let staticDir := flags.www
      let apiProxyPrefix :=
        if !HasSuffix flags.apiPrefix "/" then flags.apiPrefix ++ "/" else flags.apiPrefix
      let compiled :=
        [MakeRegexpArray world.compile flags.acceptPaths,
         MakeRegexpArray world.compile flags.rejectPaths,
         MakeRegexpArray world.compile flags.acceptHosts,
         MakeRegexpArray world.compile flags.rejectMethods]
      if compiled.any (fun result => result.2.isSome) then
        ([RunEvent.getDefaultRESTConfig], RunResult.fatal)
      else
        let listening :=
          if path = "" then RunEvent.Listen address port else RunEvent.ListenUnix path
        ([RunEvent.getDefaultRESTConfig,
          RunEvent.NewServer staticDir apiProxyPrefix staticPrefix (!flags.disableFilter)
            clientConfig flags.keepalive,
          listening], RunResult.fatal)

end Proxy

/-! ## A small federation used to exercise the handlers -/

namespace Sample

open Proxy

/-- Every caller is authenticated as `alice`. -/
def alice : UserInfo := { name := "alice", groups := ["dev"], extra := [] }

/-- The impersonation configuration the top handler derives for `alice`. -/
def aliceConfig : ImpersonationConfig := { userName := "alice", groups := ["dev"], extra := [] }

/-- Backend configuration of a cluster. -/
def configOf (clusterName : String) : RestConfig :=
  { host := "https://" ++ clusterName, credentials := clusterName }

/-- The proxy's own configuration. -/
def localConfig : RestConfig := { host := "https://local", credentials := "in-cluster" }

/-- A federation with master `m`: namespace `team-a` runs on `w1` and `w2`,
`solo` on `w1` only, `team-b` on `w1`, `gone` and `w3`, where cluster `gone` is
not registered. The backends answer through `answer`. -/
def env (answer : Outbound → Response) : Env :=
  { authenticator := some (fun _ => AuthResult.ok alice)
    placements := fun ns =>
      if ns = "team-a" then some { masterCluster := "m", workerClusters := ["w1", "w2"] }
      else if ns = "solo" then some { masterCluster := "m", workerClusters := ["w1"] }
      else if ns = "team-b" then some { masterCluster := "m", workerClusters := ["w1", "gone", "w3"] }
      else none
    clusterConfig := fun c => if c = "gone" ∨ c = "" then none else some (configOf c)
    configValid := fun _ => true
    roundTrip := answer }

/-- A `GET` request for a path. -/
def get (path : String) : Request :=
  { method := "GET", path := path, host := "localhost:8001", upgrade := false }

/-- Every backend answers with a `PodList` of two items, JSON strings naming
its host. -/
def podList (o : Outbound) : Response :=
  { status := some 200, header := [("Content-Type", "application/json")],
    body := some (Payload.object
      { apiVersion := "v1", kind := "PodList", metadata := ListMeta.zero, columnDefinitions := [],
        rows := [],
        items := ["\"" ++ o.cfg.host ++ "/pod-a\"", "\"" ++ o.cfg.host ++ "/pod-b\""] }) }

/-- The one column of the sample tables. -/
def nameColumn : TableColumnDefinition :=
  { name := "Name", type := "string", format := "name", description := "Name of the pod",
    priority := 0 }

/-- Every backend answers with a `Table` of one row whose cell is its host. -/
def podTable (o : Outbound) : Response :=
  { status := some 200, header := [("Content-Type", "application/json")],
    body := some (Payload.object
      { apiVersion := "meta.k8s.io/v1beta1", kind := "Table", metadata := ListMeta.zero,
        columnDefinitions := [nameColumn],
        rows := [{ cells := [Cell.str o.cfg.host], conditions := "", object := "" }],
        items := [] }) }

/-- Every backend answers `404 page not found` in plain text. -/
def notFound (_o : Outbound) : Response :=
  httpError "404 page not found" 404

/-- Every backend answers with a `Status` object. -/
def forbidden (_o : Outbound) : Response :=
  { status := some 403, header := [("Content-Type", "application/json")],
    body := some (Payload.object
      { apiVersion := "v1", kind := "Status", metadata := ListMeta.zero, columnDefinitions := [],
        rows := [], items := [] }) }

/-- The top handler of the sample proxy: prefix `/`, no filter, keep-alive 5. -/
def top (answer : Outbound → Response) (clusterCache : ClusterCache) (r : Request) :
    Served × ClusterCache :=
  newTopProxyHandler (env answer) "" "/" "/static/" none localConfig 5 clusterCache r

/-- An aggregator over `w1` and `w2` as the top handler builds it. -/
def aggregate : aggregateServer :=
  newAggregateProxyHandler "" "/" "/static/" none ["w1", "w2"] [configOf "w1", configOf "w2"] 5
    aliceConfig "team-a" "pods" ""

/-- The request `GET /api/v1/namespaces/team-a/pods`. -/
def podsRequest : Request := get "/api/v1/namespaces/team-a/pods"

/-- The request as it reaches the backend of a cluster over the impersonating
transport. -/
def outbound (clusterName : String) (r : Request) : Outbound :=
  { cfg := configOf clusterName, target := "https://" ++ clusterName ++ "/",
    transport := Transport.rest aliceConfig, request := r }

/-- The collaborator calls of `aggregate` for a request: one dynamic proxy per
worker, built with keep-alive 0. -/
def aggregateTrace (r : Request) : List Event :=
  [Event.newDynamicProxyHandler (configOf "w1") 0 aliceConfig, Event.roundTrip (outbound "w1" r),
   Event.newDynamicProxyHandler (configOf "w2") 0 aliceConfig, Event.roundTrip (outbound "w2" r)]

/-- The list that `aggregate` emits when both workers answer with `podList`. -/
def mergedPods : JsonObject :=
  { apiVersion := "v1", kind := "PodList", metadata := ListMeta.zero, columnDefinitions := [],
    rows := [],
    items := ["\"https://w1/pod-a\"", "\"https://w1/pod-b\"", "\"https://w2/pod-a\"",
              "\"https://w2/pod-b\""] }

/-- The request `GET /api/v1/namespaces/team-b/pods`. -/
def teamBRequest : Request := get "/api/v1/namespaces/team-b/pods"

/-- The sample federation with another authenticator. -/
def envWithAuthenticator (authenticator : Option (Request → AuthResult)) : Env :=
  { env podList with authenticator := authenticator }

/-- A federation in which namespace `x` is placed on the given workers (no
placement at all for `none`); every cluster is registered. -/
def envOfX (workers : Option (List String)) (answer : Outbound → Response) : Env :=
  { authenticator := some (fun _ => AuthResult.ok alice)
    placements := fun ns =>
      if ns = "x" then workers.map (fun ws => { masterCluster := "m", workerClusters := ws })
      else none
    clusterConfig := fun c => if c = "" then none else some (configOf c)
    configValid := fun _ => true
    roundTrip := answer }

/-- The top handler over `envOfX` with the default filter, prefix `/` and
keep-alive 5. -/
def filteredTop (workers : Option (List String)) (r : Request) : Served × ClusterCache :=
  newTopProxyHandler (envOfX workers podList) "" "/" "/static/" (some defaultFilter) localConfig 5
    [] r

/-- The request of a client that attaches to pod `y` of namespace `x`. -/
def attachRequest (method host : String) : Request :=
  { method := method, path := "/api/v1/namespaces/x/pods/y/attach", host := host, upgrade := true }

/-- An upgrade request (exec) for a pod of namespace `solo`. -/
def execRequest : Request :=
  { method := "POST", path := "/api/v1/namespaces/solo/pods/p/exec", host := "localhost:8001",
    upgrade := true }

/-- The dynamic proxy for `w1` under the prefix `/proxy/` with the default
filter, applied to a request; `none` when it cannot be built. -/
def prefixedProxy (r : Request) : Option Served :=
  (newDynamicProxyHandler (env podList) "" "/proxy/" "/static/" (some defaultFilter)
    (configOf "w1") 5 aliceConfig).map (fun h => h r)

/-- The backend proxy for `w1` that the default filter delegates to. -/
def backendW1 : Handler :=
  upgradeAwareHandler (env podList) (configOf "w1") "https://w1/" (Transport.rest aliceConfig)
    (makeUpgradeTransport 5)

/-- The handler `newDynamicProxyHandler` builds for `w1` under the prefix
`/proxy/` with the default filter: prefix stripping around the filter around
the backend proxy. -/
def prefixedHandler : Handler :=
  stripLeaveSlash "/proxy/" (defaultFilter.HandlerFor backendW1).ServeHTTP

/-- The worker `w1` answers with a `Table`, every other backend with a
`PodList`. -/
def mixedKinds (o : Outbound) : Response :=
  if o.cfg.host = "https://w1" then podTable o else podList o

/-- The worker `w1` answers with a `PodList`, every other backend with a
`Status` object. -/
def listThenStatus (o : Outbound) : Response :=
  if o.cfg.host = "https://w1" then podList o else forbidden o

/-- A stand-in for `regexp.Compile`: the pattern `(` does not compile, any
other text compiles to the pattern that matches just that text. -/
def compileLiteral (pattern : String) : Except String Regexp :=
  if pattern = "(" then Except.error "missing closing )" else Except.ok (Regexp.exact pattern)

/-- The default flag values of the `proxy` command. -/
def defaultFlags : ProxyFlags :=
  { unixSocket := "", port := 8001, address := "127.0.0.1", www := "", wwwPrefix := "/static/",
    apiPrefix := "/", acceptPaths := DefaultPathAcceptRE, rejectPaths := DefaultPathRejectRE,
    acceptHosts := DefaultHostAcceptRE, rejectMethods := DefaultMethodRejectRE,
    disableFilter := false, keepalive := 0 }

/-- A world in which the configuration is found. -/
def runWorld : RunWorld :=
  { defaultRESTConfig := Except.ok localConfig, compile := compileLiteral }

/-- The worker `w1` answers with a `PodList`, every other backend with a
`Status` object whose `apiVersion` has two slashes. -/
def listThenBadStatus (o : Outbound) : Response :=
  if o.cfg.host = "https://w1" then podList o
  else
    { status := some 403, header := [("Content-Type", "application/json")],
      body := some (Payload.object
        { apiVersion := "a/b/c", kind := "Status", metadata := ListMeta.zero,
          columnDefinitions := [], rows := [], items := [] }) }

/-- A column of integers. -/
def sizeColumn : TableColumnDefinition :=
  { name := "Size", type := "integer", format := "int64", description := "Size in bytes",
    priority := 0 }

/-- Every backend answers with a `Table` of one row: its host and the size
`9007199254740993`, which is `2 ^ 53 + 1`. -/
def sizeTable (o : Outbound) : Response :=
  { status := some 200, header := [("Content-Type", "application/json")],
    body := some (Payload.object
      { apiVersion := "meta.k8s.io/v1beta1", kind := "Table", metadata := ListMeta.zero,
        columnDefinitions := [nameColumn, sizeColumn],
        rows := [{ cells := [Cell.str o.cfg.host, Cell.int 9007199254740993], conditions := "",
                   object := "" }],
        items := [] }) }

/-- Every backend answers with a `Table` whose one column has the priority
`2147483648`, which is `2 ^ 31`. -/
def priorityTable (o : Outbound) : Response :=
  { status := some 200, header := [("Content-Type", "application/json")],
    body := some (Payload.object
      { apiVersion := "meta.k8s.io/v1beta1", kind := "Table", metadata := ListMeta.zero,
        columnDefinitions := [{ nameColumn with priority := 2147483648 }],
        rows := [{ cells := [Cell.str o.cfg.host], conditions := "", object := "" }],
        items := [] }) }

/-- The top handler of a proxy started with `--api-prefix=/proxy`: prefix
`/proxy/`, the default filter, keep-alive 5, an empty route cache. -/
def topUnderProxy (answer : Outbound → Response) (r : Request) : Served × ClusterCache :=
  newTopProxyHandler (env answer) "" "/proxy/" "/static/" (some defaultFilter) localConfig 5 [] r

/-- The aggregator over `w1` and `w2` that `topUnderProxy` builds. -/
def aggregateUnderProxy : aggregateServer :=
  newAggregateProxyHandler "" "/proxy/" "/static/" (some defaultFilter) ["w1", "w2"]
    [configOf "w1", configOf "w2"] 5 aliceConfig "team-a" "pods" ""

/-- The request `GET /proxy/api/v1/namespaces/team-a/pods`. -/
def proxiedPodsRequest : Request := get "/proxy/api/v1/namespaces/team-a/pods"

/-- The top handler of a proxy started with the default flags: prefix `/`, the
default filter, keep-alive 0, an empty route cache. -/
def defaultTop (answer : Outbound → Response) (r : Request) : Served × ClusterCache :=
  newTopProxyHandler (env answer) "" "/" "/static/" (some defaultFilter) localConfig 0 [] r

end Sample

/-! ## Theorems -/

namespace Proxy

/-- The upgrade-aware handler only talks to the backend of its configuration. -/
theorem upgradeAwareHandler_trace (env : Env) (cfg : RestConfig) (target : String)
    (t u : Transport) (r : Request) :
    ∀ e ∈ (upgradeAwareHandler env cfg target t u r).trace,
      ∃ o, e = Event.roundTrip o ∧ o.cfg = cfg := by
  intro e he
  simp only [upgradeAwareHandler, List.mem_singleton] at he
  exact ⟨_, he, rfl⟩

/-- The filter adds no collaborator call of its own. -/
theorem filter_trace (f : FilterServer) (h : Handler) (P : Event → Prop)
    (hh : ∀ r, ∀ e ∈ (h r).trace, P e) (r : Request) :
    ∀ e ∈ ((f.HandlerFor h).ServeHTTP r).trace, P e := by
  intro e he
  simp only [FilterServer.ServeHTTP, FilterServer.HandlerFor] at he
  split at he
  · exact hh r e he
  · simp at he

/-- Prefix stripping adds no collaborator call of its own. -/
theorem stripLeaveSlash_trace (pre : String) (h : Handler) (P : Event → Prop)
    (hh : ∀ r, ∀ e ∈ (h r).trace, P e) (r : Request) :
    ∀ e ∈ (stripLeaveSlash pre h r).trace, P e := by
  intro e he
  simp only [stripLeaveSlash] at he
  split at he
  · simp at he
  · exact hh _ e he

/-- A handler built by `newDynamicProxyHandler` only ever talks to the backend
of its own configuration. -/
theorem newDynamicProxyHandler_trace (env : Env) (filebase apiProxyPrefix staticPrefix : String)
    (filter : Option FilterServer) (cfg : RestConfig) (keepalive : Int)
    (imp : ImpersonationConfig) (h : Handler) (r : Request)
    (hh : newDynamicProxyHandler env filebase apiProxyPrefix staticPrefix filter cfg keepalive imp
      = some h) :
    ∀ e ∈ (h r).trace, ∃ o, e = Event.roundTrip o ∧ o.cfg = cfg := by
  unfold newDynamicProxyHandler at hh
  by_cases hv : env.configValid cfg = true
  · simp only [hv, Bool.not_true, Bool.false_eq_true, if_false, Option.some.injEq] at hh
    subst hh
    have hproxy := fun t => upgradeAwareHandler_trace env cfg t (Transport.rest imp)
      (makeUpgradeTransport keepalive)
    cases filter with
    | none =>
      by_cases hp : HasPrefix apiProxyPrefix "/api" = true
      · simpa [hp] using hproxy _ r
      · simp only [hp]
        exact stripLeaveSlash_trace _ _ _ (hproxy _) r
    | some f =>
      by_cases hp : HasPrefix apiProxyPrefix "/api" = true
      · simp only [hp]
        exact filter_trace f _ _ (hproxy _) r
      · simp only [hp]
        exact stripLeaveSlash_trace _ _ _ (filter_trace f _ _ (hproxy _)) r
  · simp [hv] at hh

/-- The end of the top handler builds at most one dynamic proxy and otherwise
only talks to that backend. -/
theorem serveProxyCfg_trace (env : Env) (filebase apiProxyPrefix staticPrefix : String)
    (filter : Option FilterServer) (keepalive : Int) (imp : ImpersonationConfig)
    (proxyCfg : Option RestConfig) (r : Request) :
    ∀ e ∈ (serveProxyCfg env filebase apiProxyPrefix staticPrefix filter keepalive imp proxyCfg
        r).trace,
      (∃ c, proxyCfg = some c ∧ e = Event.newDynamicProxyHandler c keepalive imp) ∨
      (∃ c o, proxyCfg = some c ∧ e = Event.roundTrip o ∧ o.cfg = c) := by
  intro e he
  cases proxyCfg with
  | none => simp [serveProxyCfg] at he
  | some c =>
    simp only [serveProxyCfg] at he
    split at he
    · simp only [List.mem_singleton] at he
      exact Or.inl ⟨c, rfl, he⟩
    · rename_i h hh
      simp only [Served.after, List.singleton_append, List.mem_cons] at he
      rcases he with he | he
      · exact Or.inl ⟨c, rfl, he⟩
      · obtain ⟨o, ho, hc⟩ := newDynamicProxyHandler_trace _ _ _ _ _ _ _ _ _ r hh e he
        exact Or.inr ⟨c, o, rfl, ho, hc⟩

/-- The trace after putting `l ++ a :: m` in front starts with `l ++ [a]`. -/
theorem Served.after_trace_split (l : List Event) (a : Event) (m : List Event) (s : Served) :
    ∃ rest, (s.after (l ++ a :: m)).trace = l ++ a :: rest :=
  ⟨m ++ s.trace, by simp [Served.after]⟩

/-- C1. For an authenticated request whose classified namespace is not empty,
the top dispatcher goes to the master cluster of the placement when the
resource type begins with "Federated" (without consulting the route cache,
whatever it holds); otherwise to the cached cluster when the resource name is
not empty and the route cache yields a cluster for (namespace, type, name);
otherwise it resolves the worker clusters of the namespace. -/
theorem C1_dispatch_order (env : Env) (filebase apiProxyPrefix staticPrefix : String)
    (filter : Option FilterServer) (cfg : RestConfig) (keepalive : Int)
    (clusterCache : ClusterCache) (r : Request) (authenticator : Request → AuthResult)
    (user : UserInfo) (ns resourceType resourceName : String)
    (hauth : env.authenticator = some authenticator)
    (hok : authenticator r = AuthResult.ok user)
    (hpath : getNamespaceTypeNameFromPath r.path = (ns, resourceType, resourceName))
    (hns : ns ≠ "") :
    (HasPrefix resourceType "Federated" = true →
      (∀ placement, env.placements ns = some placement →
        newTopProxyHandler env filebase apiProxyPrefix staticPrefix filter cfg keepalive
            clusterCache r =
          ((serveProxyCfg env filebase apiProxyPrefix staticPrefix filter keepalive
              ⟨user.name, user.groups, user.extra⟩ (env.clusterConfig placement.masterCluster)
              r).after
            [Event.getClusterFromNamespace ns,
             Event.getRestConfigForCluster placement.masterCluster], clusterCache)) ∧
      (∃ rest, (newTopProxyHandler env filebase apiProxyPrefix staticPrefix filter cfg keepalive
            clusterCache r).1.trace = Event.getClusterFromNamespace ns :: rest) ∧
      (∀ a b c, Event.getClusterFromCache a b c ∉
        (newTopProxyHandler env filebase apiProxyPrefix staticPrefix filter cfg keepalive
            clusterCache r).1.trace) ∧
      newTopProxyHandler env filebase apiProxyPrefix staticPrefix filter cfg keepalive
          clusterCache r =
        ((newTopProxyHandler env filebase apiProxyPrefix staticPrefix filter cfg keepalive
          [] r).1, clusterCache)) ∧
    (HasPrefix resourceType "Federated" = false → resourceName ≠ "" →
      getClusterFromCache clusterCache ns resourceType resourceName ≠ "" →
      newTopProxyHandler env filebase apiProxyPrefix staticPrefix filter cfg keepalive
          clusterCache r =
        ((serveProxyCfg env filebase apiProxyPrefix staticPrefix filter keepalive
            ⟨user.name, user.groups, user.extra⟩
            (env.clusterConfig (getClusterFromCache clusterCache ns resourceType resourceName))
            r).after
          [Event.getClusterFromCache ns resourceType resourceName,
           Event.getClusterFromCache ns resourceType resourceName,
           Event.getRestConfigForCluster
             (getClusterFromCache clusterCache ns resourceType resourceName)], clusterCache)) ∧
    (HasPrefix resourceType "Federated" = false →
      (resourceName = "" ∨ getClusterFromCache clusterCache ns resourceType resourceName = "") →
      ∃ rest, (newTopProxyHandler env filebase apiProxyPrefix staticPrefix filter cfg keepalive
          clusterCache r).1.trace =
        (if resourceName ≠ "" then [Event.getClusterFromCache ns resourceType resourceName]
          else []) ++ Event.getWorkerClustersFromNamespace ns :: rest) := by
  refine ⟨fun hfed => ?_, fun hfed hname hhit => ?_, fun hfed hmiss => ?_⟩
  · have htop : ∀ cache, newTopProxyHandler env filebase apiProxyPrefix staticPrefix filter cfg
          keepalive cache r =
        ((serveProxyCfg env filebase apiProxyPrefix staticPrefix filter keepalive
            ⟨user.name, user.groups, user.extra⟩
            (env.clusterConfig ((getClusterFromNamespace env ns).getD "")) r).after
          [Event.getClusterFromNamespace ns,
           Event.getRestConfigForCluster ((getClusterFromNamespace env ns).getD "")], cache) := by
      intro cache
      simp only [newTopProxyHandler, hauth, hok, hpath, hns, if_false, needToGetFromMaster, hfed,
        if_true, getRestConfigForCluster]
    refine ⟨fun placement hp => ?_, ⟨_, by rw [htop]; rfl⟩, fun a b c hmem => ?_, ?_⟩
    · rw [htop]
      simp [getClusterFromNamespace, hp]
    · rw [htop] at hmem
      simp only [Served.after, List.mem_append, List.mem_cons, List.mem_singleton,
        List.not_mem_nil, or_false] at hmem
      rcases hmem with (h | h) | h
      · cases h
      · cases h
      · rcases serveProxyCfg_trace _ _ _ _ _ _ _ _ _ _ h with ⟨_, _, h2⟩ | ⟨_, _, _, h2, _⟩ <;>
          cases h2
    · rw [htop, htop]
  · simp only [newTopProxyHandler, hauth, hok, hpath, hns, if_false, needToGetFromMaster, hfed,
      Bool.false_eq_true, getRestConfigForCluster]
    rw [if_pos ⟨hname, hhit⟩]
  · have hcond : ¬ (resourceName ≠ "" ∧
        getClusterFromCache clusterCache ns resourceType resourceName ≠ "") := by
      rintro ⟨h1, h2⟩
      rcases hmiss with h | h
      · exact h1 h
      · exact h2 h
    simp only [newTopProxyHandler, hauth, hok, hpath, hns, if_false, needToGetFromMaster, hfed,
      Bool.false_eq_true, hcond]
    split
    · exact Served.after_trace_split _ _ _ _
    · exact Served.after_trace_split _ _ _ _

/-- Witness of C1: a request for a `Federated...` resource of namespace `team-a`
goes to the master `m` although the route cache holds a cluster for it. -/
theorem C1_dispatch_order_witness :
    getNamespaceTypeNameFromPath
        "/apis/core.federation.k8s.io/v1alpha1/namespaces/team-a/FederatedServices/foo" =
      ("team-a", "FederatedServices", "foo") ∧
    getClusterFromCache [("team-a/FederatedServices/foo", "w1")] "team-a" "FederatedServices"
      "foo" = "w1" ∧
    (Sample.top Sample.podList [("team-a/FederatedServices/foo", "w1")]
        (Sample.get
          "/apis/core.federation.k8s.io/v1alpha1/namespaces/team-a/FederatedServices/foo")).1.trace =
      [Event.getClusterFromNamespace "team-a", Event.getRestConfigForCluster "m",
       Event.newDynamicProxyHandler (Sample.configOf "m") 5 Sample.aliceConfig,
       Event.roundTrip
         { cfg := Sample.configOf "m", target := "https://m/",
           transport := Transport.rest Sample.aliceConfig,
           request := Sample.get
             "/apis/core.federation.k8s.io/v1alpha1/namespaces/team-a/FederatedServices/foo" }] := by
  refine ⟨by decide, by decide, ?_⟩
  have h := ((C1_dispatch_order (Sample.env Sample.podList) "" "/" "/static/" none
    Sample.localConfig 5 [("team-a/FederatedServices/foo", "w1")]
    (Sample.get "/apis/core.federation.k8s.io/v1alpha1/namespaces/team-a/FederatedServices/foo")
    (fun _ => AuthResult.ok Sample.alice) Sample.alice "team-a" "FederatedServices" "foo"
    rfl rfl (by decide) (by decide)).1 (by decide)).1
    { masterCluster := "m", workerClusters := ["w1", "w2"] } (by decide)
  rw [Sample.top, h]
  decide

/-- A greedy star fails when its continuation fails on every suffix of the
input. -/
theorem greedyStar_none {α : Type} (p : Char → Bool) (k : List Char → List Char → Option α) :
    ∀ (inp taken : List Char), (∀ tk t, t <:+ inp → k tk t = none) →
      greedyStar p k taken inp = none
  | [], taken, h => by simp [greedyStar, h taken [] (List.suffix_refl _)]
  | c :: cs, taken, h => by
    have ih := greedyStar_none p k cs (taken ++ [c])
      (fun tk t ht => h tk t (ht.trans (List.suffix_cons c cs)))
    simp [greedyStar, ih, h taken (c :: cs) (List.suffix_refl _)]

/-- The classifier's pattern does not match at the start of a text without the
segment `/namespaces/`. -/
theorem matchHere_namespacePattern_none (inp : List Char)
    (h : ¬ "/namespaces/".data <:+: inp) : matchHere namespacePattern inp = none := by
  have hstar : matchPieces namespacePattern [] inp = none := by
    simp only [namespacePattern, matchPieces]
    apply greedyStar_none
    intro tk t ht
    have hpre : ¬ "/namespaces/".data <+: t := fun hp => h (hp.isInfix.trans ht.isInfix)
    have hb : List.isPrefixOf "/namespaces/".data t = false := by
      rw [Bool.eq_false_iff]
      intro hp
      exact hpre (List.isPrefixOf_iff_prefix.mp hp)
    simp only [matchPieces, hb, Bool.false_eq_true, if_false]
  simp only [matchHere, hstar]

/-- The classifier's pattern matches nowhere in a text without the segment
`/namespaces/`. -/
theorem findFrom_namespacePattern_none :
    ∀ inp : List Char, ¬ "/namespaces/".data <:+: inp → findFrom namespacePattern inp = none
  | [], h => by simp only [findFrom, matchHere_namespacePattern_none [] h]
  | c :: cs, h => by
    have hcs : ¬ "/namespaces/".data <:+: cs :=
      fun hi => h (hi.trans (List.suffix_cons c cs).isInfix)
    simp only [findFrom, matchHere_namespacePattern_none (c :: cs) h,
      findFrom_namespacePattern_none cs hcs]

/-- A path without the segment `/namespaces/` classifies as the empty triple. -/
theorem getNamespaceTypeNameFromPath_no_segment (path : String)
    (h : ¬ "/namespaces/".data <:+: path.data) :
    getNamespaceTypeNameFromPath path = ("", "", "") := by
  simp only [getNamespaceTypeNameFromPath, FindStringSubmatch,
    findFrom_namespacePattern_none path.data h]

/-- C2. For an authenticated request whose classified namespace is the empty
string, whatever the classified resource type and name, the top dispatcher
serves the request through one dynamic proxy built from the proxy's own
configuration: the first collaborator call is that construction, every other
call is a request to that backend, so the placement resolver, the route cache
and the aggregator are not used, and the route cache is left as it was. Every
path without a segment `/namespaces/` classifies with an empty namespace. -/
theorem C2_empty_namespace_local (env : Env) (filebase apiProxyPrefix staticPrefix : String)
    (filter : Option FilterServer) (cfg : RestConfig) (keepalive : Int)
    (clusterCache : ClusterCache) (r : Request) (authenticator : Request → AuthResult)
    (user : UserInfo)
    (hauth : env.authenticator = some authenticator)
    (hok : authenticator r = AuthResult.ok user)
    (hns : (getNamespaceTypeNameFromPath r.path).1 = "") :
    (∀ path : String, ¬ "/namespaces/".data <:+: path.data →
      (getNamespaceTypeNameFromPath path).1 = "") ∧
    newTopProxyHandler env filebase apiProxyPrefix staticPrefix filter cfg keepalive
        clusterCache r =
      (serveProxyCfg env filebase apiProxyPrefix staticPrefix filter keepalive
        ⟨user.name, user.groups, user.extra⟩ (some cfg) r, clusterCache) ∧
    ∃ rest, (newTopProxyHandler env filebase apiProxyPrefix staticPrefix filter cfg keepalive
        clusterCache r).1.trace =
      Event.newDynamicProxyHandler cfg keepalive ⟨user.name, user.groups, user.extra⟩ :: rest ∧
      ∀ e ∈ rest, ∃ o, e = Event.roundTrip o ∧ o.cfg = cfg := by
  have htop : newTopProxyHandler env filebase apiProxyPrefix staticPrefix filter cfg keepalive
        clusterCache r =
      (serveProxyCfg env filebase apiProxyPrefix staticPrefix filter keepalive
        ⟨user.name, user.groups, user.extra⟩ (some cfg) r, clusterCache) := by
    rcases hcls : getNamespaceTypeNameFromPath r.path with ⟨ns, resourceType, resourceName⟩
    rw [hcls] at hns
    simp only at hns
    subst hns
    simp only [newTopProxyHandler, hauth, hok, hcls, if_true]
  refine ⟨fun path hpath => by rw [getNamespaceTypeNameFromPath_no_segment path hpath], htop, ?_⟩
  rw [htop]
  simp only [serveProxyCfg]
  split
  · exact ⟨[], rfl, by simp⟩
  · rename_i h hh
    exact ⟨(h r).trace, rfl, newDynamicProxyHandler_trace _ _ _ _ _ _ _ _ _ r hh⟩

/-- Witness of C2: `/api/v1/pods` has no namespace segment and is served by the
local API server alone. -/
theorem C2_empty_namespace_local_witness :
    getNamespaceTypeNameFromPath "/api/v1/pods" = ("", "", "") ∧
    (Sample.top Sample.podList [] (Sample.get "/api/v1/pods")).1.trace =
      [Event.newDynamicProxyHandler Sample.localConfig 5 Sample.aliceConfig,
       Event.roundTrip
         { cfg := Sample.localConfig, target := "https://local/",
           transport := Transport.rest Sample.aliceConfig,
           request := Sample.get "/api/v1/pods" }] := by
  refine ⟨by decide, ?_⟩
  have h := (C2_empty_namespace_local (Sample.env Sample.podList) "" "/" "/static/" none
    Sample.localConfig 5 [] (Sample.get "/api/v1/pods") (fun _ => AuthResult.ok Sample.alice)
    Sample.alice rfl rfl (by decide)).2.1
  rw [Sample.top, h]
  decide

/-- C3 (behaviour of the code). The path classifier yields the resource type
`federatedservices` for the path of the claim, but `needToGetFromMaster`
compares with the capitalised `Federated`, so the request is not sent to the
master `m` of the placement: the dispatcher looks in the route cache and then
fans out to the worker clusters `w1` and `w2`. -/
theorem C3_lowercase_type_goes_to_workers :
    getNamespaceTypeNameFromPath
        "/apis/proxy.federation.k8s.io/v1alpha1/namespaces/team-a/federatedservices/foo" =
      ("team-a", "federatedservices", "foo") ∧
    needToGetFromMaster "federatedservices" = false ∧
    (Sample.env Sample.podList).placements "team-a" =
      some { masterCluster := "m", workerClusters := ["w1", "w2"] } ∧
    ((Sample.top Sample.podList [] (Sample.get
        "/apis/proxy.federation.k8s.io/v1alpha1/namespaces/team-a/federatedservices/foo")).1.trace.filter
        (fun e => match e with
          | Event.roundTrip _ => false
          | Event.newDynamicProxyHandler _ _ _ => false
          | _ => true)) =
      [Event.getClusterFromCache "team-a" "federatedservices" "foo",
       Event.getWorkerClustersFromNamespace "team-a",
       Event.getRestConfigsForClusters ["w1", "w2"],
       Event.newAggregateProxyHandler ["w1", "w2"] [Sample.configOf "w1", Sample.configOf "w2"]] ∧
    ((Sample.top Sample.podList [] (Sample.get
        "/apis/proxy.federation.k8s.io/v1alpha1/namespaces/team-a/federatedservices/foo")).1.trace.filterMap
        (fun e => match e with
          | Event.roundTrip o => some o.target
          | _ => none)) = ["https://w1/", "https://w2/"] := by
  refine ⟨by decide, by decide, by decide, by decide, by decide⟩

/-- C4. When the dispatcher resolves the worker clusters of the namespace (the
resource type does not begin with "Federated", the name is empty or not in the
route cache) and the placement lists exactly one worker, no aggregator is
constructed: the worker's configuration is looked up and the request is served
through one dynamic proxy for it, with the dispatcher's own keep-alive, so the
client receives exactly what the handler of `newDynamicProxyHandler` for that
worker writes. -/
theorem C4_single_worker_no_aggregation (env : Env)
    (filebase apiProxyPrefix staticPrefix : String)
    (filter : Option FilterServer) (cfg : RestConfig) (keepalive : Int)
    (clusterCache : ClusterCache) (r : Request) (authenticator : Request → AuthResult)
    (user : UserInfo) (ns resourceType resourceName : String)
    (placement : NamespacePlacement) (worker : String)
    (hauth : env.authenticator = some authenticator)
    (hok : authenticator r = AuthResult.ok user)
    (hpath : getNamespaceTypeNameFromPath r.path = (ns, resourceType, resourceName))
    (hns : ns ≠ "")
    (hfed : HasPrefix resourceType "Federated" = false)
    (hmiss : resourceName = "" ∨
      getClusterFromCache clusterCache ns resourceType resourceName = "")
    (hplacement : env.placements ns = some placement)
    (hone : placement.workerClusters = [worker]) :
    newTopProxyHandler env filebase apiProxyPrefix staticPrefix filter cfg keepalive
        clusterCache r =
      ((serveProxyCfg env filebase apiProxyPrefix staticPrefix filter keepalive
          ⟨user.name, user.groups, user.extra⟩ (env.clusterConfig worker) r).after
        ((if resourceName ≠ "" then [Event.getClusterFromCache ns resourceType resourceName]
            else []) ++
          [Event.getWorkerClustersFromNamespace ns, Event.getRestConfigForCluster worker]),
       clusterCache) ∧
    (∀ names cfgs, Event.newAggregateProxyHandler names cfgs ∉
      (newTopProxyHandler env filebase apiProxyPrefix staticPrefix filter cfg keepalive
        clusterCache r).1.trace) ∧
    (∀ workerCfg proxyToTarget, env.clusterConfig worker = some workerCfg →
      newDynamicProxyHandler env filebase apiProxyPrefix staticPrefix filter workerCfg keepalive
        ⟨user.name, user.groups, user.extra⟩ = some proxyToTarget →
      (newTopProxyHandler env filebase apiProxyPrefix staticPrefix filter cfg keepalive
        clusterCache r).1.result = (proxyToTarget r).result) := by
  have hcond : ¬ (resourceName ≠ "" ∧
      getClusterFromCache clusterCache ns resourceType resourceName ≠ "") := by
    rintro ⟨h1, h2⟩
    rcases hmiss with h | h
    · exact h1 h
    · exact h2 h
  have htop : newTopProxyHandler env filebase apiProxyPrefix staticPrefix filter cfg keepalive
        clusterCache r =
      ((serveProxyCfg env filebase apiProxyPrefix staticPrefix filter keepalive
          ⟨user.name, user.groups, user.extra⟩ (env.clusterConfig worker) r).after
        ((if resourceName ≠ "" then [Event.getClusterFromCache ns resourceType resourceName]
            else []) ++
          [Event.getWorkerClustersFromNamespace ns, Event.getRestConfigForCluster worker]),
       clusterCache) := by
    simp only [newTopProxyHandler, hauth, hok, hpath, hns, if_false, needToGetFromMaster, hfed,
      Bool.false_eq_true, hcond, getWorkerClustersFromNamespace, hplacement, hone,
      Option.getD_some, getRestConfigForCluster]
  refine ⟨htop, fun names cfgs hmem => ?_, fun workerCfg proxyToTarget hcfg hbuilt => ?_⟩
  · rw [htop] at hmem
    simp only [Served.after, List.mem_append, List.mem_cons, List.mem_singleton,
      List.not_mem_nil, or_false] at hmem
    rcases hmem with (h | h | h) | h
    · split at h
      · simp at h
      · simp at h
    · cases h
    · cases h
    · rcases serveProxyCfg_trace _ _ _ _ _ _ _ _ _ _ h with ⟨_, _, h2⟩ | ⟨_, _, _, h2, _⟩ <;>
        cases h2
  · rw [htop]
    simp only [Served.after, serveProxyCfg, hcfg, hbuilt]

/-- Witness of C4: namespace `solo` runs on `w1` only; a table answered by `w1`
reaches the client as it is, with its single column and no `Cluster` cell. -/
theorem C4_single_worker_no_aggregation_witness :
    getNamespaceTypeNameFromPath "/api/v1/namespaces/solo/pods" = ("solo", "pods", "") ∧
    HasPrefix "pods" "Federated" = false ∧
    (Sample.env Sample.podTable).placements "solo" =
      some { masterCluster := "m", workerClusters := ["w1"] } ∧
    (Sample.top Sample.podTable [] (Sample.get "/api/v1/namespaces/solo/pods")).1.result =
      Outcome.returned (Sample.podTable
        { cfg := Sample.configOf "w1", target := "https://w1/",
          transport := Transport.rest Sample.aliceConfig,
          request := Sample.get "/api/v1/namespaces/solo/pods" }) := by
  refine ⟨by decide, by decide, by decide, ?_⟩
  have h := (C4_single_worker_no_aggregation (Sample.env Sample.podTable) "" "/" "/static/" none
    Sample.localConfig 5 [] (Sample.get "/api/v1/namespaces/solo/pods")
    (fun _ => AuthResult.ok Sample.alice) Sample.alice "solo" "pods" ""
    { masterCluster := "m", workerClusters := ["w1"] } "w1"
    rfl rfl (by decide) (by decide) (by decide) (Or.inl rfl) (by decide) rfl).1
  rw [Sample.top, h]
  decide

/-- A kind that ends in `List` is not `Table`. -/
theorem kind_list_ne_table (kind : String) (h : HasSuffix kind "List" = true) :
    kind ≠ "Table" := by
  intro hk
  subst hk
  revert h
  decide

/-- The second loop of the aggregator on list bodies, after the first round:
the items of every further body are appended, in order. -/
theorem mergeLoop_lists (names : List String) :
    ∀ (ws : List Response) (i : Nat) (s : MergeState) (l : ItemList),
      0 < i → s.list = some l → i + ws.length ≤ names.length →
      (∀ w ∈ ws, ∃ gvk, Interpret (recordedBody w) = some gvk ∧
        HasSuffix gvk.kind "List" = true) →
      mergeLoop names i ws s =
        MergeResult.finished
          { s with list := some { l with items := l.items ++
              (ws.map (fun w => (unmarshalList (recordedBody w)).items)).flatten } } := by
  intro ws
  induction ws with
  | nil =>
    intro i s l _ hl _ _
    cases s
    simp only at hl
    subst hl
    simp [mergeLoop]
  | cons w ws ih =>
    intro i s l hi hl hlen hall
    have hlt : i < names.length := by
      simp only [List.length_cons] at hlen
      omega
    obtain ⟨gvk, hgvk, hsuf⟩ := hall w (List.mem_cons_self _ _)
    have hne : gvk.kind ≠ "Table" := kind_list_ne_table _ hsuf
    have hi0 : i ≠ 0 := by omega
    simp only [mergeLoop, List.getElem?_eq_getElem hlt, mergeStep, hgvk, hne, if_false, hsuf,
      if_true, hi0, hl, saveListItemsRoutes]
    rw [ih (i + 1) _ _ (by omega) rfl
      (by simp only [List.length_cons] at hlen; omega)
      (fun w2 hw2 => hall w2 (List.mem_cons_of_mem _ hw2))]
    simp [List.append_assoc]

/-- The aggregator on N >= 1 list bodies, with a cluster name for each: the
object written is the list of the first body with the items of all bodies, in
backend order and each body's in their original order, as `json.Marshal` writes
them. -/
theorem serveHTTP_lists (env : Env) (S : aggregateServer)
    (clusterCache : ClusterCache) (r : Request) (trace : List Event) (req : Request)
    (w0 : Response) (ws : List Response)
    (hrec : S.record env S.cfgs r = Collected.done trace req (w0 :: ws))
    (hnames : (w0 :: ws).length ≤ S.clusterNames.length)
    (hall : ∀ w ∈ w0 :: ws, ∃ gvk, Interpret (recordedBody w) = some gvk ∧
      HasSuffix gvk.kind "List" = true) :
    (S.ServeHTTP env clusterCache r).1.result =
      Outcome.returned (writeJSON (Payload.object
        { apiVersion := (unmarshalList (recordedBody w0)).apiVersion,
          kind := (unmarshalList (recordedBody w0)).kind,
          metadata := (unmarshalList (recordedBody w0)).metadata,
          columnDefinitions := [], rows := [],
          items := (((w0 :: ws).map
            (fun w => (unmarshalList (recordedBody w)).items)).flatten).map marshalRaw })) := by
  obtain ⟨gvk, hgvk, hsuf⟩ := hall w0 (List.mem_cons_self _ _)
  have hne : gvk.kind ≠ "Table" := kind_list_ne_table _ hsuf
  have hlt : 0 < S.clusterNames.length := by
    simp only [List.length_cons] at hnames
    omega
  have hloop : mergeLoop S.clusterNames 0 (w0 :: ws)
        { table := none, list := none, clusterCache := clusterCache } =
      MergeResult.finished
        { table := none,
          list := some { unmarshalList (recordedBody w0) with
            items := (unmarshalList (recordedBody w0)).items ++
              (ws.map (fun w => (unmarshalList (recordedBody w)).items)).flatten },
          clusterCache := clusterCache } := by
    simp only [mergeLoop, List.getElem?_eq_getElem hlt, mergeStep, hgvk, hne, if_false, hsuf,
      if_true, saveListItemsRoutes]
    rw [mergeLoop_lists S.clusterNames ws 1 _ (unmarshalList (recordedBody w0)) (by omega) rfl
      (by simp only [List.length_cons] at hnames; omega)
      (fun w hw => hall w (List.mem_cons_of_mem _ hw))]
  simp only [aggregateServer.ServeHTTP, hrec, hloop, marshalList, List.map_cons,
    List.flatten_cons]

/-- The second loop of the aggregator on table bodies, after the first round:
the rows of every further body are appended in order, each with the name of
its cluster as one more cell. -/
theorem mergeLoop_tables (names : List String) :
    ∀ (ws : List Response) (i : Nat) (s : MergeState) (t : Table),
      0 < i → s.table = some t → i + ws.length ≤ names.length →
      (∀ w ∈ ws, ∃ gvk, Interpret (recordedBody w) = some gvk ∧ gvk.kind = "Table") →
      mergeLoop names i ws s =
        MergeResult.finished
          { s with table := some { t with rows := t.rows ++
              (List.zipWith
                (fun w name => (unmarshalTable (recordedBody w)).rows.map
                  (fun row => { row with cells := row.cells ++ [Cell.str name] }))
                ws (names.drop i)).flatten } } := by
  intro ws
  induction ws with
  | nil =>
    intro i s t _ ht _ _
    cases s
    simp only at ht
    subst ht
    simp [mergeLoop]
  | cons w ws ih =>
    intro i s t hi ht hlen hall
    have hlt : i < names.length := by
      simp only [List.length_cons] at hlen
      omega
    obtain ⟨gvk, hgvk, hkind⟩ := hall w (List.mem_cons_self _ _)
    have hi0 : i ≠ 0 := by omega
    simp only [mergeLoop, List.getElem?_eq_getElem hlt, mergeStep, hgvk, hkind, if_true, hi0,
      if_false, ht, saveTableRowsRoutes, appendClusterCell]
    rw [ih (i + 1) _ _ (by omega) rfl
      (by simp only [List.length_cons] at hlen; omega)
      (fun w2 hw2 => hall w2 (List.mem_cons_of_mem _ hw2))]
    simp only [List.append_assoc, MergeResult.finished.injEq, MergeState.mk.injEq,
      Option.some.injEq, Table.mk.injEq, List.append_cancel_left_eq, and_true, true_and]
    rw [List.drop_eq_getElem_cons hlt]
    simp only [List.zipWith_cons_cons, List.flatten_cons]

/-- The aggregator on N >= 1 table bodies, with a cluster name for each: the
object written is the table of the first body with the `Cluster` column
appended once, and the rows of all bodies in backend order, each with the name
of its cluster appended, as `json.Marshal` writes them. -/
theorem serveHTTP_tables (env : Env) (S : aggregateServer)
    (clusterCache : ClusterCache) (r : Request) (trace : List Event) (req : Request)
    (w0 : Response) (ws : List Response)
    (hrec : S.record env S.cfgs r = Collected.done trace req (w0 :: ws))
    (hnames : (w0 :: ws).length ≤ S.clusterNames.length)
    (hall : ∀ w ∈ w0 :: ws, ∃ gvk, Interpret (recordedBody w) = some gvk ∧ gvk.kind = "Table") :
    (S.ServeHTTP env clusterCache r).1.result =
      Outcome.returned (writeJSON (Payload.object
        { apiVersion := (unmarshalTable (recordedBody w0)).apiVersion,
          kind := (unmarshalTable (recordedBody w0)).kind,
          metadata := (unmarshalTable (recordedBody w0)).metadata,
          columnDefinitions := (unmarshalTable (recordedBody w0)).columnDefinitions ++
            [{ name := "Cluster", type := "string", format := "",
               description := "Cluster name which this resource belongs to", priority := 0 }],
          rows := ((List.zipWith
            (fun w name => (unmarshalTable (recordedBody w)).rows.map
              (fun row => { row with cells := row.cells ++ [Cell.str name] }))
            (w0 :: ws) S.clusterNames).flatten).map
              (fun row => { row with object := marshalRaw row.object }),
          items := [] })) := by
  obtain ⟨gvk, hgvk, hkind⟩ := hall w0 (List.mem_cons_self _ _)
  have hlt : 0 < S.clusterNames.length := by
    simp only [List.length_cons] at hnames
    omega
  have hnames0 : S.clusterNames = S.clusterNames[0] :: S.clusterNames.drop 1 := by
    have h := List.drop_eq_getElem_cons hlt
    simpa using h
  simp only [aggregateServer.ServeHTTP, hrec, mergeLoop, List.getElem?_eq_getElem hlt, mergeStep,
    hgvk, hkind, if_true, saveTableRowsRoutes, appendClusterCell, addClusterToTable]
  rw [mergeLoop_tables S.clusterNames ws 1 _ _ (by omega) rfl
    (by simp only [List.length_cons] at hnames; omega)
    (fun w hw => hall w (List.mem_cons_of_mem _ hw))]
  simp only [marshalTable]
  conv_rhs => rw [hnames0]
  simp

/-- One round of the second loop, after the first, keeps the kind and the
version of whichever of `list` and `table` will be emitted. -/
theorem mergeStep_kind (kind apiVersion : String) (i : Nat) (name : String) (body : Payload)
    (s s2 : MergeState) (hi : 0 < i)
    (hinv : (∃ l, s.list = some l ∧ l.kind = kind ∧ l.apiVersion = apiVersion) ∨
      (s.list = none ∧ ∃ t, s.table = some t ∧ t.kind = kind ∧ t.apiVersion = apiVersion))
    (hstep : mergeStep i name body s = MergeResult.finished s2) :
    (∃ l, s2.list = some l ∧ l.kind = kind ∧ l.apiVersion = apiVersion) ∨
      (s2.list = none ∧ ∃ t, s2.table = some t ∧ t.kind = kind ∧ t.apiVersion = apiVersion) := by
  have hi0 : i ≠ 0 := by omega
  unfold mergeStep at hstep
  cases hgvk : Interpret body with
  | none => simp [hgvk] at hstep
  | some gvk =>
    simp only [hgvk, hi0, if_false] at hstep
    by_cases hk : gvk.kind = "Table"
    · simp only [hk, if_true] at hstep
      cases ht : s.table with
      | none => simp [ht] at hstep
      | some t =>
        simp only [ht, MergeResult.finished.injEq] at hstep
        subst hstep
        rcases hinv with ⟨l, hl, h1, h2⟩ | ⟨hl, t2, ht2, h1, h2⟩
        · exact Or.inl ⟨l, hl, h1, h2⟩
        · rw [ht] at ht2
          cases ht2
          exact Or.inr ⟨hl, _, rfl, h1, h2⟩
    · simp only [hk, if_false] at hstep
      by_cases hsuf : HasSuffix gvk.kind "List" = true
      · simp only [hsuf, if_true] at hstep
        cases hl : s.list with
        | none => simp [hl] at hstep
        | some l =>
          simp only [hl, MergeResult.finished.injEq] at hstep
          subst hstep
          rcases hinv with ⟨l2, hl2, h1, h2⟩ | ⟨hl2, _⟩
          · rw [hl] at hl2
            cases hl2
            exact Or.inl ⟨_, rfl, h1, h2⟩
          · rw [hl] at hl2
            cases hl2
      · simp [hsuf] at hstep

/-- The second loop, after the first round, keeps the kind and the version of
whichever of `list` and `table` will be emitted. -/
theorem mergeLoop_kind (names : List String) (kind apiVersion : String) :
    ∀ (ws : List Response) (i : Nat) (s s2 : MergeState), 0 < i →
      ((∃ l, s.list = some l ∧ l.kind = kind ∧ l.apiVersion = apiVersion) ∨
        (s.list = none ∧ ∃ t, s.table = some t ∧ t.kind = kind ∧ t.apiVersion = apiVersion)) →
      mergeLoop names i ws s = MergeResult.finished s2 →
      ((∃ l, s2.list = some l ∧ l.kind = kind ∧ l.apiVersion = apiVersion) ∨
        (s2.list = none ∧ ∃ t, s2.table = some t ∧ t.kind = kind ∧ t.apiVersion = apiVersion)) := by
  intro ws
  induction ws with
  | nil =>
    intro i s s2 _ hinv hloop
    simp only [mergeLoop, MergeResult.finished.injEq] at hloop
    subst hloop
    exact hinv
  | cons w ws ih =>
    intro i s s2 hi hinv hloop
    simp only [mergeLoop] at hloop
    cases hname : names[i]? with
    | none => simp [hname] at hloop
    | some name =>
      simp only [hname] at hloop
      cases hstep : mergeStep i name (recordedBody w) s with
      | finished s1 =>
        simp only [hstep] at hloop
        exact ih (i + 1) s1 s2 (by omega) (mergeStep_kind kind apiVersion i name _ s s1 hi hinv hstep)
          hloop
      | returned c => simp [hstep] at hloop
      | panicked reason c => simp [hstep] at hloop

/-- The first round of the second loop succeeds only on a JSON object, and
then sets `list` or `table` with the kind and the version of that object. -/
theorem mergeStep_first_kind (name : String) (body : Payload) (c : ClusterCache)
    (s2 : MergeState)
    (hstep : mergeStep 0 name body { table := none, list := none, clusterCache := c } =
      MergeResult.finished s2) :
    ∃ o0, body = Payload.object o0 ∧
      ((∃ l, s2.list = some l ∧ l.kind = o0.kind ∧ l.apiVersion = o0.apiVersion) ∨
        (s2.list = none ∧
          ∃ t, s2.table = some t ∧ t.kind = o0.kind ∧ t.apiVersion = o0.apiVersion)) := by
  cases body with
  | text t => simp [mergeStep, Interpret] at hstep
  | null =>
    have h1 : HasSuffix "" "List" = false := by decide
    simp [mergeStep, Interpret, h1] at hstep
  | object o0 =>
    refine ⟨o0, rfl, ?_⟩
    unfold mergeStep at hstep
    cases hp : ParseGroupVersion o0.apiVersion with
    | none => simp [Interpret, hp] at hstep
    | some gv =>
      obtain ⟨g, v⟩ := gv
      simp only [Interpret, hp, if_true] at hstep
      by_cases hk : o0.kind = "Table"
      · simp only [hk, if_true, MergeResult.finished.injEq] at hstep
        subst hstep
        exact Or.inr ⟨rfl, _, rfl, by simp [addClusterToTable, unmarshalTable, hk],
          by simp [addClusterToTable, unmarshalTable]⟩
      · simp only [hk, if_false] at hstep
        by_cases hsuf : HasSuffix o0.kind "List" = true
        · simp only [hsuf, if_true, MergeResult.finished.injEq] at hstep
          subst hstep
          exact Or.inl ⟨_, rfl, by simp [unmarshalList], by simp [unmarshalList]⟩
        · simp [hsuf] at hstep

/-- C8. Whenever `aggregateServer.ServeHTTP`, with N >= 1 recorded backend
responses, returns having written a body, that body is a JSON object, the body
of the first backend is a JSON object too, and the emitted object declares the
kind and the apiVersion that the first body declares. -/
theorem C8_kind_of_first_backend (env : Env) (S : aggregateServer)
    (clusterCache : ClusterCache) (r : Request) (trace : List Event) (req : Request)
    (w0 : Response) (ws : List Response) (resp : Response) (emitted : Payload)
    (hrec : S.record env S.cfgs r = Collected.done trace req (w0 :: ws))
    (hres : (S.ServeHTTP env clusterCache r).1.result = Outcome.returned resp)
    (hbody : resp.body = some emitted) :
    ∃ o o0, emitted = Payload.object o ∧ recordedBody w0 = Payload.object o0 ∧
      o.kind = o0.kind ∧ o.apiVersion = o0.apiVersion := by
  simp only [aggregateServer.ServeHTTP, hrec] at hres
  cases hloop : mergeLoop S.clusterNames 0 (w0 :: ws)
      { table := none, list := none, clusterCache := clusterCache } with
  | panicked reason c => simp [hloop] at hres
  | returned c =>
    simp only [hloop, Outcome.returned.injEq] at hres
    subst hres
    simp [Response.empty] at hbody
  | finished s2 =>
    simp only [hloop] at hres
    simp only [mergeLoop] at hloop
    cases hname : S.clusterNames[0]? with
    | none => simp [hname] at hloop
    | some name =>
      simp only [hname] at hloop
      cases hstep : mergeStep 0 name (recordedBody w0)
          { table := none, list := none, clusterCache := clusterCache } with
      | returned c => simp [hstep] at hloop
      | panicked reason c => simp [hstep] at hloop
      | finished s1 =>
        simp only [hstep] at hloop
        obtain ⟨o0, hb0, hinv⟩ := mergeStep_first_kind name _ clusterCache s1 hstep
        have hfin := mergeLoop_kind S.clusterNames o0.kind o0.apiVersion ws 1 s1 s2 (by omega)
          hinv hloop
        rcases hfin with ⟨l, hl, h1, h2⟩ | ⟨hl, t, ht, h1, h2⟩
        · simp only [hl, Outcome.returned.injEq] at hres
          subst hres
          simp only [writeJSON, Option.some.injEq] at hbody
          subst hbody
          exact ⟨_, o0, rfl, hb0, h1, h2⟩
        · simp only [hl, ht, Outcome.returned.injEq] at hres
          subst hres
          simp only [writeJSON, Option.some.injEq] at hbody
          subst hbody
          exact ⟨_, o0, rfl, hb0, h1, h2⟩

/-- Witness of C8: the list merged from two `PodList` bodies of version `v1` is
a `PodList` of version `v1`. -/
theorem C8_kind_of_first_backend_witness :
    Sample.aggregate.record (Sample.env Sample.podList) Sample.aggregate.cfgs Sample.podsRequest =
      Collected.done (Sample.aggregateTrace Sample.podsRequest) Sample.podsRequest
        [Sample.podList (Sample.outbound "w1" Sample.podsRequest),
         Sample.podList (Sample.outbound "w2" Sample.podsRequest)] ∧
    (Sample.aggregate.ServeHTTP (Sample.env Sample.podList) [] Sample.podsRequest).1.result =
      Outcome.returned (writeJSON (Payload.object Sample.mergedPods)) ∧
    ∃ o o0, Payload.object Sample.mergedPods = Payload.object o ∧
      recordedBody (Sample.podList (Sample.outbound "w1" Sample.podsRequest)) =
        Payload.object o0 ∧
      o.kind = o0.kind ∧ o.apiVersion = o0.apiVersion :=
  ⟨rfl, by decide,
    C8_kind_of_first_backend (Sample.env Sample.podList) Sample.aggregate [] Sample.podsRequest
      (Sample.aggregateTrace Sample.podsRequest) Sample.podsRequest
      (Sample.podList (Sample.outbound "w1" Sample.podsRequest))
      [Sample.podList (Sample.outbound "w2" Sample.podsRequest)]
      (writeJSON (Payload.object Sample.mergedPods)) (Payload.object Sample.mergedPods)
      rfl (by decide) rfl⟩

/-- C9 (behaviour of the code). When the first backend answers with a plain-text
error body, `Interpret` fails and returns a nil `gvk`; `ServeHTTP` logs the
error and goes on to read `gvk.Kind`, so the handler panics instead of
returning. The same holds for an empty body. A `Status` object, which
`Interpret` can read, makes the handler return without writing. -/
theorem C9_plain_text_body_panics :
    Sample.aggregate.record (Sample.env Sample.notFound) Sample.aggregate.cfgs
        Sample.podsRequest =
      Collected.done (Sample.aggregateTrace Sample.podsRequest) Sample.podsRequest
        [httpError "404 page not found" 404, httpError "404 page not found" 404] ∧
    recordedBody (httpError "404 page not found" 404) = Payload.text "404 page not found\n" ∧
    Interpret (Payload.text "404 page not found\n") = none ∧
    (Sample.aggregate.ServeHTTP (Sample.env Sample.notFound) [] Sample.podsRequest).1.result =
      Outcome.panicked "nil pointer dereference: gvk.Kind" ∧
    (Sample.aggregate.ServeHTTP (Sample.env (fun _ => Response.empty)) []
        Sample.podsRequest).1.result =
      Outcome.panicked "nil pointer dereference: gvk.Kind" ∧
    (Sample.aggregate.ServeHTTP (Sample.env Sample.forbidden) [] Sample.podsRequest).1.result =
      Outcome.returned Response.empty := by
  refine ⟨rfl, by decide, by decide, by decide, by decide, by decide⟩

/-- C10 (behaviour of the code). Namespace `team-b` is placed on `w1`, `gone` and
`w3`, and cluster `gone` cannot be resolved: `getRestConfigsForClusters` skips
it and returns two configurations for three names, the dispatcher passes the
three names and the two configurations to the aggregator, and the row answered
by `w3` is labelled `gone`. -/
theorem C10_skipped_cluster_shifts_labels :
    (Sample.env Sample.podTable).placements "team-b" =
      some { masterCluster := "m", workerClusters := ["w1", "gone", "w3"] } ∧
    getRestConfigsForClusters (Sample.env Sample.podTable) ["w1", "gone", "w3"] =
      [Sample.configOf "w1", Sample.configOf "w3"] ∧
    Event.newAggregateProxyHandler ["w1", "gone", "w3"]
        [Sample.configOf "w1", Sample.configOf "w3"] ∈
      (Sample.top Sample.podTable [] Sample.teamBRequest).1.trace ∧
    (Sample.top Sample.podTable [] Sample.teamBRequest).1.result =
      Outcome.returned (writeJSON (Payload.object
        { apiVersion := "meta.k8s.io/v1beta1", kind := "Table", metadata := ListMeta.zero,
          columnDefinitions :=
            [Sample.nameColumn,
             { name := "Cluster", type := "string", format := "",
               description := "Cluster name which this resource belongs to", priority := 0 }],
          rows :=
            [{ cells := [Cell.str "https://w1", Cell.str "w1"], conditions := "", object := "" },
             { cells := [Cell.str "https://w3", Cell.str "gone"], conditions := "", object := "" }],
          items := [] })) := by
  refine ⟨by decide, by decide, by decide, by decide⟩

end Proxy

namespace Proxy

/-- C11 (refuted). Namespace `unknown` has no placement; a request for
its pods reaches no backend, but the dispatcher still drives the aggregator,
with no backend at all, and the aggregator writes the header `Content-Type:
application/json` and the body `null`: the response writer is not left empty.
With several workers of which one cannot be resolved (`team-b`), the other
workers are contacted and their merged answer is written. -/
theorem C11_failed_placement_writes_null :
    getNamespaceTypeNameFromPath "/api/v1/namespaces/unknown/pods" = ("unknown", "pods", "") ∧
    (Sample.env Sample.podList).placements "unknown" = none ∧
    (Sample.top Sample.podList [] (Sample.get "/api/v1/namespaces/unknown/pods")).1.result =
      Outcome.returned
        { status := none, header := [("Content-Type", "application/json")],
          body := some Payload.null } ∧
    ¬ (Sample.top Sample.podList [] (Sample.get "/api/v1/namespaces/unknown/pods")).1.result =
      Outcome.returned Response.empty ∧
    (Sample.env Sample.podList).clusterConfig "gone" = none ∧
    ((Sample.top Sample.podList [] Sample.teamBRequest).1.trace.filterMap
        (fun e => match e with
          | Event.roundTrip o => some o.target
          | _ => none)) = ["https://w1/", "https://w3/"] ∧
    ¬ (Sample.top Sample.podList [] Sample.teamBRequest).1.result =
      Outcome.returned Response.empty := by
  refine ⟨by decide, by decide, by decide, by decide, by decide, by decide, by decide⟩

/-- Failed lookups in the top dispatcher. For an authenticated request with a
non-empty classified namespace the dispatcher writes no status, header or body
and calls no backend proxy (a) on the master path when the configuration lookup
for the resolved master cluster fails, the resolved name being empty after a
failed placement lookup; (b) on the cached single-worker path when the
configuration lookup for the cached cluster fails; (c) on the all-workers path
when the placement lists exactly one worker whose configuration lookup fails.
(d) On the all-workers path when the placement lookup fails no backend proxy is
called either, but the aggregator is driven with no backend and writes the
header `Content-Type: application/json` and the body `null`. -/
theorem failed_lookups (env : Env) (filebase apiProxyPrefix staticPrefix : String)
    (filter : Option FilterServer) (cfg : RestConfig) (keepalive : Int)
    (clusterCache : ClusterCache) (r : Request) (authenticator : Request → AuthResult)
    (user : UserInfo) (ns resourceType resourceName : String)
    (hauth : env.authenticator = some authenticator)
    (hok : authenticator r = AuthResult.ok user)
    (hpath : getNamespaceTypeNameFromPath r.path = (ns, resourceType, resourceName))
    (hns : ns ≠ "") :
    (HasPrefix resourceType "Federated" = true →
      env.clusterConfig ((getClusterFromNamespace env ns).getD "") = none →
      newTopProxyHandler env filebase apiProxyPrefix staticPrefix filter cfg keepalive
          clusterCache r =
        ({ trace := [Event.getClusterFromNamespace ns,
                     Event.getRestConfigForCluster ((getClusterFromNamespace env ns).getD "")],
           req := r, result := Outcome.returned Response.empty }, clusterCache)) ∧
    (HasPrefix resourceType "Federated" = true → env.placements ns = none →
      (getClusterFromNamespace env ns).getD "" = "") ∧
    (HasPrefix resourceType "Federated" = false → resourceName ≠ "" →
      getClusterFromCache clusterCache ns resourceType resourceName ≠ "" →
      env.clusterConfig (getClusterFromCache clusterCache ns resourceType resourceName) = none →
      newTopProxyHandler env filebase apiProxyPrefix staticPrefix filter cfg keepalive
          clusterCache r =
        ({ trace := [Event.getClusterFromCache ns resourceType resourceName,
                     Event.getClusterFromCache ns resourceType resourceName,
                     Event.getRestConfigForCluster
                       (getClusterFromCache clusterCache ns resourceType resourceName)],
           req := r, result := Outcome.returned Response.empty }, clusterCache)) ∧
    (HasPrefix resourceType "Federated" = false →
      (resourceName = "" ∨ getClusterFromCache clusterCache ns resourceType resourceName = "") →
      ∀ placement worker, env.placements ns = some placement →
        placement.workerClusters = [worker] → env.clusterConfig worker = none →
        newTopProxyHandler env filebase apiProxyPrefix staticPrefix filter cfg keepalive
            clusterCache r =
          ({ trace := (if resourceName ≠ "" then
                        [Event.getClusterFromCache ns resourceType resourceName] else []) ++
                      [Event.getWorkerClustersFromNamespace ns,
                       Event.getRestConfigForCluster worker],
             req := r, result := Outcome.returned Response.empty }, clusterCache)) ∧
    (HasPrefix resourceType "Federated" = false →
      (resourceName = "" ∨ getClusterFromCache clusterCache ns resourceType resourceName = "") →
      env.placements ns = none →
      newTopProxyHandler env filebase apiProxyPrefix staticPrefix filter cfg keepalive
          clusterCache r =
        ({ trace := (if resourceName ≠ "" then
                      [Event.getClusterFromCache ns resourceType resourceName] else []) ++
                    [Event.getWorkerClustersFromNamespace ns,
                     Event.getRestConfigsForClusters [],
                     Event.newAggregateProxyHandler [] []],
           req := r,
           result := Outcome.returned
             { status := none, header := [("Content-Type", "application/json")],
               body := some Payload.null } }, clusterCache)) := by
  have hcond : (resourceName = "" ∨
      getClusterFromCache clusterCache ns resourceType resourceName = "") →
      ¬ (resourceName ≠ "" ∧
        getClusterFromCache clusterCache ns resourceType resourceName ≠ "") := by
    rintro hmiss ⟨h1, h2⟩
    rcases hmiss with h | h
    · exact h1 h
    · exact h2 h
  refine ⟨fun hfed hcfg => ?_, fun _ hpl => ?_, fun hfed hname hhit hcfg => ?_,
    fun hfed hmiss placement worker hpl hone hcfg => ?_, fun hfed hmiss hpl => ?_⟩
  · simp only [newTopProxyHandler, hauth, hok, hpath, hns, if_false, needToGetFromMaster, hfed,
      if_true, getRestConfigForCluster, hcfg, serveProxyCfg, Served.after, List.append_nil]
  · simp [getClusterFromNamespace, hpl]
  · simp only [newTopProxyHandler, hauth, hok, hpath, hns, if_false, needToGetFromMaster, hfed,
      Bool.false_eq_true, getRestConfigForCluster]
    rw [if_pos ⟨hname, hhit⟩]
    simp only [hcfg, serveProxyCfg, Served.after, List.append_nil]
  · simp only [newTopProxyHandler, hauth, hok, hpath, hns, if_false, needToGetFromMaster, hfed,
      Bool.false_eq_true, hcond hmiss, getWorkerClustersFromNamespace, hpl, hone,
      Option.getD_some, getRestConfigForCluster, hcfg, serveProxyCfg, Served.after,
      List.append_nil]
  · simp only [newTopProxyHandler, hauth, hok, hpath, hns, if_false, needToGetFromMaster, hfed,
      Bool.false_eq_true, hcond hmiss, getWorkerClustersFromNamespace, hpl, Option.getD_none,
      getRestConfigsForClusters, newAggregateProxyHandler, aggregateServer.ServeHTTP,
      aggregateServer.record, mergeLoop, marshalTable, writeJSON, Served.after, List.append_nil]

/-- C12 (behaviour of the code). A request of `alice` that is not an upgrade
leaves through the transport impersonating `alice` with her groups; her upgrade
request (exec) leaves through the transport of `makeUpgradeTransport`, whose
impersonation configuration is the constant user `minikube-user` without
groups or extra, whoever the caller is. -/
theorem C12_upgrade_transport_fixed_user :
    Sample.aliceConfig =
      { userName := Sample.alice.name, groups := Sample.alice.groups,
        extra := Sample.alice.extra } ∧
    makeUpgradeTransport 5 =
      Transport.upgrade { userName := "minikube-user", groups := [], extra := [] } 5 ∧
    ((Sample.top Sample.podList [] (Sample.get "/api/v1/namespaces/solo/pods")).1.trace.filterMap
        (fun e => match e with
          | Event.roundTrip o => some o.transport
          | _ => none)) = [Transport.rest Sample.aliceConfig] ∧
    ((Sample.top Sample.podList [] Sample.execRequest).1.trace.filterMap
        (fun e => match e with
          | Event.roundTrip o => some o.transport
          | _ => none)) =
      [Transport.upgrade { userName := "minikube-user", groups := [], extra := [] } 5] := by
  refine ⟨by decide, by decide, by decide, by decide⟩

/-- C13. When the authenticator cannot be built, or authenticating the request
returns an error, the top handler only writes the status 501; when the request
is not authenticated it only writes the status 401. In these cases nothing
depends on the path, no collaborator is called (no resolver, cache, backend
proxy or aggregator) and the route cache is left as it was. -/
theorem C13_authentication_failures (env : Env) (filebase apiProxyPrefix staticPrefix : String)
    (filter : Option FilterServer) (cfg : RestConfig) (keepalive : Int)
    (clusterCache : ClusterCache) (r : Request) :
    (env.authenticator = none →
      newTopProxyHandler env filebase apiProxyPrefix staticPrefix filter cfg keepalive
          clusterCache r =
        ({ trace := [], req := r,
           result := Outcome.returned { status := some 501, header := [], body := none } },
         clusterCache)) ∧
    (∀ authenticator, env.authenticator = some authenticator →
      authenticator r = AuthResult.error →
      newTopProxyHandler env filebase apiProxyPrefix staticPrefix filter cfg keepalive
          clusterCache r =
        ({ trace := [], req := r,
           result := Outcome.returned { status := some 501, header := [], body := none } },
         clusterCache)) ∧
    (∀ authenticator, env.authenticator = some authenticator →
      authenticator r = AuthResult.unauthenticated →
      newTopProxyHandler env filebase apiProxyPrefix staticPrefix filter cfg keepalive
          clusterCache r =
        ({ trace := [], req := r,
           result := Outcome.returned { status := some 401, header := [], body := none } },
         clusterCache)) := by
  refine ⟨fun h => ?_, fun a h herr => ?_, fun a h hno => ?_⟩
  · simp only [newTopProxyHandler, h, Response.writeHeader]
  · simp only [newTopProxyHandler, h, herr, Response.writeHeader]
  · simp only [newTopProxyHandler, h, hno, Response.writeHeader]

/-- Witness of C13: a request without a client certificate gets 401, a failing
authenticator gives 501, for a path that would otherwise go to the workers. -/
theorem C13_authentication_failures_witness :
    newTopProxyHandler (Sample.envWithAuthenticator (some (fun _ => AuthResult.unauthenticated)))
        "" "/" "/static/" none Sample.localConfig 5 [] Sample.podsRequest =
      ({ trace := [], req := Sample.podsRequest,
         result := Outcome.returned { status := some 401, header := [], body := none } }, []) ∧
    newTopProxyHandler (Sample.envWithAuthenticator (some (fun _ => AuthResult.error)))
        "" "/" "/static/" none Sample.localConfig 5 [] Sample.podsRequest =
      ({ trace := [], req := Sample.podsRequest,
         result := Outcome.returned { status := some 501, header := [], body := none } }, []) ∧
    newTopProxyHandler (Sample.envWithAuthenticator none)
        "" "/" "/static/" none Sample.localConfig 5 [] Sample.podsRequest =
      ({ trace := [], req := Sample.podsRequest,
         result := Outcome.returned { status := some 501, header := [], body := none } }, []) :=
  ⟨(C13_authentication_failures
      (Sample.envWithAuthenticator (some (fun _ => AuthResult.unauthenticated)))
      "" "/" "/static/" none Sample.localConfig 5 [] Sample.podsRequest).2.2 _ rfl rfl,
   (C13_authentication_failures
      (Sample.envWithAuthenticator (some (fun _ => AuthResult.error)))
      "" "/" "/static/" none Sample.localConfig 5 [] Sample.podsRequest).2.1 _ rfl rfl,
   (C13_authentication_failures (Sample.envWithAuthenticator none)
      "" "/" "/static/" none Sample.localConfig 5 [] Sample.podsRequest).1 rfl⟩

/-- A string matches a list of regexps when it matches one of them. -/
theorem matchesRegexp_iff (str : String) (regexps : List Regexp) :
    matchesRegexp str regexps = true ↔ ∃ re ∈ regexps, re.MatchString str = true := by
  induction regexps with
  | nil => simp [matchesRegexp]
  | cons re regexps ih =>
    simp only [matchesRegexp, List.mem_cons, exists_eq_or_imp]
    by_cases h : re.MatchString str = true
    · simp [h]
    · simp [h, ih]

/-- C14. The method `accept` returns true exactly when the path matches no
entry of `RejectPaths`, the method matches no entry of `RejectMethods`, the
path matches some entry of `AcceptPaths` and the host matches some entry of
`AcceptHosts`. So a path that matches an entry of `RejectPaths` is rejected
whatever `AcceptPaths` holds, and a filter whose `AcceptPaths` or `AcceptHosts`
is empty accepts nothing. -/
theorem C14_accept_iff (f : FilterServer) (method path host : String) :
    (f.accept method path host = true ↔
      (∀ re ∈ f.RejectPaths, re.MatchString path = false) ∧
      (∀ re ∈ f.RejectMethods, re.MatchString method = false) ∧
      (∃ re ∈ f.AcceptPaths, re.MatchString path = true) ∧
      (∃ re ∈ f.AcceptHosts, re.MatchString host = true)) ∧
    ((∃ re ∈ f.RejectPaths, re.MatchString path = true) →
      f.accept method path host = false) ∧
    (f.AcceptPaths = [] → f.accept method path host = false) ∧
    (f.AcceptHosts = [] → f.accept method path host = false) := by
  have hno : ∀ (str : String) (regexps : List Regexp),
      matchesRegexp str regexps = false ↔ ∀ re ∈ regexps, re.MatchString str = false := by
    intro str regexps
    rw [← Bool.not_eq_true, matchesRegexp_iff]
    simp
  have hiff : f.accept method path host = true ↔
      (∀ re ∈ f.RejectPaths, re.MatchString path = false) ∧
      (∀ re ∈ f.RejectMethods, re.MatchString method = false) ∧
      (∃ re ∈ f.AcceptPaths, re.MatchString path = true) ∧
      (∃ re ∈ f.AcceptHosts, re.MatchString host = true) := by
    rw [← hno, ← hno, ← matchesRegexp_iff, ← matchesRegexp_iff]
    unfold FilterServer.accept
    cases matchesRegexp path f.RejectPaths <;> cases matchesRegexp method f.RejectMethods <;>
      cases matchesRegexp path f.AcceptPaths <;> cases matchesRegexp host f.AcceptHosts <;>
      simp
  refine ⟨hiff, fun hrej => ?_, fun hempty => ?_, fun hempty => ?_⟩
  · rw [← Bool.not_eq_true, hiff]
    rintro ⟨h1, -⟩
    obtain ⟨re, hre, hm⟩ := hrej
    rw [h1 re hre] at hm
    cases hm
  · rw [← Bool.not_eq_true, hiff, hempty]
    rintro ⟨-, -, ⟨re, hre, -⟩, -⟩
    cases hre
  · rw [← Bool.not_eq_true, hiff, hempty]
    rintro ⟨-, -, -, ⟨re, hre, -⟩⟩
    cases hre

/-- Witness of C14: the default filter accepts `GET /api/v1/pods` from
`localhost` and rejects the attach path, which `^.*` accepts, because it
matches the reject pattern. -/
theorem C14_accept_iff_witness :
    defaultFilter.accept "GET" "/api/v1/pods" "localhost" = true ∧
    (∃ re ∈ defaultFilter.AcceptPaths,
      re.MatchString "/api/v1/namespaces/x/pods/y/attach" = true) ∧
    defaultFilter.accept "GET" "/api/v1/namespaces/x/pods/y/attach" "localhost" = false := by
  refine ⟨by decide, ⟨_, List.mem_singleton.mpr rfl, by decide⟩, ?_⟩
  exact (C14_accept_iff defaultFilter "GET" "/api/v1/namespaces/x/pods/y/attach"
    "localhost").2.1 ⟨_, List.mem_singleton.mpr rfl, by decide⟩

/-- C15. For a filter with a delegate, `FilterServer.ServeHTTP` on an accepted
request (method, path and the host extracted from the `Host` header) is the
delegate run once on that same request; on any other request it is the answer
403 with the plain-text line `Forbidden`, whatever the delegate is, with no
collaborator called and the request untouched. -/
theorem C15_filter_delegates_or_forbids (f : FilterServer) (delegate : Handler) (req : Request)
    (hdelegate : f.delegate = some delegate) :
    (f.accept req.method req.path (extractHost req.host) = true →
      f.ServeHTTP req = delegate req) ∧
    (f.accept req.method req.path (extractHost req.host) = false →
      f.ServeHTTP req =
        { trace := [], req := req,
          result := Outcome.returned
            { status := some 403,
              header := [("Content-Type", "text/plain; charset=utf-8"),
                         ("X-Content-Type-Options", "nosniff")],
              body := some (Payload.text "Forbidden\n") } } ∧
      ∀ other : Handler, (f.HandlerFor other).ServeHTTP req = f.ServeHTTP req) := by
  refine ⟨fun hacc => ?_, fun hrej => ⟨?_, fun other => ?_⟩⟩
  · simp only [FilterServer.ServeHTTP, hacc, if_true, hdelegate]
  · simp only [FilterServer.ServeHTTP, hrej, Bool.false_eq_true, if_false, httpError]
    rfl
  · simp only [FilterServer.ServeHTTP, FilterServer.HandlerFor, FilterServer.accept] at hrej ⊢
    simp only [hrej, Bool.false_eq_true, if_false]

/-- Witness of C15: the default filter in front of the backend proxy of `w1`
hands `GET /api/v1/pods` to it and answers 403 to the attach request. -/
theorem C15_filter_delegates_or_forbids_witness :
    (defaultFilter.HandlerFor Sample.backendW1).accept "GET" "/api/v1/pods"
        (extractHost "localhost:8001") = true ∧
    (defaultFilter.HandlerFor Sample.backendW1).ServeHTTP (Sample.get "/api/v1/pods") =
      Sample.backendW1 (Sample.get "/api/v1/pods") ∧
    (defaultFilter.HandlerFor Sample.backendW1).accept "GET" "/api/v1/namespaces/x/pods/y/attach"
        (extractHost "localhost:8001") = false ∧
    ((defaultFilter.HandlerFor Sample.backendW1).ServeHTTP
        (Sample.attachRequest "GET" "localhost:8001")).result =
      Outcome.returned (httpError "Forbidden" 403) :=
  ⟨by decide,
   (C15_filter_delegates_or_forbids (defaultFilter.HandlerFor Sample.backendW1) Sample.backendW1
      (Sample.get "/api/v1/pods") rfl).1 (by decide),
   by decide,
   by
     rw [((C15_filter_delegates_or_forbids (defaultFilter.HandlerFor Sample.backendW1)
       Sample.backendW1 (Sample.attachRequest "GET" "localhost:8001") rfl).2 (by decide)).1]
     rfl⟩

/-- C16 (as stated, refuted). Under the prefix `/proxy/` the default filter is
not the outermost layer. A request for `/other` with a host the filter does
not accept is rejected by the filter as received, but the prefix layer answers
404 first. A request for `/proxy/api/v1/namespaces/x/pods/y/attach` is accepted
by the filter as received, but the filter sees the stripped path and answers
403. -/
theorem C16_prefix_layer_is_outermost :
    defaultFilter.accept "GET" "/other" (extractHost "evil.example.com") = false ∧
    Sample.prefixedProxy
        { method := "GET", path := "/other", host := "evil.example.com", upgrade := false } =
      some { trace := [],
             req := { method := "GET", path := "/other", host := "evil.example.com",
                      upgrade := false },
             result := Outcome.returned (httpError "404 page not found" 404) } ∧
    defaultFilter.accept "GET" "/proxy/api/v1/namespaces/x/pods/y/attach"
        (extractHost "localhost") = true ∧
    Sample.prefixedProxy
        { method := "GET", path := "/proxy/api/v1/namespaces/x/pods/y/attach",
          host := "localhost", upgrade := false } =
      some { trace := [],
             req := { method := "GET", path := "/api/v1/namespaces/x/pods/y/attach",
                      host := "localhost", upgrade := false },
             result := Outcome.returned (httpError "Forbidden" 403) } := by
  refine ⟨by decide, by decide, by decide, by decide⟩

/-- C16 (as amended). In the handler built by `newDynamicProxyHandler` with a
filter, the filter wraps the backend proxy. When `apiProxyPrefix` begins with
`/api` the filter is the outermost layer: a request it rejects is answered 403.
Otherwise `stripLeaveSlash` is the outermost layer: a request whose path does
not begin with the prefix is answered 404 without the filter being consulted,
and any other request is put to the filter with its path stripped, and
answered 403 when the filter rejects that. -/
theorem C16_filter_layering (env : Env) (filebase apiProxyPrefix staticPrefix : String)
    (f : FilterServer) (cfg : RestConfig) (keepalive : Int) (imp : ImpersonationConfig)
    (h : Handler)
    (hbuilt : newDynamicProxyHandler env filebase apiProxyPrefix staticPrefix (some f) cfg
      keepalive imp = some h) :
    (HasPrefix apiProxyPrefix "/api" = true → ∀ r : Request,
      f.accept r.method r.path (extractHost r.host) = false →
      h r = { trace := [], req := r, result := Outcome.returned (httpError "Forbidden" 403) }) ∧
    (HasPrefix apiProxyPrefix "/api" = false → ∀ r : Request,
      ((TrimPrefix r.path apiProxyPrefix).data.length ≥ r.path.data.length →
        h r = { trace := [], req := r,
                result := Outcome.returned (httpError "404 page not found" 404) }) ∧
      ((TrimPrefix r.path apiProxyPrefix).data.length < r.path.data.length →
        ∀ p : String,
          p = (if (TrimPrefix r.path apiProxyPrefix).data.length > 0 ∧
                  (TrimPrefix r.path apiProxyPrefix).data.take 1 ≠ "/".data
               then "/" ++ TrimPrefix r.path apiProxyPrefix
               else TrimPrefix r.path apiProxyPrefix) →
          f.accept r.method p (extractHost r.host) = false →
          h r = { trace := [], req := { r with path := p },
                  result := Outcome.returned (httpError "Forbidden" 403) })) := by
  unfold newDynamicProxyHandler at hbuilt
  by_cases hv : env.configValid cfg = true
  · simp only [hv, Bool.not_true, Bool.false_eq_true, if_false, Option.some.injEq] at hbuilt
    subst hbuilt
    refine ⟨fun hp r hrej => ?_, fun hp r => ⟨fun hlen => ?_, fun hlen p hpdef hrej => ?_⟩⟩
    · simp only [hp, Bool.not_true, Bool.false_eq_true, if_false, FilterServer.ServeHTTP,
        FilterServer.HandlerFor, FilterServer.accept] at hrej ⊢
      simp only [hrej, Bool.false_eq_true, if_false]
    · simp only [hp, Bool.not_false, if_true, stripLeaveSlash]
      rw [if_pos hlen]
    · subst hpdef
      simp only [hp, Bool.not_false, if_true, stripLeaveSlash]
      rw [if_neg (by omega)]
      simp only [FilterServer.ServeHTTP, FilterServer.HandlerFor, FilterServer.accept] at hrej ⊢
      simp only [hrej, Bool.false_eq_true, if_false]
  · simp [hv] at hbuilt

/-- Witness of C16: under the prefix `/proxy/`, a path outside the prefix gets
404 and the attach path inside the prefix gets 403 from the filter, which sees
the stripped path. -/
theorem C16_filter_layering_witness :
    newDynamicProxyHandler (Sample.env Sample.podList) "" "/proxy/" "/static/"
        (some defaultFilter) (Sample.configOf "w1") 5 Sample.aliceConfig =
      some Sample.prefixedHandler ∧
    HasPrefix "/proxy/" "/api" = false ∧
    Sample.prefixedHandler (Sample.get "/other") =
      { trace := [], req := Sample.get "/other",
        result := Outcome.returned (httpError "404 page not found" 404) } ∧
    Sample.prefixedHandler (Sample.get "/proxy/api/v1/namespaces/x/pods/y/attach") =
      { trace := [], req := Sample.get "/api/v1/namespaces/x/pods/y/attach",
        result := Outcome.returned (httpError "Forbidden" 403) } := by
  have h := (C16_filter_layering (Sample.env Sample.podList) "" "/proxy/" "/static/"
    defaultFilter (Sample.configOf "w1") 5 Sample.aliceConfig Sample.prefixedHandler rfl).2
    (by decide)
  refine ⟨rfl, by decide, (h (Sample.get "/other")).1 (by decide), ?_⟩
  exact (h (Sample.get "/proxy/api/v1/namespaces/x/pods/y/attach")).2 (by decide)
    "/api/v1/namespaces/x/pods/y/attach" (by decide) (by decide)

/-- C17 (behaviour of the code). With the default filter, the attach request for
pod `y` of namespace `x` reaches no backend, and it is answered 403 when the
placement of `x` lists exactly one worker. With two workers each backend proxy
answers 403 into its recorder and the aggregator then panics on the plain-text
body, so the client gets no 403; with no worker, or no placement, the
aggregator writes the body `null`. -/
theorem C17_attach_rejected_only_for_one_worker :
    defaultFilter.accept "GET" "/api/v1/namespaces/x/pods/y/attach"
        (extractHost "localhost:8001") = false ∧
    getNamespaceTypeNameFromPath "/api/v1/namespaces/x/pods/y/attach" =
      ("x", "pods", "y/attach") ∧
    (Sample.filteredTop (some ["w1"]) (Sample.attachRequest "GET" "localhost:8001")).1.result =
      Outcome.returned (httpError "Forbidden" 403) ∧
    (Sample.filteredTop (some ["w1", "w2"])
        (Sample.attachRequest "GET" "localhost:8001")).1.result =
      Outcome.panicked "nil pointer dereference: gvk.Kind" ∧
    (Sample.filteredTop (some []) (Sample.attachRequest "GET" "localhost:8001")).1.result =
      Outcome.returned (writeJSON Payload.null) ∧
    (Sample.filteredTop none (Sample.attachRequest "GET" "localhost:8001")).1.result =
      Outcome.returned (writeJSON Payload.null) ∧
    (∀ workers ∈ [some ["w1"], some ["w1", "w2"], some [], none],
      ((Sample.filteredTop workers (Sample.attachRequest "GET" "localhost:8001")).1.trace.filterMap
        (fun e => match e with
          | Event.roundTrip o => some o.target
          | _ => none)) = []) := by
  refine ⟨by decide, by decide, by decide, by decide, by decide, by decide, by decide⟩

/-- C18 (behaviour of the code). The function `extractHost` removes the port of
`localhost:8080` and leaves `localhost` as it is, but for `[::1]:8001` it
returns `::1`, without the brackets: `net.SplitHostPort` strips them. The
default accept-hosts patterns match `[::1]` and do not match `::1`, so the
default filter rejects a request whose `Host` header is `[::1]:8001`. -/
theorem C18_bracketed_host_loses_brackets :
    extractHost "localhost:8080" = "localhost" ∧
    extractHost "localhost" = "localhost" ∧
    extractHost "[::1]" = "[::1]" ∧
    extractHost "[::1]:8001" = "::1" ∧
    matchesRegexp "[::1]" defaultAcceptHosts = true ∧
    matchesRegexp "::1" defaultAcceptHosts = false ∧
    defaultFilter.accept "GET" "/api/v1/pods" (extractHost "[::1]") = true ∧
    defaultFilter.accept "GET" "/api/v1/pods" (extractHost "[::1]:8001") = false := by
  refine ⟨by decide, by decide, by decide, by decide, by decide, by decide, by decide, by decide⟩

/-- A successful greedy star consumed some characters of its class and then
its continuation succeeded on the rest. -/
theorem greedyStar_some {α : Type} (p : Char → Bool) (k : List Char → List Char → Option α)
    (r : α) :
    ∀ (inp taken : List Char), greedyStar p k taken inp = some r →
      ∃ m rest, inp = m ++ rest ∧ (∀ c ∈ m, p c = true) ∧ k (taken ++ m) rest = some r
  | [], taken, h => ⟨[], [], rfl, by simp, by simpa [greedyStar] using h⟩
  | c :: cs, taken, h => by
    simp only [greedyStar] at h
    by_cases hp : p c = true
    · simp only [hp, if_true] at h
      cases hin : greedyStar p k (taken ++ [c]) cs with
      | some r2 =>
        simp only [hin, Option.some.injEq] at h
        subst h
        obtain ⟨m, rest, hcs, hall, hk⟩ := greedyStar_some p k r2 cs (taken ++ [c]) hin
        refine ⟨c :: m, rest, by simp [hcs], ?_, by simpa using hk⟩
        intro d hd
        rcases List.mem_cons.mp hd with rfl | hd
        · exact hp
        · exact hall d hd
      | none =>
        simp only [hin] at h
        exact ⟨[], c :: cs, rfl, by simp, by simpa using h⟩
    · simp only [hp, Bool.false_eq_true, if_false] at h
      exact ⟨[], c :: cs, rfl, by simp, by simpa using h⟩

/-- A match of the classifier's pattern captures three groups: two without a
slash and one without a newline. -/
theorem matchPieces_namespacePattern_some (inp rest : List Char) (caps : List (List Char))
    (h : matchPieces namespacePattern [] inp = some (caps, rest)) :
    ∃ ns ty nm : List Char, caps = [ns, ty, nm] ∧ (∀ c ∈ ns, notSlash c = true) ∧
      (∀ c ∈ ty, notSlash c = true) ∧ (∀ c ∈ nm, anyChar c = true) := by
  simp only [namespacePattern, matchPieces] at h
  obtain ⟨m1, r1, -, -, h1⟩ := greedyStar_some _ _ _ _ _ h
  split at h1
  · obtain ⟨ns, r2, -, hns, h2⟩ := greedyStar_some _ _ _ _ _ h1
    split at h2
    · obtain ⟨ty, r3, -, hty, h3⟩ := greedyStar_some _ _ _ _ _ h2
      have hlast : ∀ r4, greedyStar anyChar
            (fun m_2 rest => some ([] ++ [[] ++ ns] ++ [[] ++ ty] ++ [m_2], rest)) [] r4 =
            some (caps, rest) →
          ∃ nm : List Char, caps = [ns, ty, nm] ∧ (∀ c ∈ nm, anyChar c = true) := by
        intro r4 h4
        obtain ⟨nm, r5, -, hnm, h5⟩ := greedyStar_some _ _ _ _ _ h4
        simp only [List.nil_append, List.singleton_append, List.cons_append, Option.some.injEq,
          Prod.mk.injEq] at h5
        exact ⟨nm, h5.1.symm, hnm⟩
      have hfin : ∃ nm : List Char, caps = [ns, ty, nm] ∧ (∀ c ∈ nm, anyChar c = true) := by
        split at h3
        · split at h3
          · split at h3
            · rename_i r6 h6
              simp only [Option.some.injEq] at h3
              subst h3
              exact hlast _ h6
            · exact hlast _ h3
          · exact hlast _ h3
        · exact hlast _ h3
      obtain ⟨nm, hcaps, hnm⟩ := hfin
      exact ⟨ns, ty, nm, hcaps, hns, hty, hnm⟩
    · cases h2
  · cases h1

/-- A match found by the unanchored search is the whole match followed by the
three groups: two without a slash and one without a newline. -/
theorem findFrom_namespacePattern_some :
    ∀ (inp : List Char) (r : List (List Char)), findFrom namespacePattern inp = some r →
      ∃ whole ns ty nm : List Char, r = [whole, ns, ty, nm] ∧ (∀ c ∈ ns, notSlash c = true) ∧
        (∀ c ∈ ty, notSlash c = true) ∧ (∀ c ∈ nm, anyChar c = true) := by
  have hhere : ∀ (inp : List Char) (r : List (List Char)),
      matchHere namespacePattern inp = some r →
      ∃ whole ns ty nm : List Char, r = [whole, ns, ty, nm] ∧ (∀ c ∈ ns, notSlash c = true) ∧
        (∀ c ∈ ty, notSlash c = true) ∧ (∀ c ∈ nm, anyChar c = true) := by
    intro inp r h
    unfold matchHere at h
    split at h
    · rename_i caps rest hm
      simp only [Option.some.injEq] at h
      subst h
      obtain ⟨ns, ty, nm, hcaps, hns, hty, hnm⟩ :=
        matchPieces_namespacePattern_some inp rest caps hm
      exact ⟨_, ns, ty, nm, by rw [hcaps], hns, hty, hnm⟩
    · cases h
  intro inp
  induction inp with
  | nil =>
    intro r h
    exact hhere [] r (by simpa [findFrom] using h)
  | cons c cs ih =>
    intro r h
    simp only [findFrom] at h
    split at h
    · rename_i r2 h2
      simp only [Option.some.injEq] at h
      subst h
      exact hhere _ _ h2
    · exact ih r h

/-- The classifier returns the empty triple or three captured groups: a
namespace and a resource type without a slash, a name without a newline. -/
theorem getNamespaceTypeNameFromPath_cases (path : String) :
    getNamespaceTypeNameFromPath path = ("", "", "") ∨
    ∃ ns ty nm : List Char,
      getNamespaceTypeNameFromPath path = (String.mk ns, String.mk ty, String.mk nm) ∧
      (∀ c ∈ ns, notSlash c = true) ∧ (∀ c ∈ ty, notSlash c = true) ∧
      (∀ c ∈ nm, anyChar c = true) := by
  cases h : findFrom namespacePattern path.data with
  | none =>
    left
    simp only [getNamespaceTypeNameFromPath, FindStringSubmatch, h]
  | some r =>
    right
    obtain ⟨whole, ns, ty, nm, hr, hns, hty, hnm⟩ := findFrom_namespacePattern_some _ r h
    refine ⟨ns, ty, nm, ?_, hns, hty, hnm⟩
    simp only [getNamespaceTypeNameFromPath, FindStringSubmatch, h, hr, List.map_cons,
      List.map_nil]

/-- C20 (as stated, refuted). The classified namespace or resource type can be
empty in a triple that is not the empty triple: the groups of the pattern are
`[^/]*`, which match the empty string. -/
theorem C20_empty_component_in_nonempty_triple :
    getNamespaceTypeNameFromPath "/api/v1/namespaces//pods" = ("", "pods", "") ∧
    getNamespaceTypeNameFromPath "/api/v1/namespaces/team-a/" = ("team-a", "", "") ∧
    getNamespaceTypeNameFromPath "/api/v1/namespaces///p1" = ("", "", "p1") ∧
    ¬ (getNamespaceTypeNameFromPath "/api/v1/namespaces//pods" = ("", "", "") ∨
       ((getNamespaceTypeNameFromPath "/api/v1/namespaces//pods").1 ≠ "" ∧
        (getNamespaceTypeNameFromPath "/api/v1/namespaces//pods").2.1 ≠ "")) := by
  refine ⟨by decide, by decide, by decide, by decide⟩

/-- C20 (as amended). For every path the classifier returns a triple whose
namespace and resource type contain no slash and whose resource name contains
no newline (each of them may be empty), and the triple is the empty triple
whenever the path has no segment `/namespaces/`. -/
theorem C20_classified_components (path : String) :
    '/' ∉ (getNamespaceTypeNameFromPath path).1.data ∧
    '/' ∉ (getNamespaceTypeNameFromPath path).2.1.data ∧
    '\n' ∉ (getNamespaceTypeNameFromPath path).2.2.data ∧
    (¬ "/namespaces/".data <:+: path.data →
      getNamespaceTypeNameFromPath path = ("", "", "")) := by
  refine ⟨?_, ?_, ?_, getNamespaceTypeNameFromPath_no_segment path⟩
  · rcases getNamespaceTypeNameFromPath_cases path with h | ⟨ns, ty, nm, h, hns, -, -⟩
    · rw [h]
      decide
    · rw [h]
      intro hmem
      have := hns _ hmem
      revert this
      decide
  · rcases getNamespaceTypeNameFromPath_cases path with h | ⟨ns, ty, nm, h, -, hty, -⟩
    · rw [h]
      decide
    · rw [h]
      intro hmem
      have := hty _ hmem
      revert this
      decide
  · rcases getNamespaceTypeNameFromPath_cases path with h | ⟨ns, ty, nm, h, -, -, hnm⟩
    · rw [h]
      decide
    · rw [h]
      intro hmem
      have := hnm _ hmem
      revert this
      decide

/-- A greedy star that can take the whole run `u` of its class, and whose
continuation succeeds right after the run, returns that result. -/
theorem greedyStar_max {α : Type} (p : Char → Bool) (k : List Char → List Char → Option α)
    (r : α) (rest : List Char) (hrest : ∀ c cs, rest = c :: cs → p c = false) :
    ∀ (u taken : List Char), (∀ c ∈ u, p c = true) → k (taken ++ u) rest = some r →
      greedyStar p k taken (u ++ rest) = some r
  | [], taken, _, hk => by
    cases rest with
    | nil => simpa [greedyStar] using hk
    | cons c cs => simpa [greedyStar, hrest c cs rfl] using hk
  | c :: u, taken, hu, hk => by
    have ih := greedyStar_max p k r rest hrest u (taken ++ [c])
      (fun d hd => hu d (List.mem_cons_of_mem _ hd)) (by simpa using hk)
    simp [greedyStar, hu c (List.mem_cons_self _ _), ih]

/-- A greedy star over `pre ++ suf`, all of `pre` in its class, returns what the
continuation gives after `pre` when the continuation fails at every later
position. -/
theorem greedyStar_split {α : Type} (p : Char → Bool) (k : List Char → List Char → Option α)
    (r : α) (suf : List Char) (hlater : ∀ tk t, t <:+ suf → t ≠ suf → k tk t = none) :
    ∀ (pre taken : List Char), (∀ c ∈ pre, p c = true) → k (taken ++ pre) suf = some r →
      greedyStar p k taken (pre ++ suf) = some r
  | [], taken, _, hk => by
    cases suf with
    | nil => simpa [greedyStar] using hk
    | cons c cs =>
      have hin : ∀ tk2, greedyStar p k tk2 cs = none := fun tk2 =>
        greedyStar_none p k cs tk2 (fun tk t ht =>
          hlater tk t (ht.trans (List.suffix_cons c cs)) (by
            intro heq
            have hlen := ht.length_le
            rw [heq] at hlen
            simp at hlen))
      by_cases hp : p c = true
      · simpa [greedyStar, hp, hin] using hk
      · simpa [greedyStar, hp] using hk
  | c :: pre, taken, hpre, hk => by
    have ih := greedyStar_split p k r suf hlater pre (taken ++ [c])
      (fun d hd => hpre d (List.mem_cons_of_mem _ hd)) (by simpa using hk)
    simp [greedyStar, hpre c (List.mem_cons_self _ _), ih]

/-- The pieces after `/namespaces/` do not match a text without a slash. -/
theorem matchPieces_groups_none (caps : List (List Char)) (u : List Char)
    (hu : '/' ∉ u) :
    matchPieces [Piece.group notSlash, Piece.lit "/".data, Piece.group notSlash, Piece.opt '/',
      Piece.group anyChar] caps u = none := by
  rw [matchPieces]
  apply greedyStar_none
  intro tk t ht
  rw [matchPieces]
  have hpre : List.isPrefixOf "/".data t = false := by
    cases t with
    | nil => rfl
    | cons d ds =>
      have hd : d ≠ '/' := fun h => hu (h ▸ ht.subset (List.mem_cons_self _ _))
      have hne : ('/' == d) = false := by
        rw [beq_eq_false_iff_ne]
        exact fun h => hd h.symm
      simp [List.isPrefixOf, hne]
  simp only [hpre, Bool.false_eq_true, if_false]

/-- The classifier's pattern without its leading `.*` does not match a text
with at most two slashes. -/
theorem matchPieces_segment_none (caps : List (List Char)) (t : List Char)
    (ht : t.count '/' ≤ 2) :
    matchPieces [Piece.lit "/namespaces/".data, Piece.group notSlash, Piece.lit "/".data,
      Piece.group notSlash, Piece.opt '/', Piece.group anyChar] caps t = none := by
  rw [matchPieces]
  by_cases hp : List.isPrefixOf "/namespaces/".data t = true
  · obtain ⟨u, hu⟩ := List.isPrefixOf_iff_prefix.mp hp
    subst hu
    have hcount : List.count '/' u = 0 := by
      have h2 : List.count '/' "/namespaces/".data = 2 := by decide
      rw [List.count_append, h2] at ht
      omega
    simp only [hp, if_true, List.drop_left]
    exact matchPieces_groups_none caps u (List.count_eq_zero.mp hcount)
  · simp only [hp, Bool.false_eq_true, if_false]

/-- The classifier's pattern without its leading `.*` does not match a text
that does not start with a slash. -/
theorem matchPieces_segment_none_of_head (caps : List (List Char)) (t : List Char)
    (ht : ∀ c cs, t = c :: cs → c ≠ '/') :
    matchPieces [Piece.lit "/namespaces/".data, Piece.group notSlash, Piece.lit "/".data,
      Piece.group notSlash, Piece.opt '/', Piece.group anyChar] caps t = none := by
  rw [matchPieces]
  have hpre : List.isPrefixOf "/namespaces/".data t = false := by
    cases t with
    | nil => rfl
    | cons d ds =>
      have hne : ('/' == d) = false := by
        rw [beq_eq_false_iff_ne]
        exact fun h => ht d ds rfl h.symm
      show List.isPrefixOf ('/' :: "namespaces/".data) (d :: ds) = false
      simp [List.isPrefixOf, hne]
  simp only [hpre, Bool.false_eq_true, if_false]

/-- The last group `(.*)` takes a text without a newline whole. -/
theorem matchPieces_last_group (caps : List (List Char)) (nm : List Char) (hnm : '\n' ∉ nm) :
    matchPieces [Piece.group anyChar] caps nm = some (caps ++ [nm], []) := by
  rw [matchPieces]
  have h := greedyStar_max anyChar (fun m rest => matchPieces [] (caps ++ [m]) rest)
    (caps ++ [nm], []) [] (by intro c cs hc; cases hc) nm []
    (by
      intro c hc
      have hne : c ≠ '\n' := fun h => hnm (h ▸ hc)
      simp [anyChar, hne])
    (by simp [matchPieces])
  simpa using h

/-- The pieces after `/namespaces/` on `ns/ty`. -/
theorem matchPieces_groups_two (caps : List (List Char)) (ns ty : List Char)
    (hns : '/' ∉ ns) (hty : '/' ∉ ty) :
    matchPieces [Piece.group notSlash, Piece.lit "/".data, Piece.group notSlash, Piece.opt '/',
      Piece.group anyChar] caps (ns ++ '/' :: ty) = some (caps ++ [ns, ty, []], []) := by
  have hclass : ∀ u : List Char, '/' ∉ u → ∀ c ∈ u, notSlash c = true := by
    intro u hu c hc
    have hne : c ≠ '/' := fun h => hu (h ▸ hc)
    simp [notSlash, hne]
  rw [matchPieces]
  apply greedyStar_max notSlash _ _ ('/' :: ty)
    (by intro c cs hc; cases hc; decide) ns [] (hclass ns hns)
  rw [matchPieces]
  have hpre : List.isPrefixOf "/".data ('/' :: ty) = true := by simp [List.isPrefixOf]
  simp only [hpre, if_true]
  show matchPieces [Piece.group notSlash, Piece.opt '/', Piece.group anyChar] (caps ++ [[] ++ ns])
    ty = some (caps ++ [ns, ty, []], [])
  rw [matchPieces]
  have h := greedyStar_max notSlash
    (fun m rest => matchPieces [Piece.opt '/', Piece.group anyChar] (caps ++ [[] ++ ns] ++ [m]) rest)
    (caps ++ [ns, ty, []], []) [] (by intro c cs hc; cases hc) ty [] (hclass ty hty)
    (by
      beta_reduce
      rw [matchPieces, matchPieces_last_group _ [] (by simp)]
      simp)
  simpa using h

/-- The pieces after `/namespaces/` on `ns/ty/nm`. -/
theorem matchPieces_groups_three (caps : List (List Char)) (ns ty nm : List Char)
    (hns : '/' ∉ ns) (hty : '/' ∉ ty) (hnm : '\n' ∉ nm) :
    matchPieces [Piece.group notSlash, Piece.lit "/".data, Piece.group notSlash, Piece.opt '/',
      Piece.group anyChar] caps (ns ++ '/' :: (ty ++ '/' :: nm)) =
      some (caps ++ [ns, ty, nm], []) := by
  have hclass : ∀ u : List Char, '/' ∉ u → ∀ c ∈ u, notSlash c = true := by
    intro u hu c hc
    have hne : c ≠ '/' := fun h => hu (h ▸ hc)
    simp [notSlash, hne]
  rw [matchPieces]
  apply greedyStar_max notSlash _ _ ('/' :: (ty ++ '/' :: nm))
    (by intro c cs hc; cases hc; decide) ns [] (hclass ns hns)
  rw [matchPieces]
  have hpre : List.isPrefixOf "/".data ('/' :: (ty ++ '/' :: nm)) = true := by
    simp [List.isPrefixOf]
  simp only [hpre, if_true]
  show matchPieces [Piece.group notSlash, Piece.opt '/', Piece.group anyChar] (caps ++ [[] ++ ns])
    (ty ++ '/' :: nm) = some (caps ++ [ns, ty, nm], [])
  rw [matchPieces]
  apply greedyStar_max notSlash _ _ ('/' :: nm)
    (by intro c cs hc; cases hc; decide) ty [] (hclass ty hty)
  rw [matchPieces]
  simp only [if_true]
  rw [matchPieces_last_group _ nm hnm]
  simp

/-- A match at the very start of the text is the one the search returns. -/
theorem findFrom_of_matchHere (ps : List Piece) (inp : List Char) (r : List (List Char))
    (h : matchHere ps inp = some r) : findFrom ps inp = some r := by
  cases inp with
  | nil => simpa [findFrom] using h
  | cons c cs => simp [findFrom, h]

/-- A suffix of `x ++ y` is a suffix of `y` or starts with an element of `x`. -/
theorem suffix_append_cases (y : List Char) :
    ∀ (x t : List Char), t <:+ x ++ y → t <:+ y ∨ ∃ c cs, t = c :: cs ∧ c ∈ x
  | [], t, h => Or.inl (by simpa using h)
  | a :: x, t, h => by
    rcases List.suffix_cons_iff.mp (by simpa using h) with h1 | h1
    · exact Or.inr ⟨a, x ++ y, h1, List.mem_cons_self _ _⟩
    · rcases suffix_append_cases y x t h1 with h2 | ⟨c, cs, h2, h3⟩
      · exact Or.inl h2
      · exact Or.inr ⟨c, cs, h2, List.mem_cons_of_mem _ h3⟩

/-- Two texts without a slash that are each followed by a slash at the start of
the same text are equal. -/
theorem eq_of_prefix_slash :
    ∀ (x ns z w : List Char), '/' ∉ x → '/' ∉ ns → x ++ '/' :: w <+: ns ++ '/' :: z → x = ns
  | [], [], _, _, _, _, _ => rfl
  | [], b :: ns, z, w, _, hns, h => by
    have hb : '/' = b := (List.cons_prefix_cons.mp (by simpa using h)).1
    exact absurd (hb ▸ List.mem_cons_self _ _) hns
  | a :: x, [], z, w, hx, _, h => by
    have ha : a = '/' := (List.cons_prefix_cons.mp (by simpa using h)).1
    exact absurd (ha ▸ List.mem_cons_self _ _) hx
  | a :: x, b :: ns, z, w, hx, hns, h => by
    obtain ⟨hab, hrest⟩ := List.cons_prefix_cons.mp (by simpa using h)
    have := eq_of_prefix_slash x ns z w (fun hm => hx (List.mem_cons_of_mem _ hm))
      (fun hm => hns (List.mem_cons_of_mem _ hm)) hrest
    rw [hab, this]

/-- The search on `pre/namespaces/ns/ty`, the text before the segment without a
newline. -/
theorem findFrom_namespaced_two (pre ns ty : List Char) (hpre : '\n' ∉ pre)
    (hns : '/' ∉ ns) (hty : '/' ∉ ty) :
    findFrom namespacePattern (pre ++ ("/namespaces/".data ++ (ns ++ '/' :: ty))) =
      some [pre ++ ("/namespaces/".data ++ (ns ++ '/' :: ty)), ns, ty, []] := by
  apply findFrom_of_matchHere
  have hm : matchPieces namespacePattern []
      (pre ++ ("/namespaces/".data ++ (ns ++ '/' :: ty))) = some ([ns, ty, []], []) := by
    rw [namespacePattern, matchPieces]
    apply greedyStar_split anyChar _ _ ("/namespaces/".data ++ (ns ++ '/' :: ty)) ?_ pre []
    · intro c hc
      have hne : c ≠ '\n' := fun h => hpre (h ▸ hc)
      simp [anyChar, hne]
    · beta_reduce
      rw [matchPieces]
      have hp : List.isPrefixOf "/namespaces/".data
          ("/namespaces/".data ++ (ns ++ '/' :: ty)) = true :=
        List.isPrefixOf_iff_prefix.mpr (List.prefix_append _ _)
      simp only [hp, if_true, List.drop_left]
      simpa using matchPieces_groups_two [] ns ty hns hty
    · intro tk t ht hne
      beta_reduce
      apply matchPieces_segment_none
      have hsuf : t <:+ "namespaces/".data ++ (ns ++ '/' :: ty) := by
        rcases List.suffix_cons_iff.mp
          (show t <:+ '/' :: ("namespaces/".data ++ (ns ++ '/' :: ty)) from ht) with h | h
        · exact absurd h hne
        · exact h
      have hcount : List.count '/' ("namespaces/".data ++ (ns ++ '/' :: ty)) = 2 := by
        have h1 : List.count '/' "namespaces/".data = 1 := by decide
        rw [List.count_append, List.count_append, List.count_cons_self, h1,
          List.count_eq_zero_of_not_mem hns, List.count_eq_zero_of_not_mem hty]
      exact hcount ▸ hsuf.sublist.count_le _
  unfold matchHere
  rw [hm]
  simp

/-- The search on `pre/namespaces/ns/ty/nm`, the text before the segment
without a newline and the namespace other than `namespaces`. -/
theorem findFrom_namespaced_three (pre ns ty nm : List Char) (hpre : '\n' ∉ pre)
    (hns : '/' ∉ ns) (hty : '/' ∉ ty) (hnm : '/' ∉ nm) (hnl : '\n' ∉ nm)
    (hne : ns ≠ "namespaces".data) :
    findFrom namespacePattern
        (pre ++ ("/namespaces/".data ++ (ns ++ '/' :: (ty ++ '/' :: nm)))) =
      some [pre ++ ("/namespaces/".data ++ (ns ++ '/' :: (ty ++ '/' :: nm))), ns, ty, nm] := by
  apply findFrom_of_matchHere
  have hm : matchPieces namespacePattern []
      (pre ++ ("/namespaces/".data ++ (ns ++ '/' :: (ty ++ '/' :: nm)))) =
      some ([ns, ty, nm], []) := by
    rw [namespacePattern, matchPieces]
    apply greedyStar_split anyChar _ _ ("/namespaces/".data ++ (ns ++ '/' :: (ty ++ '/' :: nm)))
      ?_ pre []
    · intro c hc
      have hne : c ≠ '\n' := fun h => hpre (h ▸ hc)
      simp [anyChar, hne]
    · beta_reduce
      rw [matchPieces]
      have hp : List.isPrefixOf "/namespaces/".data
          ("/namespaces/".data ++ (ns ++ '/' :: (ty ++ '/' :: nm))) = true :=
        List.isPrefixOf_iff_prefix.mpr (List.prefix_append _ _)
      simp only [hp, if_true, List.drop_left]
      simpa using matchPieces_groups_three [] ns ty nm hns hty hnl
    · intro tk t ht hneq
      beta_reduce
      rcases List.suffix_cons_iff.mp
        (show t <:+ '/' :: ("namespaces".data ++ '/' :: (ns ++ '/' :: (ty ++ '/' :: nm)))
          from ht) with h | h
      · exact absurd h hneq
      · rcases suffix_append_cases _ _ t h with h1 | ⟨c, cs, h2, h3⟩
        · rcases List.suffix_cons_iff.mp h1 with h4 | h4
          · subst h4
            rw [matchPieces]
            have hp : List.isPrefixOf "/namespaces/".data
                ('/' :: (ns ++ '/' :: (ty ++ '/' :: nm))) = false := by
              rw [Bool.eq_false_iff]
              intro hp
              have hpre2 : '/' :: ("namespaces".data ++ '/' :: []) <+:
                  '/' :: (ns ++ '/' :: (ty ++ '/' :: nm)) := List.isPrefixOf_iff_prefix.mp hp
              exact hne (eq_of_prefix_slash "namespaces".data ns _ [] (by decide) hns
                (List.cons_prefix_cons.mp hpre2).2).symm
            simp only [hp, Bool.false_eq_true, if_false]
          · apply matchPieces_segment_none
            have hcount : List.count '/' (ns ++ '/' :: (ty ++ '/' :: nm)) = 2 := by
              rw [List.count_append, List.count_cons_self, List.count_append,
                List.count_cons_self, List.count_eq_zero_of_not_mem hns,
                List.count_eq_zero_of_not_mem hty, List.count_eq_zero_of_not_mem hnm]
            exact hcount ▸ h4.sublist.count_le _
        · apply matchPieces_segment_none_of_head
          intro c2 cs2 h5 hc2
          rw [h2] at h5
          have hc : c = '/' := by
            rw [(List.cons.inj h5).1]
            exact hc2
          rw [hc] at h3
          revert h3
          decide
  unfold matchHere
  rw [hm]
  simp

/-- C19 (as stated, refuted). With the namespace `namespaces`, resource type
`pods` and name `p1`, none of which contains a slash, the greedy `.*` of the
pattern runs up to the second `/namespaces/` of the path and the classifier
returns ("pods", "p1", ""). With a name that contains a newline the last group
stops at the newline. -/
theorem C19_namespace_named_namespaces :
    "/api/v1" ++ "/namespaces/" ++ "namespaces" ++ "/" ++ "pods" ++ "/" ++ "p1" =
      "/api/v1/namespaces/namespaces/pods/p1" ∧
    getNamespaceTypeNameFromPath "/api/v1/namespaces/namespaces/pods/p1" = ("pods", "p1", "") ∧
    getNamespaceTypeNameFromPath "/api/v1/namespaces/namespaces/pods/p1" ≠
      ("namespaces", "pods", "p1") ∧
    getNamespaceTypeNameFromPath ("/api/v1" ++ "/namespaces/" ++ "a" ++ "/" ++ "b" ++ "/" ++ "c\nd") =
      ("a", "b", "c") := by
  refine ⟨by decide, by decide, by decide, by decide⟩

/-- C19 (as amended). For strings `pre` without a newline and `ns`, `ty` without
a slash, the classifier maps `pre/namespaces/ns/ty` to (ns, ty, ""); when
moreover `nm` has neither slash nor newline and `ns` is not the word
`namespaces`, it maps `pre/namespaces/ns/ty/nm` to (ns, ty, nm); and it maps
every path without a segment `/namespaces/` to the empty triple. -/
theorem C19_classifier_on_namespaced_paths (pre ns ty nm : String)
    (hpre : '\n' ∉ pre.data) (hns : '/' ∉ ns.data) (hty : '/' ∉ ty.data)
    (hnm : '/' ∉ nm.data) :
    getNamespaceTypeNameFromPath (pre ++ "/namespaces/" ++ ns ++ "/" ++ ty) = (ns, ty, "") ∧
    ('\n' ∉ nm.data → ns ≠ "namespaces" →
      getNamespaceTypeNameFromPath (pre ++ "/namespaces/" ++ ns ++ "/" ++ ty ++ "/" ++ nm) =
        (ns, ty, nm)) ∧
    (∀ path : String, ¬ "/namespaces/".data <:+: path.data →
      getNamespaceTypeNameFromPath path = ("", "", "")) := by
  refine ⟨?_, fun hnl hne => ?_, getNamespaceTypeNameFromPath_no_segment⟩
  · have hdata : (pre ++ "/namespaces/" ++ ns ++ "/" ++ ty).data =
        pre.data ++ ("/namespaces/".data ++ (ns.data ++ '/' :: ty.data)) := by
      simp [String.data_append]
    simp only [getNamespaceTypeNameFromPath, FindStringSubmatch, hdata,
      findFrom_namespaced_two pre.data ns.data ty.data hpre hns hty, List.map_cons, List.map_nil]
  · have hdata : (pre ++ "/namespaces/" ++ ns ++ "/" ++ ty ++ "/" ++ nm).data =
        pre.data ++ ("/namespaces/".data ++ (ns.data ++ '/' :: (ty.data ++ '/' :: nm.data))) := by
      simp [String.data_append]
    have hne2 : ns.data ≠ "namespaces".data := fun h => hne (String.ext h)
    simp only [getNamespaceTypeNameFromPath, FindStringSubmatch, hdata,
      findFrom_namespaced_three pre.data ns.data ty.data nm.data hpre hns hty hnm hnl hne2,
      List.map_cons, List.map_nil]

/-- Witness of C19: the paths of the repository's test. -/
theorem C19_classifier_on_namespaced_paths_witness :
    getNamespaceTypeNameFromPath ("api/v1" ++ "/namespaces/" ++ "test1" ++ "/" ++ "pods") =
      ("test1", "pods", "") ∧
    getNamespaceTypeNameFromPath
        ("api/v1" ++ "/namespaces/" ++ "test1" ++ "/" ++ "pods" ++ "/" ++ "abc") =
      ("test1", "pods", "abc") ∧
    getNamespaceTypeNameFromPath "apis/rbac.authorization.k8s.io/v1" = ("", "", "") :=
  have h := C19_classifier_on_namespaced_paths "api/v1" "test1" "pods" "abc"
    (by decide) (by decide) (by decide) (by decide)
  ⟨h.1, h.2.1 (by decide) (by decide), h.2.2 _ (by decide)⟩

/-! ### Prefix stripping -/

/-- A path that does not begin with the prefix is answered 404 by
`stripLeaveSlash`, which leaves the request as it is. -/
theorem stripLeaveSlash_notFound (pre : String) (h : Handler) (r : Request)
    (hP : HasPrefix r.path pre = false) :
    stripLeaveSlash pre h r =
      { trace := [], req := r, result := Outcome.returned (httpError "404 page not found" 404) } := by
  simp [stripLeaveSlash, TrimPrefix, hP]

/-- A path that begins with a non-empty prefix gets shorter when the prefix is
trimmed. -/
theorem TrimPrefix_length (path pre : String) (hpre : pre ≠ "")
    (hP : HasPrefix path pre = true) :
    (TrimPrefix path pre).data.length < path.data.length := by
  have hlen : 0 < pre.data.length := by
    cases pre with
    | mk data =>
      cases data with
      | nil => exact absurd rfl hpre
      | cons c cs => simp
  have hle : pre.data.length ≤ path.data.length := by
    have : pre.data <+: path.data := List.isPrefixOf_iff_prefix.mp hP
    exact this.length_le
  simp only [TrimPrefix, hP, if_true, List.length_drop]
  omega

/-- A path that begins with a non-empty prefix is handed on by
`stripLeaveSlash`, with the prefix trimmed and a slash put in front of a
remainder that does not begin with one. -/
theorem stripLeaveSlash_strips (pre : String) (h : Handler) (r : Request) (hpre : pre ≠ "")
    (hP : HasPrefix r.path pre = true) :
    stripLeaveSlash pre h r =
      h { r with path :=
            if (TrimPrefix r.path pre).data.length > 0 ∧
                (TrimPrefix r.path pre).data.take 1 ≠ "/".data then
              "/" ++ TrimPrefix r.path pre
            else TrimPrefix r.path pre } := by
  have hlt := TrimPrefix_length r.path pre hpre hP
  have hnot : ¬ (TrimPrefix r.path pre).data.length ≥ r.path.data.length := by omega
  simp only [stripLeaveSlash, hnot, if_false]

/-- The slash test of `stripLeaveSlash` on a remainder that is not empty. -/
theorem leaveSlash_eq (rest : String) (hrest : rest ≠ "") :
    (if rest.data.length > 0 ∧ rest.data.take 1 ≠ "/".data then "/" ++ rest else rest) =
      (if HasPrefix rest "/" = true then rest else "/" ++ rest) ∧
    HasPrefix (if HasPrefix rest "/" = true then rest else "/" ++ rest) "/" = true := by
  cases rest with
  | mk data =>
    cases data with
    | nil => exact absurd rfl hrest
    | cons c cs =>
      by_cases hc : c = '/'
      · subst hc
        simp [HasPrefix]
      · have hne : ¬ '/' = c := fun h => hc h.symm
        have happ : ("/" ++ String.mk (c :: cs)).data = '/' :: c :: cs := rfl
        simp [HasPrefix, hc, hne, happ]

/-- Prefix stripping on a path longer than the prefix. For a non-empty
`apiProxyPrefix` that does not begin with `/api` and a request path that begins
with the prefix and is longer than it, the handler built by
`newDynamicProxyHandler` is `stripLeaveSlash` around the filter or backend, and
the path it hands to the wrapped handler is the request path with the prefix
removed, with a slash put in front when what remains does not begin with one;
the handed path starts with a slash. -/
theorem stripLeaveSlash_handed_path (env : Env) (filebase apiProxyPrefix staticPrefix : String)
    (filter : Option FilterServer) (cfg : RestConfig) (keepalive : Int)
    (imp : ImpersonationConfig) (built : Handler) (r : Request)
    (hapi : HasPrefix apiProxyPrefix "/api" = false)
    (hbuilt : newDynamicProxyHandler env filebase apiProxyPrefix staticPrefix filter cfg
      keepalive imp = some built)
    (hpre : apiProxyPrefix ≠ "")
    (hP : HasPrefix r.path apiProxyPrefix = true)
    (hrest : TrimPrefix r.path apiProxyPrefix ≠ "") :
    HasPrefix
      (if HasPrefix (TrimPrefix r.path apiProxyPrefix) "/" = true then
        TrimPrefix r.path apiProxyPrefix
      else "/" ++ TrimPrefix r.path apiProxyPrefix) "/" = true ∧
    (∀ h : Handler, stripLeaveSlash apiProxyPrefix h r =
      h { r with path :=
            if HasPrefix (TrimPrefix r.path apiProxyPrefix) "/" = true then
              TrimPrefix r.path apiProxyPrefix
            else "/" ++ TrimPrefix r.path apiProxyPrefix }) ∧
    ∃ wrapped : Handler, built = stripLeaveSlash apiProxyPrefix wrapped ∧
      built r =
        wrapped
          { r with
            path :=
              if HasPrefix (TrimPrefix r.path apiProxyPrefix) "/" = true then
                TrimPrefix r.path apiProxyPrefix
              else "/" ++ TrimPrefix r.path apiProxyPrefix } := by
  obtain ⟨heq, hslash⟩ := leaveSlash_eq (TrimPrefix r.path apiProxyPrefix) hrest
  have hstrip : ∀ h : Handler, stripLeaveSlash apiProxyPrefix h r =
      h { r with path :=
            if HasPrefix (TrimPrefix r.path apiProxyPrefix) "/" = true then
              TrimPrefix r.path apiProxyPrefix
            else "/" ++ TrimPrefix r.path apiProxyPrefix } := by
    intro h
    rw [stripLeaveSlash_strips apiProxyPrefix h r hpre hP, heq]
  refine ⟨hslash, hstrip, ?_⟩
  unfold newDynamicProxyHandler at hbuilt
  by_cases hv : env.configValid cfg = true
  · simp only [hv, Bool.not_true, Bool.false_eq_true, if_false, hapi, Bool.not_false, if_true,
      Option.some.injEq] at hbuilt
    exact ⟨_, hbuilt.symm, by rw [← hbuilt]; exact hstrip _⟩
  · simp [hv] at hbuilt

/-- C22. For an `apiProxyPrefix` that does not begin with `/api`, the handler
built by `newDynamicProxyHandler` answers a request whose path does not begin
with the prefix with 404, leaves the request as it is and makes no call: neither
the filter nor the backend is reached. Conversely `stripLeaveSlash` hands every
request whose path begins with a non-empty prefix to the wrapped handler: its
answer is the wrapped handler's, whatever that handler is. -/
theorem C22_outside_prefix_not_found (env : Env) (filebase apiProxyPrefix staticPrefix : String)
    (filter : Option FilterServer) (cfg : RestConfig) (keepalive : Int)
    (imp : ImpersonationConfig) (built : Handler)
    (hapi : HasPrefix apiProxyPrefix "/api" = false)
    (hbuilt : newDynamicProxyHandler env filebase apiProxyPrefix staticPrefix filter cfg
      keepalive imp = some built) :
    (∀ r : Request, HasPrefix r.path apiProxyPrefix = false →
      built r = { trace := [], req := r,
                  result := Outcome.returned (httpError "404 page not found" 404) } ∧
      ∀ wrapped : Handler, stripLeaveSlash apiProxyPrefix wrapped r = built r) ∧
    (∀ r : Request, apiProxyPrefix ≠ "" → HasPrefix r.path apiProxyPrefix = true →
      ∃ handed : Request, ∀ wrapped : Handler,
        stripLeaveSlash apiProxyPrefix wrapped r = wrapped handed) := by
  constructor
  · intro r hP
    unfold newDynamicProxyHandler at hbuilt
    by_cases hv : env.configValid cfg = true
    · simp only [hv, Bool.not_true, Bool.false_eq_true, if_false, hapi, Bool.not_false, if_true,
        Option.some.injEq] at hbuilt
      subst hbuilt
      refine ⟨stripLeaveSlash_notFound _ _ r hP, ?_⟩
      intro wrapped
      rw [stripLeaveSlash_notFound _ _ r hP, stripLeaveSlash_notFound _ _ r hP]
    · simp [hv] at hbuilt
  · intro r hpre hP
    exact ⟨_, fun wrapped => stripLeaveSlash_strips apiProxyPrefix wrapped r hpre hP⟩

/-- C22, on the sample handler for `w1` under the prefix `/proxy/`. -/
theorem C22_outside_prefix_not_found_witness :
    (∀ r : Request, HasPrefix r.path "/proxy/" = false →
      Sample.prefixedHandler r =
        { trace := [], req := r,
          result := Outcome.returned (httpError "404 page not found" 404) } ∧
      ∀ wrapped : Handler, stripLeaveSlash "/proxy/" wrapped r = Sample.prefixedHandler r) ∧
    (∀ r : Request, "/proxy/" ≠ "" → HasPrefix r.path "/proxy/" = true →
      ∃ handed : Request, ∀ wrapped : Handler,
        stripLeaveSlash "/proxy/" wrapped r = wrapped handed) :=
  C22_outside_prefix_not_found (Sample.env Sample.podList) "" "/proxy/" "/static/"
    (some defaultFilter) (Sample.configOf "w1") 5 Sample.aliceConfig Sample.prefixedHandler
    (by decide) rfl

/-! ### Command line -/

/-- C23. `RunProxy` returns the error "Don't specify both --unix-socket and
--port", having made no call at all (no configuration looked up, no server
built, no listener opened), exactly when `--unix-socket` is not empty and
`--port` is not the default 8001; with an empty `--unix-socket` or with port
8001 it never ends with that error. -/
theorem C23_socket_and_port_exclusive (world : RunWorld) (flags : ProxyFlags) :
    defaultPort = 8001 ∧
    (RunProxy world flags =
        ([], RunResult.bothSocketAndPort "Don't specify both --unix-socket and --port") ↔
      flags.unixSocket ≠ "" ∧ flags.port ≠ 8001) ∧
    ((∃ msg, (RunProxy world flags).2 = RunResult.bothSocketAndPort msg) ↔
      flags.unixSocket ≠ "" ∧ flags.port ≠ 8001) ∧
    (flags.unixSocket = "" ∨ flags.port = 8001 →
      (∀ msg, (RunProxy world flags).2 ≠ RunResult.bothSocketAndPort msg) ∧
      RunEvent.getDefaultRESTConfig ∈ (RunProxy world flags).1) := by
  have hother : ¬ (flags.port ≠ defaultPort ∧ flags.unixSocket ≠ "") →
      (∀ msg, (RunProxy world flags).2 ≠ RunResult.bothSocketAndPort msg) ∧
      RunEvent.getDefaultRESTConfig ∈ (RunProxy world flags).1 := by
    intro hc
    unfold RunProxy
    simp only [hc, if_false]
    cases world.defaultRESTConfig with
    | error err => simp
    | ok clientConfig =>
      simp only
      split <;> simp
  have hboth : flags.port ≠ defaultPort ∧ flags.unixSocket ≠ "" →
      RunProxy world flags =
        ([], RunResult.bothSocketAndPort "Don't specify both --unix-socket and --port") := by
    intro hb
    unfold RunProxy
    exact if_pos hb
  have hport : defaultPort = 8001 := rfl
  rw [hport] at hother hboth
  refine ⟨rfl, ?_, ?_, ?_⟩
  · constructor
    · intro h
      by_contra hc
      have hc2 : ¬ (flags.port ≠ 8001 ∧ flags.unixSocket ≠ "") := fun hb => hc ⟨hb.2, hb.1⟩
      exact (hother hc2).1 _ (by rw [h])
    · intro h
      exact hboth ⟨h.2, h.1⟩
  · constructor
    · rintro ⟨msg, h⟩
      by_contra hc
      have hc2 : ¬ (flags.port ≠ 8001 ∧ flags.unixSocket ≠ "") := fun hb => hc ⟨hb.2, hb.1⟩
      exact (hother hc2).1 msg h
    · intro h
      refine ⟨"Don't specify both --unix-socket and --port", ?_⟩
      rw [hboth ⟨h.2, h.1⟩]
  · intro h
    apply hother
    rintro ⟨hp, hs⟩
    rcases h with h | h
    · exact hs h
    · exact hp h

/-- C23, on the default flags: with a socket and port 9000 the check fails
before any call; with a socket and the default port, or with port 9000 and no
socket, the server is built and a listener opened. -/
theorem C23_socket_and_port_exclusive_witness :
    (defaultPort = 8001 ∧
     (RunProxy Sample.runWorld { Sample.defaultFlags with unixSocket := "/tmp/s", port := 9000 } =
        ([], RunResult.bothSocketAndPort "Don't specify both --unix-socket and --port") ↔
      "/tmp/s" ≠ "" ∧ (9000 : Int) ≠ 8001) ∧
     ((∃ msg, (RunProxy Sample.runWorld
          { Sample.defaultFlags with unixSocket := "/tmp/s", port := 9000 }).2 =
        RunResult.bothSocketAndPort msg) ↔
      "/tmp/s" ≠ "" ∧ (9000 : Int) ≠ 8001) ∧
     ("/tmp/s" = "" ∨ (9000 : Int) = 8001 →
      (∀ msg, (RunProxy Sample.runWorld
          { Sample.defaultFlags with unixSocket := "/tmp/s", port := 9000 }).2 ≠
        RunResult.bothSocketAndPort msg) ∧
      RunEvent.getDefaultRESTConfig ∈
        (RunProxy Sample.runWorld
          { Sample.defaultFlags with unixSocket := "/tmp/s", port := 9000 }).1)) ∧
    RunProxy Sample.runWorld { Sample.defaultFlags with unixSocket := "/tmp/s", port := 9000 } =
      ([], RunResult.bothSocketAndPort "Don't specify both --unix-socket and --port") ∧
    RunProxy Sample.runWorld { Sample.defaultFlags with unixSocket := "/tmp/s" } =
      ([RunEvent.getDefaultRESTConfig,
        RunEvent.NewServer "" "/" "/static/" true Sample.localConfig 0,
        RunEvent.ListenUnix "/tmp/s"], RunResult.fatal) ∧
    RunProxy Sample.runWorld { Sample.defaultFlags with port := 9000 } =
      ([RunEvent.getDefaultRESTConfig,
        RunEvent.NewServer "" "/" "/static/" true Sample.localConfig 0,
        RunEvent.Listen "127.0.0.1" 9000], RunResult.fatal) :=
  ⟨C23_socket_and_port_exclusive Sample.runWorld
      { Sample.defaultFlags with unixSocket := "/tmp/s", port := 9000 },
    by decide, by decide, by decide⟩

/-- The number of parts `strings.Split` makes at commas. -/
theorem splitComma_length : ∀ cs : List Char, (splitComma cs).length = cs.count ',' + 1
  | [] => rfl
  | c :: cs => by
    have ih := splitComma_length cs
    by_cases hc : c = ','
    · subst hc
      simp [splitComma, ih]
    · have hne : (c == ',') = false := by simpa using hc
      cases hs : splitComma cs with
      | nil => simp [hs] at ih
      | cons part parts =>
        rw [hs] at ih
        simp only [splitComma, hc, if_false, hs, List.length_cons]
        rw [List.count_cons, hne] 
        simpa using ih

/-- When the loop of `MakeRegexpArray` ends without error, the result holds the
compiled form of each part, in order. -/
theorem compileParts_ok (compile : String → Except String Regexp) :
    ∀ (parts : List String) (result : List Regexp),
      compileParts compile parts = Except.ok result →
      List.Forall₂ (fun part re => compile part = Except.ok re) parts result
  | [], result, h => by
    simp only [compileParts, Except.ok.injEq] at h
    subst h
    exact List.Forall₂.nil
  | part :: parts, result, h => by
    unfold compileParts at h
    cases hc : compile part with
    | error err => simp [hc] at h
    | ok re =>
      cases hr : compileParts compile parts with
      | error err => simp [hc, hr] at h
      | ok rest =>
        simp only [hc, hr, Except.ok.injEq] at h
        subst h
        exact List.Forall₂.cons hc (compileParts_ok compile parts rest hr)

/-- When the loop of `MakeRegexpArray` ends with an error, it is the error of a
part that does not compile. -/
theorem compileParts_error (compile : String → Except String Regexp) :
    ∀ (parts : List String) (err : String),
      compileParts compile parts = Except.error err →
      ∃ part ∈ parts, compile part = Except.error err
  | [], err, h => by simp [compileParts] at h
  | part :: parts, err, h => by
    unfold compileParts at h
    cases hc : compile part with
    | error e =>
      simp only [hc, Except.error.injEq] at h
      subst h
      exact ⟨part, List.mem_cons_self _ _, hc⟩
    | ok re =>
      cases hr : compileParts compile parts with
      | error e =>
        simp only [hc, hr, Except.error.injEq] at h
        subst h
        obtain ⟨q, hq, hqe⟩ := compileParts_error compile parts e hr
        exact ⟨q, List.mem_cons_of_mem _ hq, hqe⟩
      | ok rest => simp [hc, hr] at h

/-- C24. For every string and every behaviour of `regexp.Compile`,
`MakeRegexpArray` either returns an error, of a comma-separated part that does
not compile, together with the nil array, or returns no error and an array
holding, part by part and in order, the compiled form of each comma-separated
part: as many regexps as the string has commas plus one, never none. The empty
string has the one part "". -/
theorem C24_one_regexp_per_part (compile : String → Except String Regexp) (str : String) :
    ((splitComma str.data).map String.mk).length = str.data.count ',' + 1 ∧
    ((∃ err, MakeRegexpArray compile str = ([], some err) ∧
        ∃ part ∈ (splitComma str.data).map String.mk, compile part = Except.error err) ∨
     (∃ result, MakeRegexpArray compile str = (result, none) ∧
        List.Forall₂ (fun part re => compile part = Except.ok re)
          ((splitComma str.data).map String.mk) result ∧
        result.length = str.data.count ',' + 1 ∧ result ≠ [])) ∧
    (splitComma "".data).map String.mk = [""] := by
  have hlen : ((splitComma str.data).map String.mk).length = str.data.count ',' + 1 := by
    rw [List.length_map, splitComma_length]
  refine ⟨hlen, ?_, rfl⟩
  unfold MakeRegexpArray
  cases h : compileParts compile ((splitComma str.data).map String.mk) with
  | error err =>
    left
    exact ⟨err, rfl, compileParts_error compile _ err h⟩
  | ok result =>
    right
    have hall := compileParts_ok compile _ result h
    have hl : result.length = str.data.count ',' + 1 := by
      rw [← hall.length_eq, hlen]
    refine ⟨result, rfl, hall, hl, ?_⟩
    intro hnil
    rw [hnil] at hl
    simp at hl

/-- C24, on a compiler that rejects the pattern `(`: the string `^/a,(,^/b`
gives the error and no array, the string `^/a,,^/b` three regexps, the empty
string one. -/
theorem C24_one_regexp_per_part_witness :
    (((splitComma "^/a,(,^/b".data).map String.mk).length = "^/a,(,^/b".data.count ',' + 1 ∧
     ((∃ err, MakeRegexpArray Sample.compileLiteral "^/a,(,^/b" = ([], some err) ∧
        ∃ part ∈ (splitComma "^/a,(,^/b".data).map String.mk,
          Sample.compileLiteral part = Except.error err) ∨
      (∃ result, MakeRegexpArray Sample.compileLiteral "^/a,(,^/b" = (result, none) ∧
        List.Forall₂ (fun part re => Sample.compileLiteral part = Except.ok re)
          ((splitComma "^/a,(,^/b".data).map String.mk) result ∧
        result.length = "^/a,(,^/b".data.count ',' + 1 ∧ result ≠ [])) ∧
     (splitComma "".data).map String.mk = [""]) ∧
    (MakeRegexpArray Sample.compileLiteral "^/a,(,^/b").1.length = 0 ∧
    (MakeRegexpArray Sample.compileLiteral "^/a,(,^/b").2 = some "missing closing )" ∧
    (MakeRegexpArray Sample.compileLiteral "^/a,,^/b").1.length = 3 ∧
    (MakeRegexpArray Sample.compileLiteral "^/a,,^/b").2 = none ∧
    (MakeRegexpArray Sample.compileLiteral "").1.length = 1 :=
  ⟨C24_one_regexp_per_part Sample.compileLiteral "^/a,(,^/b",
    by decide, by decide, by decide, by decide, by decide⟩

/-! ### Keep-alive of aggregated backends -/

/-- Every call recorded by the first loop of `aggregateServer.ServeHTTP` is
either the construction of a dynamic proxy with the keep-alive and identity of
the aggregator, or a round trip to a backend. -/
theorem record_trace (env : Env) (S : aggregateServer) :
    ∀ (cfgs : List RestConfig) (r : Request),
      (∀ a, S.record env cfgs r = Collected.aborted a → ∀ e ∈ a.trace,
        (∃ c, e = Event.newDynamicProxyHandler c S.keepalive S.impersonationConfig) ∨
          ∃ o, e = Event.roundTrip o) ∧
      (∀ trace req ws, S.record env cfgs r = Collected.done trace req ws → ∀ e ∈ trace,
        (∃ c, e = Event.newDynamicProxyHandler c S.keepalive S.impersonationConfig) ∨
          ∃ o, e = Event.roundTrip o)
  | [], r => by
    constructor
    · intro a h
      simp [aggregateServer.record] at h
    · intro trace req ws h e he
      simp only [aggregateServer.record, Collected.done.injEq] at h
      rw [← h.1] at he
      simp at he
  | cfg :: cfgs, r => by
    cases hb : newDynamicProxyHandler env S.filebase S.apiProxyPrefix S.staticPrefix S.filter cfg
        S.keepalive S.impersonationConfig with
    | none =>
      constructor
      · intro a h e he
        simp only [aggregateServer.record, hb, Collected.aborted.injEq] at h
        rw [← h] at he
        simp only [List.mem_singleton] at he
        exact Or.inl ⟨cfg, he⟩
      · intro trace req ws h
        simp [aggregateServer.record, hb] at h
    | some proxyToTarget =>
      have hserved : ∀ e ∈ (proxyToTarget r).trace, ∃ o, e = Event.roundTrip o := by
        intro e he
        obtain ⟨o, ho, _⟩ := newDynamicProxyHandler_trace env _ _ _ _ _ _ _ proxyToTarget r hb e he
        exact ⟨o, ho⟩
      cases hres : (proxyToTarget r).result with
      | panicked reason =>
        constructor
        · intro a h e he
          simp only [aggregateServer.record, hb, hres, Collected.aborted.injEq] at h
          rw [← h] at he
          simp only [List.mem_cons] at he
          rcases he with he | he
          · exact Or.inl ⟨cfg, he⟩
          · exact Or.inr (hserved e he)
        · intro trace req ws h
          simp [aggregateServer.record, hb, hres] at h
      | returned wp =>
        have ih := record_trace env S cfgs (proxyToTarget r).req
        cases hrec : S.record env cfgs (proxyToTarget r).req with
        | aborted a2 =>
          constructor
          · intro a h e he
            simp only [aggregateServer.record, hb, hres, hrec, Collected.aborted.injEq] at h
            rw [← h] at he
            change e ∈ (Event.newDynamicProxyHandler cfg S.keepalive S.impersonationConfig ::
              (proxyToTarget r).trace) ++ a2.trace at he
            simp only [List.mem_cons, List.mem_append] at he
            rcases he with (he | he) | he
            · exact Or.inl ⟨cfg, he⟩
            · exact Or.inr (hserved e he)
            · exact ih.1 a2 hrec e he
          · intro trace req ws h
            simp [aggregateServer.record, hb, hres, hrec] at h
        | done trace2 req2 ws2 =>
          constructor
          · intro a h
            simp [aggregateServer.record, hb, hres, hrec] at h
          · intro trace req ws h e he
            simp only [aggregateServer.record, hb, hres, hrec, Collected.done.injEq] at h
            rw [← h.1] at he
            simp only [List.mem_cons, List.mem_append] at he
            rcases he with (he | he) | he
            · exact Or.inl ⟨cfg, he⟩
            · exact Or.inr (hserved e he)
            · exact ih.2 trace2 req2 ws2 hrec e he

/-- With at least one configuration, the first call of the first loop is the
construction of the dynamic proxy for the first configuration. -/
theorem record_head (env : Env) (S : aggregateServer) (cfg : RestConfig)
    (cfgs : List RestConfig) (r : Request) :
    (∀ a, S.record env (cfg :: cfgs) r = Collected.aborted a →
      a.trace.head? = some (Event.newDynamicProxyHandler cfg S.keepalive S.impersonationConfig)) ∧
    (∀ trace req ws, S.record env (cfg :: cfgs) r = Collected.done trace req ws →
      trace.head? = some (Event.newDynamicProxyHandler cfg S.keepalive S.impersonationConfig)) := by
  cases hb : newDynamicProxyHandler env S.filebase S.apiProxyPrefix S.staticPrefix S.filter cfg
      S.keepalive S.impersonationConfig with
  | none =>
    constructor
    · intro a h
      simp only [aggregateServer.record, hb, Collected.aborted.injEq] at h
      rw [← h]
      rfl
    · intro trace req ws h
      simp [aggregateServer.record, hb] at h
  | some proxyToTarget =>
    cases hres : (proxyToTarget r).result with
    | panicked reason =>
      constructor
      · intro a h
        simp only [aggregateServer.record, hb, hres, Collected.aborted.injEq] at h
        rw [← h]
        rfl
      · intro trace req ws h
        simp [aggregateServer.record, hb, hres] at h
    | returned wp =>
      cases hrec : S.record env cfgs (proxyToTarget r).req with
      | aborted a2 =>
        constructor
        · intro a h
          simp only [aggregateServer.record, hb, hres, hrec, Collected.aborted.injEq] at h
          rw [← h]
          rfl
        · intro trace req ws h
          simp [aggregateServer.record, hb, hres, hrec] at h
      | done trace2 req2 ws2 =>
        constructor
        · intro a h
          simp [aggregateServer.record, hb, hres, hrec] at h
        · intro trace req ws h
          simp only [aggregateServer.record, hb, hres, hrec, Collected.done.injEq] at h
          rw [← h.1]
          rfl

/-- The calls of `aggregateServer.ServeHTTP` are those of its first loop. -/
theorem serveHTTP_trace_cases (env : Env) (S : aggregateServer) (clusterCache : ClusterCache)
    (r : Request) :
    (∃ a, S.record env S.cfgs r = Collected.aborted a ∧
      (S.ServeHTTP env clusterCache r).1.trace = a.trace) ∨
    (∃ trace req ws, S.record env S.cfgs r = Collected.done trace req ws ∧
      (S.ServeHTTP env clusterCache r).1.trace = trace) := by
  unfold aggregateServer.ServeHTTP
  cases hrec : S.record env S.cfgs r with
  | aborted a => exact Or.inl ⟨a, rfl, rfl⟩
  | done trace req ws =>
    refine Or.inr ⟨trace, req, ws, rfl, ?_⟩
    simp only
    split
    · rfl
    · rfl
    · split <;> rfl

/-- C25. Whatever keep-alive is passed to `newAggregateProxyHandler`, the
aggregator it returns has keep-alive 0 and every other field equal to its
argument; so every dynamic proxy that `aggregateServer.ServeHTTP` builds is built
with keep-alive 0 (and the identity of the aggregator), and with at least one
configuration the first call of `ServeHTTP` builds such a proxy. -/
theorem C25_aggregated_backends_keepalive_zero (env : Env)
    (filebase apiProxyPrefix staticPrefix : String) (filter : Option FilterServer)
    (clusterNames : List String) (cfgs : List RestConfig) (keepalive : Int)
    (imp : ImpersonationConfig) (ns resourceType resourceName : String)
    (clusterCache : ClusterCache) (r : Request) :
    (newAggregateProxyHandler filebase apiProxyPrefix staticPrefix filter clusterNames cfgs
      keepalive imp ns resourceType resourceName).keepalive = 0 ∧
    newAggregateProxyHandler filebase apiProxyPrefix staticPrefix filter clusterNames cfgs
        keepalive imp ns resourceType resourceName =
      { filebase := filebase, apiProxyPrefix := apiProxyPrefix, staticPrefix := staticPrefix,
        filter := filter, clusterNames := clusterNames, cfgs := cfgs, impersonationConfig := imp,
        namespaceName := ns, resourceType := resourceType, resourceName := resourceName,
        keepalive := 0 } ∧
    (∀ c k i, Event.newDynamicProxyHandler c k i ∈
        ((newAggregateProxyHandler filebase apiProxyPrefix staticPrefix filter clusterNames cfgs
          keepalive imp ns resourceType resourceName).ServeHTTP env clusterCache r).1.trace →
      k = 0 ∧ i = imp) ∧
    (∀ cfg rest, cfgs = cfg :: rest →
      ((newAggregateProxyHandler filebase apiProxyPrefix staticPrefix filter clusterNames cfgs
          keepalive imp ns resourceType resourceName).ServeHTTP env clusterCache r).1.trace.head? =
        some (Event.newDynamicProxyHandler cfg 0 imp)) := by
  refine ⟨rfl, rfl, ?_, ?_⟩
  · intro c k i hmem
    have hall := record_trace env (newAggregateProxyHandler filebase apiProxyPrefix staticPrefix
      filter clusterNames cfgs keepalive imp ns resourceType resourceName) cfgs r
    have hq : (∃ c2, Event.newDynamicProxyHandler c k i = Event.newDynamicProxyHandler c2 0 imp) ∨
        ∃ o, Event.newDynamicProxyHandler c k i = Event.roundTrip o := by
      rcases serveHTTP_trace_cases env (newAggregateProxyHandler filebase apiProxyPrefix
        staticPrefix filter clusterNames cfgs keepalive imp ns resourceType resourceName)
        clusterCache r with ⟨a, ha, ht⟩ | ⟨trace, req, ws, hd, ht⟩
      · rw [ht] at hmem
        exact hall.1 a ha _ hmem
      · rw [ht] at hmem
        exact hall.2 trace req ws hd _ hmem
    rcases hq with ⟨c2, h2⟩ | ⟨o, h2⟩
    · simp only [Event.newDynamicProxyHandler.injEq] at h2
      exact ⟨h2.2.1, h2.2.2⟩
    · cases h2
  · intro cfg rest hcfgs
    have hhead := record_head env (newAggregateProxyHandler filebase apiProxyPrefix staticPrefix
      filter clusterNames cfgs keepalive imp ns resourceType resourceName) cfg rest r
    rcases serveHTTP_trace_cases env (newAggregateProxyHandler filebase apiProxyPrefix
      staticPrefix filter clusterNames cfgs keepalive imp ns resourceType resourceName)
      clusterCache r with ⟨a, ha, ht⟩ | ⟨trace, req, ws, hd, ht⟩
    · rw [ht]
      have ha2 : (newAggregateProxyHandler filebase apiProxyPrefix staticPrefix
          filter clusterNames cfgs keepalive imp ns resourceType resourceName).record env
          (cfg :: rest) r = Collected.aborted a := by
        rw [← hcfgs]
        exact ha
      exact hhead.1 a ha2
    · rw [ht]
      have hd2 : (newAggregateProxyHandler filebase apiProxyPrefix staticPrefix
          filter clusterNames cfgs keepalive imp ns resourceType resourceName).record env
          (cfg :: rest) r = Collected.done trace req ws := by
        rw [← hcfgs]
        exact hd
      exact hhead.2 trace req ws hd2

/-- C25, on the sample aggregator, which is built with `--keepalive` 5: both
backend proxies are built with keep-alive 0. -/
theorem C25_aggregated_backends_keepalive_zero_witness :
    ((newAggregateProxyHandler "" "/" "/static/" none ["w1", "w2"]
        [Sample.configOf "w1", Sample.configOf "w2"] 5 Sample.aliceConfig "team-a" "pods"
        "").keepalive = 0 ∧
     newAggregateProxyHandler "" "/" "/static/" none ["w1", "w2"]
        [Sample.configOf "w1", Sample.configOf "w2"] 5 Sample.aliceConfig "team-a" "pods" "" =
      { filebase := "", apiProxyPrefix := "/", staticPrefix := "/static/",
        filter := none, clusterNames := ["w1", "w2"],
        cfgs := [Sample.configOf "w1", Sample.configOf "w2"],
        impersonationConfig := Sample.aliceConfig,
        namespaceName := "team-a", resourceType := "pods", resourceName := "",
        keepalive := 0 } ∧
     (∀ c k i, Event.newDynamicProxyHandler c k i ∈
        ((newAggregateProxyHandler "" "/" "/static/" none ["w1", "w2"]
          [Sample.configOf "w1", Sample.configOf "w2"] 5 Sample.aliceConfig "team-a" "pods"
          "").ServeHTTP (Sample.env Sample.podList) [] Sample.podsRequest).1.trace →
      k = 0 ∧ i = Sample.aliceConfig) ∧
     (∀ cfg rest, [Sample.configOf "w1", Sample.configOf "w2"] = cfg :: rest →
      ((newAggregateProxyHandler "" "/" "/static/" none ["w1", "w2"]
          [Sample.configOf "w1", Sample.configOf "w2"] 5 Sample.aliceConfig "team-a" "pods"
          "").ServeHTTP (Sample.env Sample.podList) [] Sample.podsRequest).1.trace.head? =
        some (Event.newDynamicProxyHandler cfg 0 Sample.aliceConfig))) ∧
    (Sample.aggregate.ServeHTTP (Sample.env Sample.podList) [] Sample.podsRequest).1.trace =
      [Event.newDynamicProxyHandler (Sample.configOf "w1") 0 Sample.aliceConfig,
       Event.roundTrip (Sample.outbound "w1" Sample.podsRequest),
       Event.newDynamicProxyHandler (Sample.configOf "w2") 0 Sample.aliceConfig,
       Event.roundTrip (Sample.outbound "w2" Sample.podsRequest)] :=
  ⟨C25_aggregated_backends_keepalive_zero (Sample.env Sample.podList) "" "/" "/static/" none
      ["w1", "w2"] [Sample.configOf "w1", Sample.configOf "w2"] 5 Sample.aliceConfig "team-a"
      "pods" "" [] Sample.podsRequest,
    by decide⟩

/-! ### Route cache -/

/-- One round of the merge leaves the route cache as it was, however it ends. -/
theorem mergeStep_cache (i : Nat) (name : String) (body : Payload) (s : MergeState) :
    (∀ s2, mergeStep i name body s = MergeResult.finished s2 →
      s2.clusterCache = s.clusterCache) ∧
    (∀ c, mergeStep i name body s = MergeResult.returned c → c = s.clusterCache) ∧
    (∀ reason c, mergeStep i name body s = MergeResult.panicked reason c →
      c = s.clusterCache) := by
  unfold mergeStep
  cases Interpret body with
  | none => simp
  | some gvk =>
    simp only [saveTableRowsRoutes, saveListItemsRoutes]
    split
    · split
      · refine ⟨?_, by simp, by simp⟩
        intro s2 h
        simp only [MergeResult.finished.injEq] at h
        rw [← h]
      · cases s.table with
        | none => simp
        | some table =>
          refine ⟨?_, by simp, by simp⟩
          intro s2 h
          simp only [MergeResult.finished.injEq] at h
          rw [← h]
    · split
      · split
        · refine ⟨?_, by simp, by simp⟩
          intro s2 h
          simp only [MergeResult.finished.injEq] at h
          rw [← h]
        · cases s.list with
          | none => simp
          | some list =>
            refine ⟨?_, by simp, by simp⟩
            intro s2 h
            simp only [MergeResult.finished.injEq] at h
            rw [← h]
      · simp

/-- The merge leaves the route cache as it was, however it ends. -/
theorem mergeLoop_cache (names : List String) :
    ∀ (ws : List Response) (i : Nat) (s : MergeState),
      (∀ s2, mergeLoop names i ws s = MergeResult.finished s2 →
        s2.clusterCache = s.clusterCache) ∧
      (∀ c, mergeLoop names i ws s = MergeResult.returned c → c = s.clusterCache) ∧
      (∀ reason c, mergeLoop names i ws s = MergeResult.panicked reason c →
        c = s.clusterCache)
  | [], i, s => by
    refine ⟨?_, by simp [mergeLoop], by simp [mergeLoop]⟩
    intro s2 h
    simp only [mergeLoop, MergeResult.finished.injEq] at h
    rw [← h]
  | w :: ws, i, s => by
    unfold mergeLoop
    cases names[i]? with
    | none => simp
    | some name =>
      have hstep := mergeStep_cache i name (recordedBody w) s
      cases hm : mergeStep i name (recordedBody w) s with
      | finished s1 =>
        have h1 := hstep.1 s1 hm
        have ih := mergeLoop_cache names ws (i + 1) s1
        simp only [hm]
        rw [← h1]
        exact ih
      | returned c =>
        have h1 := hstep.2.1 c hm
        simp [hm, h1]
      | panicked reason c =>
        have h1 := hstep.2.2 reason c hm
        simp [hm, h1]

/-- The method `aggregateServer.ServeHTTP` hands back the route cache it was
given. -/
theorem serveHTTP_cache (env : Env) (S : aggregateServer) (clusterCache : ClusterCache)
    (r : Request) : (S.ServeHTTP env clusterCache r).2 = clusterCache := by
  unfold aggregateServer.ServeHTTP
  cases S.record env S.cfgs r with
  | aborted a => rfl
  | done trace req ws =>
    have hloop := mergeLoop_cache S.clusterNames ws 0
      { table := none, list := none, clusterCache := clusterCache }
    cases hm : mergeLoop S.clusterNames 0 ws
        { table := none, list := none, clusterCache := clusterCache } with
    | panicked reason c =>
      simp only [hm]
      exact hloop.2.2 reason c hm
    | returned c =>
      simp only [hm]
      exact hloop.2.1 c hm
    | finished s =>
      have h1 := hloop.1 s hm
      simp only [hm]
      cases s.list with
      | none => exact h1
      | some list => exact h1

/-- The top handler hands back the route cache it was given. -/
theorem newTopProxyHandler_cache (env : Env) (filebase apiProxyPrefix staticPrefix : String)
    (filter : Option FilterServer) (cfg : RestConfig) (keepalive : Int)
    (clusterCache : ClusterCache) (r : Request) :
    (newTopProxyHandler env filebase apiProxyPrefix staticPrefix filter cfg keepalive
      clusterCache r).2 = clusterCache := by
  cases hauth : env.authenticator with
  | none => simp only [newTopProxyHandler, hauth]
  | some authenticator =>
    cases hok : authenticator r with
    | error => simp only [newTopProxyHandler, hauth, hok]
    | unauthenticated => simp only [newTopProxyHandler, hauth, hok]
    | ok user =>
      simp only [newTopProxyHandler, hauth, hok]
      split
      · rfl
      · split
        · rfl
        · split
          · rfl
          · split
            · rfl
            · exact serveHTTP_cache _ _ _ _

/-- The route cache is empty after any sequence of requests. -/
theorem cacheAfter_nil (filebase apiProxyPrefix staticPrefix : String)
    (filter : Option FilterServer) (cfg : RestConfig) (keepalive : Int) :
    ∀ steps : List (Env × Request),
      cacheAfter filebase apiProxyPrefix staticPrefix filter cfg keepalive steps = []
  | [] => rfl
  | step :: steps => by
    simp only [cacheAfter]
    rw [newTopProxyHandler_cache]
    exact cacheAfter_nil filebase apiProxyPrefix staticPrefix filter cfg keepalive steps

/-- C26. `saveTableRowsRoutes` and `saveListItemsRoutes` hand back the route
cache unchanged, and so do the aggregator and the top handler, which are the
only code the cache passes through. Hence after any sequence of requests,
served in any states of the world, the route cache is empty,
`getClusterFromCache` returns "" for every namespace, resource type and resource
name, and an authenticated request for a namespaced resource whose type does
not begin with "Federated" is never served by the cached strategy: after at
most one cache lookup the dispatcher resolves the worker clusters of the
namespace. -/
theorem C26_route_cache_never_populated (filebase apiProxyPrefix staticPrefix : String)
    (filter : Option FilterServer) (cfg : RestConfig) (keepalive : Int)
    (steps : List (Env × Request)) :
    (∀ rows clusterName clusterCache,
      saveTableRowsRoutes rows clusterName clusterCache = clusterCache) ∧
    (∀ items clusterName clusterCache,
      saveListItemsRoutes items clusterName clusterCache = clusterCache) ∧
    (∀ (env : Env) (S : aggregateServer) (clusterCache : ClusterCache) (r : Request),
      (S.ServeHTTP env clusterCache r).2 = clusterCache) ∧
    (∀ (env : Env) (clusterCache : ClusterCache) (r : Request),
      (newTopProxyHandler env filebase apiProxyPrefix staticPrefix filter cfg keepalive
        clusterCache r).2 = clusterCache) ∧
    cacheAfter filebase apiProxyPrefix staticPrefix filter cfg keepalive steps = [] ∧
    (∀ ns resourceType resourceName,
      getClusterFromCache
        (cacheAfter filebase apiProxyPrefix staticPrefix filter cfg keepalive steps)
        ns resourceType resourceName = "") ∧
    (∀ (env : Env) (r : Request) (authenticator : Request → AuthResult) (user : UserInfo)
        (ns resourceType resourceName : String),
      env.authenticator = some authenticator → authenticator r = AuthResult.ok user →
      getNamespaceTypeNameFromPath r.path = (ns, resourceType, resourceName) → ns ≠ "" →
      HasPrefix resourceType "Federated" = false →
      ∃ rest,
        (newTopProxyHandler env filebase apiProxyPrefix staticPrefix filter cfg keepalive
          (cacheAfter filebase apiProxyPrefix staticPrefix filter cfg keepalive steps)
          r).1.trace =
          (if resourceName ≠ "" then [Event.getClusterFromCache ns resourceType resourceName]
            else []) ++ Event.getWorkerClustersFromNamespace ns :: rest) := by
  have hnil := cacheAfter_nil filebase apiProxyPrefix staticPrefix filter cfg keepalive steps
  refine ⟨fun _ _ _ => rfl, fun _ _ _ => rfl, fun env S c r => serveHTTP_cache env S c r,
    fun env c r => newTopProxyHandler_cache env _ _ _ _ _ _ c r, hnil, ?_, ?_⟩
  · intro ns resourceType resourceName
    rw [hnil]
    rfl
  · intro env r authenticator user ns resourceType resourceName hauth hok hpath hns hfed
    rw [hnil]
    have hcond : ¬ (resourceName ≠ "" ∧
        getClusterFromCache [] ns resourceType resourceName ≠ "") := by
      rintro ⟨_, h2⟩
      exact h2 rfl
    simp only [newTopProxyHandler, hauth, hok, hpath, hns, if_false, needToGetFromMaster, hfed,
      Bool.false_eq_true, hcond]
    split
    · exact Served.after_trace_split _ _ _ _
    · exact Served.after_trace_split _ _ _ _

/-- C26, on the sample federation: after a table listing of `team-a`, then a
pod listing of `solo`, the route cache is empty, and a request for the pod
`pod-a` of `team-a`, which the first answer listed, is not served by the cached
strategy but fans out to the workers. -/
theorem C26_route_cache_never_populated_witness :
    ((∀ rows clusterName clusterCache,
      saveTableRowsRoutes rows clusterName clusterCache = clusterCache) ∧
    (∀ items clusterName clusterCache,
      saveListItemsRoutes items clusterName clusterCache = clusterCache) ∧
    (∀ (env : Env) (S : aggregateServer) (clusterCache : ClusterCache) (r : Request),
      (S.ServeHTTP env clusterCache r).2 = clusterCache) ∧
    (∀ (env : Env) (clusterCache : ClusterCache) (r : Request),
      (newTopProxyHandler env "" "/" "/static/" none Sample.localConfig 5
        clusterCache r).2 = clusterCache) ∧
    cacheAfter "" "/" "/static/" none Sample.localConfig 5
      [(Sample.env Sample.podList, Sample.get "/api/v1/namespaces/solo/pods"),
       (Sample.env Sample.podTable, Sample.podsRequest)] = [] ∧
    (∀ ns resourceType resourceName,
      getClusterFromCache
        (cacheAfter "" "/" "/static/" none Sample.localConfig 5
          [(Sample.env Sample.podList, Sample.get "/api/v1/namespaces/solo/pods"),
           (Sample.env Sample.podTable, Sample.podsRequest)])
        ns resourceType resourceName = "") ∧
    (∀ (env : Env) (r : Request) (authenticator : Request → AuthResult) (user : UserInfo)
        (ns resourceType resourceName : String),
      env.authenticator = some authenticator → authenticator r = AuthResult.ok user →
      getNamespaceTypeNameFromPath r.path = (ns, resourceType, resourceName) → ns ≠ "" →
      HasPrefix resourceType "Federated" = false →
      ∃ rest,
        (newTopProxyHandler env "" "/" "/static/" none Sample.localConfig 5
          (cacheAfter "" "/" "/static/" none Sample.localConfig 5
            [(Sample.env Sample.podList, Sample.get "/api/v1/namespaces/solo/pods"),
             (Sample.env Sample.podTable, Sample.podsRequest)])
          r).1.trace =
          (if resourceName ≠ "" then [Event.getClusterFromCache ns resourceType resourceName]
            else []) ++ Event.getWorkerClustersFromNamespace ns :: rest)) ∧
    ((Sample.top Sample.podTable
        (cacheAfter "" "/" "/static/" none Sample.localConfig 5
          [(Sample.env Sample.podList, Sample.get "/api/v1/namespaces/solo/pods"),
           (Sample.env Sample.podTable, Sample.podsRequest)])
        (Sample.get "/api/v1/namespaces/team-a/pods/pod-a")).1.trace.take 3 =
      [Event.getClusterFromCache "team-a" "pods" "pod-a",
       Event.getWorkerClustersFromNamespace "team-a",
       Event.getRestConfigsForClusters ["w1", "w2"]]) :=
  ⟨C26_route_cache_never_populated "" "/" "/static/" none Sample.localConfig 5
      [(Sample.env Sample.podList, Sample.get "/api/v1/namespaces/solo/pods"),
       (Sample.env Sample.podTable, Sample.podsRequest)],
    by decide⟩

/-! ### Mixed kinds -/

/-- C27 (refuted). The worker `w1` answers with a `Table` and the worker `w2`
with a `PodList`: both bodies are JSON objects of a kind the merge recognises,
there are as many cluster names as responses, and the merge dereferences the nil
`list` at the second response. The handler panics and nothing is written. -/
theorem C27_mixed_kinds_panic :
    Sample.aggregate.clusterNames.length = 2 ∧
    Sample.aggregate.cfgs.length = 2 ∧
    Interpret (recordedBody (Sample.mixedKinds (Sample.outbound "w1" Sample.podsRequest))) =
      some { group := "meta.k8s.io", version := "v1beta1", kind := "Table" } ∧
    Interpret (recordedBody (Sample.mixedKinds (Sample.outbound "w2" Sample.podsRequest))) =
      some { group := "", version := "v1", kind := "PodList" } ∧
    HasSuffix "PodList" "List" = true ∧
    Sample.aggregate.ServeHTTP (Sample.env Sample.mixedKinds) [] Sample.podsRequest =
      ({ trace := Sample.aggregateTrace Sample.podsRequest, req := Sample.podsRequest,
         result := Outcome.panicked "nil pointer dereference: list.Items" }, []) := by
  refine ⟨by decide, by decide, by decide, by decide, by decide, by decide⟩

/-! ### Route-cache keys -/

/-- Two keys `ns/type/name` whose namespace and type hold no slash are equal
only when their three components are. -/
theorem key_components (ns1 ty1 nm1 ns2 ty2 nm2 : List Char)
    (h1 : '/' ∉ ns1) (h2 : '/' ∉ ty1) (h3 : '/' ∉ ns2) (h4 : '/' ∉ ty2)
    (h : ns1 ++ '/' :: (ty1 ++ '/' :: nm1) = ns2 ++ '/' :: (ty2 ++ '/' :: nm2)) :
    ns1 = ns2 ∧ ty1 = ty2 ∧ nm1 = nm2 := by
  have hns : ns1 = ns2 := eq_of_prefix_slash ns1 ns2 _ _ h1 h3 (by rw [h])
  subst hns
  have h5 : ty1 ++ '/' :: nm1 = ty2 ++ '/' :: nm2 := by
    have := List.append_cancel_left h
    exact (List.cons.inj this).2
  have hty : ty1 = ty2 := eq_of_prefix_slash ty1 ty2 _ _ h2 h4 (by rw [h5])
  subst hty
  have h6 := List.append_cancel_left h5
  exact ⟨rfl, rfl, (List.cons.inj h6).2⟩

/-- The classifier returns a namespace and a resource type without slash. -/
theorem classified_without_slash (path : String) :
    ∃ ns ty nm : List Char,
      getNamespaceTypeNameFromPath path = (String.mk ns, String.mk ty, String.mk nm) ∧
      '/' ∉ ns ∧ '/' ∉ ty := by
  rcases getNamespaceTypeNameFromPath_cases path with h | ⟨ns, ty, nm, h, hns, hty, _⟩
  · exact ⟨[], [], [], h, by simp, by simp⟩
  · refine ⟨ns, ty, nm, h, ?_, ?_⟩
    · intro hmem
      have := hns _ hmem
      simp [notSlash] at this
    · intro hmem
      have := hty _ hmem
      simp [notSlash] at this

/-- C28. `getClusterFromCache` reads the route cache at the key
`cacheKey ns type name`, the text `ns/type/name`; and when the keys built from
the classified triples of two paths are equal, the two triples are equal. -/
theorem C28_cache_key_injective (p q : String)
    (hkey :
      cacheKey (getNamespaceTypeNameFromPath p).1 (getNamespaceTypeNameFromPath p).2.1
          (getNamespaceTypeNameFromPath p).2.2 =
        cacheKey (getNamespaceTypeNameFromPath q).1 (getNamespaceTypeNameFromPath q).2.1
          (getNamespaceTypeNameFromPath q).2.2) :
    getNamespaceTypeNameFromPath p = getNamespaceTypeNameFromPath q ∧
    (∀ (clusterCache : ClusterCache) (ns resourceType resourceName : String),
      getClusterFromCache clusterCache ns resourceType resourceName =
        (clusterCache.lookup (cacheKey ns resourceType resourceName)).getD "") ∧
    (∀ clusterCache : ClusterCache,
      getClusterFromCache clusterCache (getNamespaceTypeNameFromPath p).1
          (getNamespaceTypeNameFromPath p).2.1 (getNamespaceTypeNameFromPath p).2.2 =
        getClusterFromCache clusterCache (getNamespaceTypeNameFromPath q).1
          (getNamespaceTypeNameFromPath q).2.1 (getNamespaceTypeNameFromPath q).2.2) := by
  obtain ⟨ns1, ty1, nm1, hp, h1, h2⟩ := classified_without_slash p
  obtain ⟨ns2, ty2, nm2, hq, h3, h4⟩ := classified_without_slash q
  rw [hp, hq] at hkey ⊢
  have hdata := congrArg String.data hkey
  simp only [cacheKey, String.data_append, List.append_assoc] at hdata
  simp only [List.singleton_append] at hdata
  obtain ⟨e1, e2, e3⟩ := key_components ns1 ty1 nm1 ns2 ty2 nm2 h1 h2 h3 h4 hdata
  subst e1 e2 e3
  exact ⟨rfl, fun _ _ _ _ => rfl, fun _ => rfl⟩

/-- C28, on the core and the apps API paths of the same namespace, type and
name. -/
theorem C28_cache_key_injective_witness :
    cacheKey (getNamespaceTypeNameFromPath "/api/v1/namespaces/team-a/pods/web-0").1
        (getNamespaceTypeNameFromPath "/api/v1/namespaces/team-a/pods/web-0").2.1
        (getNamespaceTypeNameFromPath "/api/v1/namespaces/team-a/pods/web-0").2.2 =
      "team-a/pods/web-0" ∧
    getNamespaceTypeNameFromPath "/api/v1/namespaces/team-a/pods/web-0" =
      getNamespaceTypeNameFromPath "/apis/apps/v1/namespaces/team-a/pods/web-0" :=
  ⟨by decide,
    (C28_cache_key_injective "/api/v1/namespaces/team-a/pods/web-0"
      "/apis/apps/v1/namespaces/team-a/pods/web-0" (by decide)).1⟩

/-! ### A body of unrecognised kind -/

/-- The merge of a list of responses followed by more: when the merge of the
first ones runs to its end, the merge goes on with the others from there. -/
theorem mergeLoop_append (names : List String) (rest : List Response) :
    ∀ (ws : List Response) (i : Nat) (s s1 : MergeState),
      mergeLoop names i ws s = MergeResult.finished s1 →
      mergeLoop names i (ws ++ rest) s = mergeLoop names (i + ws.length) rest s1
  | [], i, s, s1, h => by
    simp only [mergeLoop, MergeResult.finished.injEq] at h
    subst h
    simp
  | w :: ws, i, s, s1, h => by
    simp only [List.cons_append, List.length_cons]
    unfold mergeLoop at h ⊢
    cases hn : names[i]? with
    | none => simp [hn] at h
    | some name =>
      cases hm : mergeStep i name (recordedBody w) s with
      | finished s2 =>
        simp only [hn, hm] at h ⊢
        rw [mergeLoop_append names rest ws (i + 1) s2 s1 h]
        have hi : i + 1 + ws.length = i + (ws.length + 1) := by omega
        rw [hi]
        cases rest <;> rfl
      | returned c => simp [hn, hm] at h
      | panicked reason c => simp [hn, hm] at h

/-- The merge of bodies that are all tables, or all lists, runs to its end when
there is a cluster name for each. -/
theorem mergeLoop_one_kind (names : List String) (clusterCache : ClusterCache)
    (ws : List Response) (hnames : ws.length ≤ names.length)
    (hkind :
      (∀ v ∈ ws, ∃ g, Interpret (recordedBody v) = some g ∧ g.kind = "Table") ∨
      (∀ v ∈ ws, ∃ g, Interpret (recordedBody v) = some g ∧ HasSuffix g.kind "List" = true)) :
    ∃ s1, mergeLoop names 0 ws { table := none, list := none, clusterCache := clusterCache } =
      MergeResult.finished s1 := by
  cases ws with
  | nil => exact ⟨_, rfl⟩
  | cons w0 ws =>
    have hlt : 0 < names.length := by
      simp only [List.length_cons] at hnames
      omega
    have hlen : 1 + ws.length ≤ names.length := by
      simp only [List.length_cons] at hnames
      omega
    rcases hkind with hall | hall
    · obtain ⟨g, hg, hk⟩ := hall w0 (List.mem_cons_self _ _)
      simp only [mergeLoop, List.getElem?_eq_getElem hlt, mergeStep, hg, hk, if_true,
        saveTableRowsRoutes]
      exact ⟨_, mergeLoop_tables names ws 1 _ _ (by omega) rfl hlen
        (fun v hv => hall v (List.mem_cons_of_mem _ hv))⟩
    · obtain ⟨g, hg, hsuf⟩ := hall w0 (List.mem_cons_self _ _)
      have hne : g.kind ≠ "Table" := kind_list_ne_table _ hsuf
      simp only [mergeLoop, List.getElem?_eq_getElem hlt, mergeStep, hg, hne, if_false, hsuf,
        if_true, saveListItemsRoutes]
      exact ⟨_, mergeLoop_lists names ws 1 _ _ (by omega) rfl hlen
        (fun v hv => hall v (List.mem_cons_of_mem _ hv))⟩

/-- The last branch of the merge. Every backend was served, there is a cluster
name for each, and `Interpret` reads from the body of one backend, at any
index, a kind that is neither "Table" nor ends in "List", while the bodies
before it are all tables or all lists. Then `aggregateServer.ServeHTTP` returns
having written nothing: no status, no header and no body; the route cache is as
before. -/
theorem serveHTTP_unrecognised_kind (env : Env) (S : aggregateServer)
    (clusterCache : ClusterCache) (r : Request) (trace : List Event) (req : Request)
    (ws1 : List Response) (w : Response) (ws2 : List Response) (gvk : GroupVersionKind)
    (hrec : S.record env S.cfgs r = Collected.done trace req (ws1 ++ w :: ws2))
    (hnames : (ws1 ++ w :: ws2).length ≤ S.clusterNames.length)
    (hearlier :
      (∀ v ∈ ws1, ∃ g, Interpret (recordedBody v) = some g ∧ g.kind = "Table") ∨
      (∀ v ∈ ws1, ∃ g, Interpret (recordedBody v) = some g ∧ HasSuffix g.kind "List" = true))
    (hgvk : Interpret (recordedBody w) = some gvk)
    (hnt : gvk.kind ≠ "Table") (hnl : HasSuffix gvk.kind "List" = false) :
    S.ServeHTTP env clusterCache r =
      ({ trace := trace, req := req,
         result := Outcome.returned { status := none, header := [], body := none } },
       clusterCache) := by
  have hlen : ws1.length < S.clusterNames.length := by
    simp only [List.length_append, List.length_cons] at hnames
    omega
  obtain ⟨s1, hs1⟩ := mergeLoop_one_kind S.clusterNames clusterCache ws1 (by omega) hearlier
  have hcache : s1.clusterCache = clusterCache :=
    (mergeLoop_cache S.clusterNames ws1 0 _).1 s1 hs1
  have hloop : mergeLoop S.clusterNames 0 (ws1 ++ w :: ws2)
      { table := none, list := none, clusterCache := clusterCache } =
      MergeResult.returned clusterCache := by
    rw [mergeLoop_append S.clusterNames (w :: ws2) ws1 0 _ s1 hs1]
    simp only [Nat.zero_add, mergeLoop, List.getElem?_eq_getElem hlen, mergeStep, hgvk, hnt,
      if_false, hnl, Bool.false_eq_true, hcache]
  simp only [aggregateServer.ServeHTTP, hrec, hloop, Response.empty]

/-! ### The request shared by the backends of an aggregator -/

/-- C5 (refuted). The proxy runs with `--api-prefix=/proxy`; namespace `team-a`
is placed on `w1` and `w2`, and both answer every request with a `PodList` of
two items. The proxy for `w1` strips the prefix from the path of the request,
which is the same request for every backend; the proxy for `w2` then finds a
path that does not begin with the prefix and answers 404 into its recorder
without asking `w2`. The merge reads no kind from that text and dereferences
the nil `gvk`: the handler panics and writes no item. With the default prefix
`/` the same backends give the four items, `w1` first. -/
theorem C5_second_backend_gets_stripped_path :
    (∀ o : Outbound,
      Interpret (recordedBody (Sample.podList o)) =
        some { group := "", version := "v1", kind := "PodList" }) ∧
    HasSuffix "PodList" "List" = true ∧
    Sample.topUnderProxy Sample.podList Sample.proxiedPodsRequest =
      ({ trace :=
           [Event.getWorkerClustersFromNamespace "team-a",
            Event.getRestConfigsForClusters ["w1", "w2"],
            Event.newAggregateProxyHandler ["w1", "w2"]
              [Sample.configOf "w1", Sample.configOf "w2"],
            Event.newDynamicProxyHandler (Sample.configOf "w1") 0 Sample.aliceConfig,
            Event.roundTrip (Sample.outbound "w1" Sample.podsRequest),
            Event.newDynamicProxyHandler (Sample.configOf "w2") 0 Sample.aliceConfig],
         req := Sample.podsRequest,
         result := Outcome.panicked "nil pointer dereference: gvk.Kind" }, []) ∧
    Sample.aggregateUnderProxy.record (Sample.env Sample.podList) Sample.aggregateUnderProxy.cfgs
        Sample.proxiedPodsRequest =
      Collected.done
        [Event.newDynamicProxyHandler (Sample.configOf "w1") 0 Sample.aliceConfig,
         Event.roundTrip (Sample.outbound "w1" Sample.podsRequest),
         Event.newDynamicProxyHandler (Sample.configOf "w2") 0 Sample.aliceConfig]
        Sample.podsRequest
        [Sample.podList (Sample.outbound "w1" Sample.podsRequest),
         httpError "404 page not found" 404] ∧
    (Sample.defaultTop Sample.podList Sample.podsRequest).1.result =
      Outcome.returned (writeJSON (Payload.object Sample.mergedPods)) := by
  refine ⟨fun _ => rfl, by decide, by decide, rfl, by decide⟩

/-- C6 (refuted). The proxy runs with the default flags; `w1` and `w2` answer
with a `Table` whose one row has the cells `"https://w1"` (`"https://w2"`) and
`9007199254740993`. The rows are decoded into `interface{}` cells, where a
number is a `float64`, so the merged rows carry `9007199254740992`: the cells
before the cluster name are not the original cells. Under the prefix `/proxy/`
the same backends give no row at all: the handler panics as for lists. -/
theorem C6_integer_cell_rounded :
    (∀ o : Outbound,
      (Sample.sizeTable o).body =
        some (Payload.object
          { apiVersion := "meta.k8s.io/v1beta1", kind := "Table", metadata := ListMeta.zero,
            columnDefinitions := [Sample.nameColumn, Sample.sizeColumn],
            rows := [{ cells := [Cell.str o.cfg.host, Cell.int 9007199254740993],
                       conditions := "", object := "" }],
            items := [] })) ∧
    Sample.defaultTop Sample.sizeTable Sample.podsRequest =
      ({ trace :=
           [Event.getWorkerClustersFromNamespace "team-a",
            Event.getRestConfigsForClusters ["w1", "w2"],
            Event.newAggregateProxyHandler ["w1", "w2"]
              [Sample.configOf "w1", Sample.configOf "w2"],
            Event.newDynamicProxyHandler (Sample.configOf "w1") 0 Sample.aliceConfig,
            Event.roundTrip (Sample.outbound "w1" Sample.podsRequest),
            Event.newDynamicProxyHandler (Sample.configOf "w2") 0 Sample.aliceConfig,
            Event.roundTrip (Sample.outbound "w2" Sample.podsRequest)],
         req := Sample.podsRequest,
         result := Outcome.returned (writeJSON (Payload.object
           { apiVersion := "meta.k8s.io/v1beta1", kind := "Table", metadata := ListMeta.zero,
             columnDefinitions :=
               [Sample.nameColumn, Sample.sizeColumn,
                { name := "Cluster", type := "string", format := "",
                  description := "Cluster name which this resource belongs to", priority := 0 }],
             rows :=
               [{ cells := [Cell.str "https://w1", Cell.int 9007199254740992, Cell.str "w1"],
                  conditions := "", object := "" },
                { cells := [Cell.str "https://w2", Cell.int 9007199254740992, Cell.str "w2"],
                  conditions := "", object := "" }],
             items := [] })) }, []) ∧
    decodeCell (Cell.int 9007199254740993) = Cell.int 9007199254740992 ∧
    Cell.int 9007199254740992 ≠ Cell.int 9007199254740993 ∧
    (Sample.topUnderProxy Sample.sizeTable Sample.proxiedPodsRequest).1.result =
      Outcome.panicked "nil pointer dereference: gvk.Kind" := by
  refine ⟨fun _ => rfl, by decide, by decide, by decide, by decide⟩

/-- C7 (refuted). The proxy runs with `--api-prefix=/proxy`; `w1` and `w2` answer
every request with a `Table` of one column definition. As for lists, `w2` is
never asked, its recorder holds the text of the 404 answer, and the merge
panics on the nil `gvk`: no table is written, with no column definition at
all. With the default prefix, a definition whose priority does not fit the
`int32` field (here `2147483648`) comes out with priority 0: it is not
unchanged. -/
theorem C7_no_table_under_stripped_prefix :
    (∀ o : Outbound,
      Interpret (recordedBody (Sample.podTable o)) =
        some { group := "meta.k8s.io", version := "v1beta1", kind := "Table" }) ∧
    (∀ o : Outbound,
      (unmarshalTable (recordedBody (Sample.podTable o))).columnDefinitions =
        [Sample.nameColumn]) ∧
    Sample.topUnderProxy Sample.podTable Sample.proxiedPodsRequest =
      ({ trace :=
           [Event.getWorkerClustersFromNamespace "team-a",
            Event.getRestConfigsForClusters ["w1", "w2"],
            Event.newAggregateProxyHandler ["w1", "w2"]
              [Sample.configOf "w1", Sample.configOf "w2"],
            Event.newDynamicProxyHandler (Sample.configOf "w1") 0 Sample.aliceConfig,
            Event.roundTrip (Sample.outbound "w1" Sample.podsRequest),
            Event.newDynamicProxyHandler (Sample.configOf "w2") 0 Sample.aliceConfig],
         req := Sample.podsRequest,
         result := Outcome.panicked "nil pointer dereference: gvk.Kind" }, []) ∧
    Sample.aggregateUnderProxy.record (Sample.env Sample.podTable)
        Sample.aggregateUnderProxy.cfgs Sample.proxiedPodsRequest =
      Collected.done
        [Event.newDynamicProxyHandler (Sample.configOf "w1") 0 Sample.aliceConfig,
         Event.roundTrip (Sample.outbound "w1" Sample.podsRequest),
         Event.newDynamicProxyHandler (Sample.configOf "w2") 0 Sample.aliceConfig]
        Sample.podsRequest
        [Sample.podTable (Sample.outbound "w1" Sample.podsRequest),
         httpError "404 page not found" 404] ∧
    (∀ o : Outbound,
      (Sample.priorityTable o).body =
        some (Payload.object
          { apiVersion := "meta.k8s.io/v1beta1", kind := "Table", metadata := ListMeta.zero,
            columnDefinitions :=
              [{ name := "Name", type := "string", format := "name",
                 description := "Name of the pod", priority := 2147483648 }],
            rows := [{ cells := [Cell.str o.cfg.host], conditions := "", object := "" }],
            items := [] })) ∧
    (Sample.defaultTop Sample.priorityTable Sample.podsRequest).1.result =
      Outcome.returned (writeJSON (Payload.object
        { apiVersion := "meta.k8s.io/v1beta1", kind := "Table", metadata := ListMeta.zero,
          columnDefinitions :=
            [{ name := "Name", type := "string", format := "name",
               description := "Name of the pod", priority := 0 },
             { name := "Cluster", type := "string", format := "",
               description := "Cluster name which this resource belongs to", priority := 0 }],
          rows :=
            [{ cells := [Cell.str "https://w1", Cell.str "w1"], conditions := "", object := "" },
             { cells := [Cell.str "https://w2", Cell.str "w2"], conditions := "", object := "" }],
          items := [] })) := by
  refine ⟨fun _ => rfl, fun _ => rfl, by decide, rfl, fun _ => rfl, by decide⟩

/-! ### A path equal to the prefix -/

/-- C21 (refuted). With the default `--api-prefix`, which is `/` and does not
begin with `/api`, the request path `/` begins with the prefix, and
`stripLeaveSlash` hands on the empty path, which does not start with a slash:
the slash is put back only in front of a remainder that is not empty. In the
default proxy the filter and the backend proxy are given the request with the
empty path. The same holds for the prefix `/proxy/` and the request path
`/proxy/`. -/
theorem C21_path_equal_to_prefix :
    Sample.defaultFlags.apiPrefix = "/" ∧
    HasPrefix "/" "/api" = false ∧
    HasPrefix (Sample.get "/").path "/" = true ∧
    (∀ h : Handler, stripLeaveSlash "/" h (Sample.get "/") = h (Sample.get "")) ∧
    HasPrefix (Sample.get "").path "/" = false ∧
    (newDynamicProxyHandler (Sample.env Sample.podList) "" "/" "/static/" (some defaultFilter)
        Sample.localConfig 0 Sample.aliceConfig).map (fun built => (built (Sample.get "/")).req) =
      some (Sample.get "") ∧
    (Sample.defaultTop Sample.podList (Sample.get "/")).1.req = Sample.get "" ∧
    HasPrefix "/proxy/" "/api" = false ∧
    HasPrefix (Sample.get "/proxy/").path "/proxy/" = true ∧
    (∀ h : Handler, stripLeaveSlash "/proxy/" h (Sample.get "/proxy/") = h (Sample.get "")) ∧
    (Sample.topUnderProxy Sample.podList (Sample.get "/proxy/")).1.req = Sample.get "" := by
  refine ⟨rfl, by decide, by decide, fun _ => rfl, by decide, by decide, by decide, by decide,
    by decide, fun _ => rfl, by decide⟩

/-! ### A body of unrecognised kind whose version cannot be read -/

/-- C29 (refuted). The proxy runs with the default flags; `w1` answers with a
`PodList` and `w2` with a JSON object of kind `Status` whose `apiVersion` is
`a/b/c`. The kind is neither "Table" nor ends in "List" and the one earlier body
is a list, but `Interpret` fails on the version and returns a nil `gvk`, the
error is only logged, and `gvk.Kind` is dereferenced: the handler panics
instead of returning. Under the prefix `/proxy/`, with `w2` answering a `Status`
of version `v1`, the handler panics as well: `w2` is never asked and its
recorder holds the text of a 404 answer. -/
theorem C29_unreadable_version_panics :
    Interpret (recordedBody (Sample.listThenBadStatus
        (Sample.outbound "w1" Sample.podsRequest))) =
      some { group := "", version := "v1", kind := "PodList" } ∧
    recordedBody (Sample.listThenBadStatus (Sample.outbound "w2" Sample.podsRequest)) =
      Payload.object
        { apiVersion := "a/b/c", kind := "Status", metadata := ListMeta.zero,
          columnDefinitions := [], rows := [], items := [] } ∧
    "Status" ≠ "Table" ∧ HasSuffix "Status" "List" = false ∧
    ParseGroupVersion "a/b/c" = none ∧
    Interpret (recordedBody (Sample.listThenBadStatus
        (Sample.outbound "w2" Sample.podsRequest))) = none ∧
    Sample.defaultTop Sample.listThenBadStatus Sample.podsRequest =
      ({ trace :=
           [Event.getWorkerClustersFromNamespace "team-a",
            Event.getRestConfigsForClusters ["w1", "w2"],
            Event.newAggregateProxyHandler ["w1", "w2"]
              [Sample.configOf "w1", Sample.configOf "w2"],
            Event.newDynamicProxyHandler (Sample.configOf "w1") 0 Sample.aliceConfig,
            Event.roundTrip (Sample.outbound "w1" Sample.podsRequest),
            Event.newDynamicProxyHandler (Sample.configOf "w2") 0 Sample.aliceConfig,
            Event.roundTrip (Sample.outbound "w2" Sample.podsRequest)],
         req := Sample.podsRequest,
         result := Outcome.panicked "nil pointer dereference: gvk.Kind" }, []) ∧
    Interpret (recordedBody (Sample.listThenStatus (Sample.outbound "w2" Sample.podsRequest))) =
      some { group := "", version := "v1", kind := "Status" } ∧
    Sample.topUnderProxy Sample.listThenStatus Sample.proxiedPodsRequest =
      ({ trace :=
           [Event.getWorkerClustersFromNamespace "team-a",
            Event.getRestConfigsForClusters ["w1", "w2"],
            Event.newAggregateProxyHandler ["w1", "w2"]
              [Sample.configOf "w1", Sample.configOf "w2"],
            Event.newDynamicProxyHandler (Sample.configOf "w1") 0 Sample.aliceConfig,
            Event.roundTrip (Sample.outbound "w1" Sample.podsRequest),
            Event.newDynamicProxyHandler (Sample.configOf "w2") 0 Sample.aliceConfig],
         req := Sample.podsRequest,
         result := Outcome.panicked "nil pointer dereference: gvk.Kind" }, []) := by
  refine ⟨by decide, by decide, by decide, by decide, by decide, by decide, by decide,
    by decide, by decide⟩

end Proxy
